import Mathlib

/-!
# PowerPages template engine: the theme deployment pipeline

A shallow embedding of the deployment pipeline of the repository:

* `services/powerPagesService.js`: `getAccessToken`, `dataverseRequest`,
  `uploadWebFile`, `deployTheme`, `injectBranding`, `clearSiteCache`,
  `validateThemeStructure`;
* `routes/deploy.js`: the record created by `POST /execute`, `processDeployment`,
  `updateDeploymentStatus`, `downloadAndExtractTheme`, `extractThemeFromZip`;
* `routes/upload.js`: `processThemeDeployment`;
* `models/Theme.js`: `addDeploymentLog`, `updateDeploymentStatus`, `deploymentProgress`.

JavaScript strings are Lean strings, read through their list of characters.
Everything outside the repository that the code awaits (the token provider, `fetch`,
the archive reader, the gallery lookup) is an explicit oracle argument, so every
definition is a total, computable function of its inputs and the oracle.

Conventions of the embedding:

* a thrown error is the `Except.error` (or `some`) of its message;
* `theme.save()` persists the record as it is in memory: a run keeps the list of the
  records saved, in order, and schema validation by the persistence layer is not
  part of the model;
* the timestamps of log entries are left out; `completedAt` and `deployedAt` hold the
  reading of the clock supplied by the oracle;
* `sleep` and logging have no effect on the state.
-/

namespace PowerPages

/-! ## JavaScript string primitives -/

/-- Model of `String.prototype.toLowerCase`. Only `A`-`Z` are mapped; every literal the code
compares a lower-cased name with (`index.html`, `/index.html`, `.css`, `.js`,
`bootstrap`) consists of ASCII characters that no non-ASCII character lower-cases to,
so the comparisons of the code have the same outcome here. -/
def toLowerCase (s : String) : String := String.mk (s.data.map Char.toLower)

/-- Model of `String.prototype.endsWith`. -/
def endsWith (s suffix : String) : Bool := suffix.data.isSuffixOf s.data

/-- Whether `sub` occurs in `s` as a contiguous run of characters. -/
def includesChars (sub : List Char) : List Char → Bool
  | [] => sub.isEmpty
  | c :: cs => sub.isPrefixOf (c :: cs) || includesChars sub cs

/-- Model of `String.prototype.includes`. -/
def includes (s sub : String) : Bool := includesChars sub.data s.data

/-- Truthiness of an optional string: `undefined` and `''` are falsy. -/
def truthy : Option String → Bool
  | some s => s != ""
  | none => false

/-- The operator `a || fallback` for an optional string `a` and a string literal. -/
def orElse (a : Option String) (fallback : String) : String :=
  match a with
  | some s => if s != "" then s else fallback
  | none => fallback

/-- The conversion `ToString` of a possibly `undefined` string, as applied by template literals and
by `String.prototype.replace` to its replacement argument. -/
def jsToString : Option String → String
  | some s => s
  | none => "undefined"

/-! ## Node `Buffer`: base64 and UTF-8 -/

/-- Value of a character in the two base64 alphabets `Buffer.from(s, 'base64')`
accepts (standard and URL-safe); `none` for every other character. -/
def unbase64 (c : Char) : Option Nat :=
  let n := c.toNat
  if 65 ≤ n ∧ n ≤ 90 then some (n - 65)
  else if 97 ≤ n ∧ n ≤ 122 then some (n - 71)
  else if 48 ≤ n ∧ n ≤ 57 then some (n + 4)
  else if n = 43 ∨ n = 45 then some 62
  else if n = 47 ∨ n = 95 then some 63
  else none

/-- Bytes of a run of 6-bit values: four values give three bytes, a final group of
three gives two bytes, of two gives one byte, and a single left-over value none. -/
def decodeSextets : List Nat → List Nat
  | a :: b :: c :: d :: rest =>
    (a * 4 + b / 16) :: ((b % 16) * 16 + c / 4) :: ((c % 4) * 64 + d) :: decodeSextets rest
  | [a, b, c] => [a * 4 + b / 16, (b % 16) * 16 + c / 4]
  | [a, b] => [a * 4 + b / 16]
  | _ => []

/-- Model of `Buffer.from(s, 'base64')`: decoding stops at the first `=`, characters outside
the alphabets are skipped. The contents the program writes itself
(`toString('base64')`) are padded strings over the standard alphabet. -/
def base64Decode (s : String) : List Nat :=
  decodeSextets ((s.data.takeWhile (fun c => c != '=')).filterMap unbase64)

/-- The base64 digit of a 6-bit value. -/
def base64Char (n : Nat) : Char :=
  if n < 26 then Char.ofNat (65 + n)
  else if n < 52 then Char.ofNat (71 + n)
  else if n < 62 then Char.ofNat (n - 4)
  else if n = 62 then '+'
  else '/'

/-- Base64 digits of a byte sequence, padded with `=`. -/
def encodeBytes : List Nat → List Char
  | a :: b :: c :: rest =>
    base64Char (a / 4) :: base64Char ((a % 4) * 16 + b / 16) ::
      base64Char ((b % 16) * 4 + c / 64) :: base64Char (c % 64) :: encodeBytes rest
  | [a, b] => [base64Char (a / 4), base64Char ((a % 4) * 16 + b / 16), base64Char ((b % 16) * 4), '=']
  | [a] => [base64Char (a / 4), base64Char ((a % 4) * 16), '=', '=']
  | [] => []

/-- Model of `buffer.toString('base64')`. -/
def base64Encode (bytes : List Nat) : String := String.mk (encodeBytes bytes)

/-- UTF-8 bytes of one character. -/
def utf8EncodeChar (c : Char) : List Nat :=
  let n := c.toNat
  if n < 0x80 then [n]
  else if n < 0x800 then [0xC0 + n / 64, 0x80 + n % 64]
  else if n < 0x10000 then [0xE0 + n / 4096, 0x80 + (n / 64) % 64, 0x80 + n % 64]
  else [0xF0 + n / 262144, 0x80 + (n / 4096) % 64, 0x80 + (n / 64) % 64, 0x80 + n % 64]

/-- Model of `Buffer.from(text)` (UTF-8 is the default encoding). -/
def utf8Encode (s : String) : List Nat := s.data.flatMap utf8EncodeChar

/-- State of the UTF-8 decoder between two bytes. -/
structure Utf8State where
  codePoint : Nat := 0
  bytesNeeded : Nat := 0
  bytesSeen : Nat := 0
  lower : Nat := 0x80
  upper : Nat := 0xBF
deriving DecidableEq, Repr

/-- The replacement character U+FFFD. -/
def replacementChar : Char := Char.ofNat 0xFFFD

/-- The decoder on a lead byte (no sequence is open). -/
def utf8Lead (b : Nat) : Utf8State × List Char :=
  if b < 0x80 then ({}, [Char.ofNat b])
  else if 0xC2 ≤ b ∧ b ≤ 0xDF then ({ codePoint := b % 32, bytesNeeded := 1 }, [])
  else if 0xE0 ≤ b ∧ b ≤ 0xEF then
    ({ codePoint := b % 16, bytesNeeded := 2,
       lower := if b = 0xE0 then 0xA0 else 0x80,
       upper := if b = 0xED then 0x9F else 0xBF }, [])
  else if 0xF0 ≤ b ∧ b ≤ 0xF4 then
    ({ codePoint := b % 8, bytesNeeded := 3,
       lower := if b = 0xF0 then 0x90 else 0x80,
       upper := if b = 0xF4 then 0x8F else 0xBF }, [])
  else ({}, [replacementChar])

/-- One step of the decoder: an ill-formed sequence yields U+FFFD and the offending
byte is read again as a lead byte. -/
def utf8Step (st : Utf8State) (b : Nat) : Utf8State × List Char :=
  if st.bytesNeeded = 0 then utf8Lead b
  else if b < st.lower ∨ st.upper < b then
    let r := utf8Lead b
    (r.1, replacementChar :: r.2)
  else
    let cp := st.codePoint * 64 + b % 64
    if st.bytesSeen + 1 = st.bytesNeeded then ({}, [Char.ofNat cp])
    else ({ codePoint := cp, bytesNeeded := st.bytesNeeded, bytesSeen := st.bytesSeen + 1 }, [])

/-- The decoder over a byte sequence; a sequence still open at the end yields U+FFFD. -/
def utf8DecodeFrom : Utf8State → List Nat → List Char
  | st, [] => if st.bytesNeeded = 0 then [] else [replacementChar]
  | st, b :: rest =>
    let r := utf8Step st b
    r.2 ++ utf8DecodeFrom r.1 rest

/-- Model of `buffer.toString('utf8')`. -/
def utf8Decode (bytes : List Nat) : String := String.mk (utf8DecodeFrom {} bytes)

/-- The expression `Buffer.from(content, 'base64').toString('utf8')`. -/
def decodeContent (content : String) : String := utf8Decode (base64Decode content)

/-- The expression `Buffer.from(text).toString('base64')`. -/
def encodeContent (text : String) : String := base64Encode (utf8Encode text)

/-! ## Theme files and the structure validator -/

/-- A theme file as built by `extractThemeFromZip`: `content` is base64 text. -/
structure ThemeFile where
  name : String
  partialUrl : String
  mimeType : String
  content : String
deriving DecidableEq, Repr

/-- Result of `validateThemeStructure`. -/
structure ValidationResult where
  isValid : Bool
  errors : List String
  warnings : List String
deriving DecidableEq, Repr

/-- The error pushed when a theme has no entry point. -/
def missingIndexMessage : String :=
  "Missing index.html - every theme must have an entry point"

/-- The warning pushed when no file ends in `.css`. -/
def noCssMessage : String := "No CSS files found - theme may not display correctly"

/-- The warning pushed when no Bootstrap file is found. -/
def noBootstrapMessage : String :=
  "Bootstrap files not detected - ensure Bootstrap is properly included"

/-- The warning pushed when `count` files exceed the size limit. -/
def oversizeMessage (count : Nat) : String :=
  toString count ++ " file(s) exceed 5MB and may affect performance"

/-- The predicate of the entry-point rule, on a lower-cased name. -/
def isIndexName (f : String) : Bool := f == "index.html" || endsWith f "/index.html"

/-- The predicate of the Bootstrap rule, on a lower-cased name. -/
def isBootstrapName (f : String) : Bool :=
  includes f "bootstrap" && (endsWith f ".css" || endsWith f ".js")

/-- Decoded size of a file: `Buffer.from(f.content, 'base64').length`. -/
def decodedSize (f : ThemeFile) : Nat := (base64Decode f.content).length

/-- The method `validateThemeStructure(themeFiles)` of `powerPagesService.js`. -/
def validateThemeStructure (themeFiles : List ThemeFile) : ValidationResult :=
  let fileNames := themeFiles.map (fun f => toLowerCase f.name)
  let errors : List String :=
    if !fileNames.any isIndexName then [missingIndexMessage] else []
  let warnings1 : List String :=
    if !fileNames.any (fun f => endsWith f ".css") then [noCssMessage] else []
  let hasBootstrap := fileNames.any isBootstrapName
  let warnings2 := if !hasBootstrap then warnings1 ++ [noBootstrapMessage] else warnings1
  let largeFiles := themeFiles.filter (fun f => decide (decodedSize f > 5 * 1024 * 1024))
  let warnings3 :=
    if largeFiles.length > 0 then
      warnings2 ++ [toString largeFiles.length ++ " file(s) exceed 5MB and may affect performance"]
    else warnings2
  { isValid := errors.length == 0, errors := errors, warnings := warnings3 }

/-- The objects a method of the service can reach or create, each kind by address
(the position in its list): the file records, the arrays of references to file
records (`themeFiles`, the result of `filter`), the arrays of strings (`errors`,
`warnings`, `fileNames`), and the field `this.msalClient` of the service object
(`false` while it is `null`). -/
structure Heap where
  records : List ThemeFile
  fileArrays : List (List Nat)
  stringArrays : List (List String)
  msalClient : Bool := false
deriving DecidableEq, Repr

/-- The array of strings at an address. -/
def Heap.strings (heap : Heap) (address : Nat) : List String :=
  heap.stringArrays.getD address []

/-- The references held by the array of file records at an address. -/
def Heap.refs (heap : Heap) (address : Nat) : List Nat := heap.fileArrays.getD address []

/-- The file records the array at an address leads to. -/
def Heap.files (heap : Heap) (address : Nat) : List ThemeFile :=
  (heap.refs address).filterMap (fun r => heap.records[r]?)

/-- A new array of strings (the literal `[]`, the result of `map`): the heap with the
array added, and the address of the array. -/
def Heap.newStrings (heap : Heap) (items : List String) : Heap × Nat :=
  ({ heap with stringArrays := heap.stringArrays ++ [items] }, heap.stringArrays.length)

/-- A new array of references to file records (the result of `filter` or `map`). -/
def Heap.newFiles (heap : Heap) (refs : List Nat) : Heap × Nat :=
  ({ heap with fileArrays := heap.fileArrays ++ [refs] }, heap.fileArrays.length)

/-- The arrays of strings after `push(item)` on the array at an address. -/
def pushAt : List (List String) → Nat → String → List (List String)
  | [], _, _ => []
  | array :: rest, 0, item => (array ++ [item]) :: rest
  | array :: rest, address + 1, item => array :: pushAt rest address item

/-- The call `array.push(item)` on the array of strings at an address. -/
def Heap.push (heap : Heap) (address : Nat) (item : String) : Heap :=
  { heap with stringArrays := pushAt heap.stringArrays address item }

/-- The records after the assignment `file.content = content` on the record at an
address. -/
def setContentAt : List ThemeFile → Nat → String → List ThemeFile
  | [], _, _ => []
  | file :: rest, 0, content => { file with content := content } :: rest
  | file :: rest, address + 1, content => file :: setContentAt rest address content

/-- The assignment `file.content = content` on the record at an address. -/
def Heap.setContent (heap : Heap) (address : Nat) (content : String) : Heap :=
  { heap with records := setContentAt heap.records address content }

/-- The method of the service that prepares the client (`this.msalClient`): it
creates the client when there is none. -/
def initializeMsal (heap : Heap) : Heap :=
  if !heap.msalClient then { heap with msalClient := true } else heap

/-- The callback `f => Buffer.from(f.content, 'base64').length > 5 * 1024 * 1024` on the
record a reference points to. -/
def Heap.isLarge (heap : Heap) (reference : Nat) : Bool :=
  match heap.records[reference]? with
  | some f => decide (decodedSize f > 5 * 1024 * 1024)
  | none => false

/-- The method `validateThemeStructure(themeFiles)` statement by statement on the heap;
`themeFiles` is the address of the array passed. The value returned and the heap
after the call. -/
def validateThemeStructureOn (heap : Heap) (themeFiles : Nat) : ValidationResult × Heap :=
  -- const errors = []; const warnings = [];
  let h1 := (heap.newStrings []).1
  let errors := (heap.newStrings []).2
  let h2 := (h1.newStrings []).1
  let warnings := (h1.newStrings []).2
  -- const fileNames = themeFiles.map(f => f.name.toLowerCase());
  let h3 := (h2.newStrings ((h2.files themeFiles).map (fun f => toLowerCase f.name))).1
  let fileNames := (h2.newStrings ((h2.files themeFiles).map (fun f => toLowerCase f.name))).2
  -- if (!fileNames.some(...)) errors.push(...)
  let h4 :=
    if !(h3.strings fileNames).any isIndexName then h3.push errors missingIndexMessage else h3
  -- if (!fileNames.some(f => f.endsWith('.css'))) warnings.push(...)
  let h5 :=
    if !(h4.strings fileNames).any (fun f => endsWith f ".css") then
      h4.push warnings noCssMessage
    else h4
  -- const hasBootstrap = fileNames.some(...); if (!hasBootstrap) warnings.push(...)
  let hasBootstrap := (h5.strings fileNames).any isBootstrapName
  let h6 := if !hasBootstrap then h5.push warnings noBootstrapMessage else h5
  -- const largeFiles = themeFiles.filter(f => Buffer.from(f.content, 'base64').length > 5MB)
  let large := (h6.refs themeFiles).filter h6.isLarge
  let h7 := (h6.newFiles large).1
  let largeFiles := (h6.newFiles large).2
  -- if (largeFiles.length > 0) warnings.push(...)
  let h8 :=
    if (h7.refs largeFiles).length > 0 then
      h7.push warnings (oversizeMessage (h7.refs largeFiles).length)
    else h7
  ({ isValid := (h8.strings errors).length == 0, errors := h8.strings errors,
     warnings := h8.strings warnings }, h8)

/-! ## The branding injector -/

/-- The logo of a branding profile. -/
structure Logo where
  url : Option String := none
  altText : Option String := none
deriving DecidableEq, Repr

/-- The colours of a branding profile. -/
structure Colors where
  primary : Option String := none
  secondary : Option String := none
  accent : Option String := none
  text : Option String := none
  background : Option String := none
deriving DecidableEq, Repr

/-- The fonts of a branding profile. -/
structure Fonts where
  heading : Option String := none
  body : Option String := none
deriving DecidableEq, Repr

/-- The branding object handed to `deployTheme`; an absent field is `none`. -/
structure Branding where
  organizationName : Option String := none
  logo : Option Logo := none
  colors : Option Colors := none
  fonts : Option Fonts := none
deriving DecidableEq, Repr

/-- The operator `a || b` on two optional strings. -/
def orOption (a b : Option String) : Option String := if truthy a then a else b

/-- Expansion of a replacement string by `String.prototype.replace` for a pattern
without capture groups (GetSubstitution): `$$` stands for `$`, `$&` for the match, `$`
followed by a grave accent for the text before the match, `$` followed by an
apostrophe for the text after it; any other character, and any other `$`, stands
for itself. -/
def getSubstitution (matched before after : List Char) : List Char → List Char
  | [] => []
  | [c] => [c]
  | c :: d :: rest =>
    if c = '$' then
      if d = '$' then '$' :: getSubstitution matched before after rest
      else if d = '&' then matched ++ getSubstitution matched before after rest
      else if d = Char.ofNat 96 then before ++ getSubstitution matched before after rest
      else if d = Char.ofNat 39 then after ++ getSubstitution matched before after rest
      else c :: getSubstitution matched before after (d :: rest)
    else c :: getSubstitution matched before after (d :: rest)

/-- The scan of `content.replace(/token/g, replacement)` for a literal, non-empty
token: `skip` counts the characters of the current match still to pass over,
`before` is the text already scanned. Matches are found left to right and do not
overlap. -/
def replaceFrom (token replacement : List Char) : Nat → List Char → List Char → List Char
  | _, _, [] => []
  | skip + 1, before, c :: rest => replaceFrom token replacement skip (before ++ [c]) rest
  | 0, before, c :: rest =>
    if token.isPrefixOf (c :: rest) then
      getSubstitution token before ((c :: rest).drop token.length) replacement ++
        replaceFrom token replacement (token.length - 1) (before ++ [c]) rest
    else c :: replaceFrom token replacement 0 (before ++ [c]) rest

/-- The call `content.replace(/\{\{TOKEN\}\}/g, replacement)` for the literal `token`. -/
def replaceToken (token replacement content : String) : String :=
  String.mk (replaceFrom token.data replacement.data 0 [] content.data)

/-- The HTML branch of `injectBranding`, on the decoded text. -/
def injectHtml (branding : Branding) (content : String) : String :=
  let url := branding.logo.bind (fun l => l.url)
  let c1 :=
    if truthy url then
      replaceToken "\x7b\x7bLOGO_ALT\x7d\x7d"
        (jsToString (orOption (branding.logo.bind (fun l => l.altText)) branding.organizationName))
        (replaceToken "\x7b\x7bLOGO_URL\x7d\x7d" (jsToString url) content)
    else content
  let c2 :=
    if truthy branding.organizationName then
      replaceToken "\x7b\x7bORG_NAME\x7d\x7d" (jsToString branding.organizationName) c1
    else c1
  match branding.colors with
  | some colors =>
    replaceToken "\x7b\x7bACCENT_COLOR\x7d\x7d" (orElse colors.accent "#06b6d4")
      (replaceToken "\x7b\x7bSECONDARY_COLOR\x7d\x7d" (orElse colors.secondary "#1e40af")
        (replaceToken "\x7b\x7bPRIMARY_COLOR\x7d\x7d" (orElse colors.primary "#2563eb") c2))
  | none => c2

/-- The template literal `cssVars` of `injectBranding`. -/
def cssVars (colors : Colors) : String :=
  "\n:root \x7b\n    --brand-primary: " ++ orElse colors.primary "#2563eb" ++
  ";\n    --brand-secondary: " ++ orElse colors.secondary "#1e40af" ++
  ";\n    --brand-accent: " ++ orElse colors.accent "#06b6d4" ++
  ";\n    --brand-text: " ++ orElse colors.text "#1e293b" ++
  ";\n    --brand-background: " ++ orElse colors.background "#ffffff" ++
  ";\n\x7d\n"

/-- The CSS branch of `injectBranding`, on the decoded text. -/
def injectCss (branding : Branding) (content : String) : String :=
  let c1 :=
    match branding.colors with
    | some colors => cssVars colors ++ content
    | none => content
  match branding.fonts with
  | some fonts =>
    replaceToken "\x7b\x7bBODY_FONT\x7d\x7d" (orElse fonts.body "Plus Jakarta Sans")
      (replaceToken "\x7b\x7bHEADING_FONT\x7d\x7d" (orElse fonts.heading "Plus Jakarta Sans") c1)
  | none => c1

/-- The callback `injectBranding` maps over the files: the HTML test, then the CSS
test, each rewriting `file.content`. -/
def injectBrandingFile (branding : Branding) (file : ThemeFile) : ThemeFile :=
  let file1 :=
    if endsWith file.name ".html" || endsWith file.name ".htm" then
      { file with content := encodeContent (injectHtml branding (decodeContent file.content)) }
    else file
  if endsWith file1.name ".css" then
    { file1 with content := encodeContent (injectCss branding (decodeContent file1.content)) }
  else file1

/-- The method `injectBranding(themeFiles, branding)` of `powerPagesService.js`. -/
def injectBranding (themeFiles : List ThemeFile) (branding : Branding) : List ThemeFile :=
  themeFiles.map (injectBrandingFile branding)

/-- The literal find-replace of the specification ("simple literal find-replace",
"apply to every occurrence"): the text is read left to right; where it starts with
`token`, `value` is written character for character and reading resumes after the
token; otherwise one character is copied. `fuel` bounds the number of steps. -/
def literalReplaceFrom (token value : List Char) : Nat → List Char → List Char
  | 0, text => text
  | _ + 1, [] => []
  | fuel + 1, c :: rest =>
    if token.isPrefixOf (c :: rest) then
      value ++ literalReplaceFrom token value fuel ((c :: rest).drop token.length)
    else c :: literalReplaceFrom token value fuel rest

/-- The literal find-replace of the specification on strings. -/
def replaceLiteral (token value content : String) : String :=
  String.mk (literalReplaceFrom token.data value.data content.data.length content.data)

/-- Whether no two opening braces are adjacent and the text does not end with one:
no placeholder can start inside such a text, whatever follows it. -/
def bracesSeparated : List Char → Bool
  | [] => true
  | [c] => c != '\x7b'
  | c :: d :: rest => (c != '\x7b' || d != '\x7b') && bracesSeparated (d :: rest)

/-- The object `branding.logo` as read by `branding.logo.url` and
`branding.logo.altText`: a property read on `undefined` raises a `TypeError`. -/
def readLogo (branding : Branding) : Except String Logo :=
  match branding.logo with
  | some logo => .ok logo
  | none => .error "TypeError: Cannot read properties of undefined (reading 'url')"

/-- The logo step of the HTML branch with its property reads made explicit: the guard
is `branding.logo?.url`, the reads inside it are unguarded. -/
def injectLogoChecked (branding : Branding) (content : String) : Except String String :=
  if truthy (branding.logo.bind (fun l => l.url)) then
    match readLogo branding with
    | .error e => .error e
    | .ok logo =>
      .ok (replaceToken "\x7b\x7bLOGO_ALT\x7d\x7d"
        (jsToString (orOption logo.altText branding.organizationName))
        (replaceToken "\x7b\x7bLOGO_URL\x7d\x7d" (jsToString logo.url) content))
  else .ok content

/-- The HTML branch of `injectBranding` with the property reads made explicit. -/
def injectHtmlChecked (branding : Branding) (content : String) : Except String String :=
  match injectLogoChecked branding content with
  | .error e => .error e
  | .ok c1 =>
    let c2 :=
      if truthy branding.organizationName then
        replaceToken "\x7b\x7bORG_NAME\x7d\x7d" (jsToString branding.organizationName) c1
      else c1
    match branding.colors with
    | some colors =>
      .ok (replaceToken "\x7b\x7bACCENT_COLOR\x7d\x7d" (orElse colors.accent "#06b6d4")
        (replaceToken "\x7b\x7bSECONDARY_COLOR\x7d\x7d" (orElse colors.secondary "#1e40af")
          (replaceToken "\x7b\x7bPRIMARY_COLOR\x7d\x7d" (orElse colors.primary "#2563eb") c2)))
    | none => .ok c2

/-- The callback of `injectBranding` with the property reads made explicit. -/
def injectBrandingFileChecked (branding : Branding) (file : ThemeFile) : Except String ThemeFile :=
  let html : Except String ThemeFile :=
    if endsWith file.name ".html" || endsWith file.name ".htm" then
      match injectHtmlChecked branding (decodeContent file.content) with
      | .error e => .error e
      | .ok content => .ok { file with content := encodeContent content }
    else .ok file
  match html with
  | .error e => .error e
  | .ok file1 =>
    if endsWith file1.name ".css" then
      .ok { file1 with content := encodeContent (injectCss branding (decodeContent file1.content)) }
    else .ok file1

/-- The method `injectBranding` with the property reads made explicit: the files
returned, or the message of the error raised. -/
def injectBrandingChecked (branding : Branding) : List ThemeFile → Except String (List ThemeFile)
  | [] => .ok []
  | file :: rest =>
    match injectBrandingFileChecked branding file with
    | .error e => .error e
    | .ok file1 =>
      match injectBrandingChecked branding rest with
      | .error e => .error e
      | .ok rest1 => .ok (file1 :: rest1)

/-- The method `injectBranding(themeFiles, branding)` on the heap: the callback of `map`
assigns `file.content` on the record it is given and returns that record, so the
records of `themeFiles` are rewritten in place and the new array holds the same
references. The heap after the call and the address of the array returned. -/
def injectBrandingOn (branding : Branding) (heap : Heap) (themeFiles : Nat) : Heap × Nat :=
  let written := (heap.refs themeFiles).foldl
    (fun h r =>
      match h.records[r]? with
      | some file => h.setContent r (injectBrandingFile branding file).content
      | none => h)
    heap
  written.newFiles (heap.refs themeFiles)

/-! ## The Dataverse client and the remote publisher -/

/-- A parsed response body, as far as `uploadWebFile` reads it. -/
inductive JsonValue where
  | null
  | object (adx_webfileid : Option String)
deriving DecidableEq, Repr

/-- A response of `fetch`: the HTTP status and the outcome of `response.json()`
(the parsed body, or the message of the rejection). -/
structure Response where
  status : Nat
  body : Except String JsonValue

/-- Outcome of one call of `fetch`. -/
inductive FetchOutcome where
  | rejects (message : String)
  | resolves (response : Response)

/-- The remote environment as seen by one call of `deployTheme`: the answers to the
request number `step` (0: the web file record, 1: the annotation) made for the file
at position `i`. Each pair is asked at most once in a run, so no behaviour of the
remote side is excluded. `acquireToken` is
`msalClient.acquireTokenByClientCredential`: `none` when it rejects. `createClient`
is the constructor of the client, called when there is no client yet: the message
of the error it throws, `none` when a client exists or is created. -/
structure Remote where
  acquireToken : Nat → Nat → Option String
  fetch : Nat → Nat → FetchOutcome
  createClient : Nat → Nat → Option String := fun _ _ => none

/-- A request handed to `fetch`. -/
structure HttpRequest where
  url : String
  method : String
  token : String
  data : List (String × String)
deriving DecidableEq, Repr

/-- The message of the error `getAccessToken` throws. -/
def authenticationMessage : String := "Failed to authenticate with Dataverse"

/-- The method `getAccessToken(environmentUrl)`: the call that prepares the client stands
before the `try`, so an error of the constructor is thrown as it is; every error
inside the `try` is replaced by the authentication error. -/
def getAccessToken (remote : Remote) (i step : Nat) : Except String String :=
  match remote.createClient i step with
  | some message => .error message
  | none =>
    match remote.acquireToken i step with
    | some token => .ok token
    | none => .error authenticationMessage

/-- The property `response.ok`. -/
def Response.ok (r : Response) : Bool := decide (200 ≤ r.status ∧ r.status ≤ 299)

/-- The method `dataverseRequest(environmentUrl, endpoint, method, data)`: the value returned or
the message of the error thrown, and the requests handed to `fetch`. -/
def dataverseRequest (remote : Remote) (i step : Nat) (environmentUrl endpoint method : String)
    (data : List (String × String)) : Except String JsonValue × List HttpRequest :=
  match getAccessToken remote i step with
  | .error e => (.error e, [])
  | .ok token =>
    let sent : List HttpRequest :=
      [{ url := environmentUrl ++ "/api/data/v9.2/" ++ endpoint, method := method,
         token := token, data := data }]
    match remote.fetch i step with
    | .rejects message => (.error message, sent)
    | .resolves response =>
      if !response.ok then (.error ("Dataverse API error: " ++ toString response.status), sent)
      else if response.status = 204 then (.ok .null, sent)
      else (response.body, sent)

/-- The method `uploadWebFile(environmentUrl, websiteId, fileData)` for the file at position `i`:
the record is created, then the content is posted as an annotation when it is a
non-empty string. Every error is logged and thrown again. -/
def uploadWebFile (remote : Remote) (i : Nat) (environmentUrl websiteId : String)
    (fileData : ThemeFile) : Except String JsonValue × List HttpRequest :=
  match dataverseRequest remote i 0 environmentUrl "adx_webfiles" "POST"
      [("adx_name", fileData.name), ("adx_partialurl", fileData.partialUrl),
       ("adx_websiteid@odata.bind", "/powerpagesites(" ++ websiteId ++ ")")] with
  | (.error e, sent) => (.error e, sent)
  | (.ok webFile, sent) =>
    if fileData.content != "" then
      match webFile with
      | .null => (.error "Cannot read properties of null (reading 'adx_webfileid')", sent)
      | .object adx_webfileid =>
        match dataverseRequest remote i 1 environmentUrl "annotations" "POST"
            [("subject", fileData.name), ("filename", fileData.name),
             ("mimetype", fileData.mimeType), ("documentbody", fileData.content),
             ("objectid_adx_webfile@odata.bind",
               "/adx_webfiles(" ++ jsToString adx_webfileid ++ ")")] with
        | (.error e, sent2) => (.error e, sent ++ sent2)
        | (.ok _, sent2) => (.ok webFile, sent ++ sent2)
    else (.ok webFile, sent)

/-- An entry of `deploymentLog` (its timestamp is not modelled). -/
structure FileLogEntry where
  file : String
  status : String
  error : Option String := none
deriving DecidableEq, Repr

/-- The object `deployTheme` returns. -/
structure DeployResult where
  success : Bool
  totalFiles : Nat
  successCount : Nat
  errorCount : Nat
  deploymentLog : List FileLogEntry
deriving DecidableEq, Repr

/-- The variables of the upload loop of `deployTheme`, with the files handed to
`uploadWebFile` so far and the requests sent so far. -/
structure UploadState where
  successCount : Nat := 0
  errorCount : Nat := 0
  deploymentLog : List FileLogEntry := []
  attempted : List ThemeFile := []
  sent : List HttpRequest := []
deriving DecidableEq, Repr

/-- The loop `for (const file of themeFiles)` of `deployTheme`, from position `i`. -/
def uploadLoop (remote : Remote) (environmentUrl websiteId : String) :
    Nat → List ThemeFile → UploadState → UploadState
  | _, [], st => st
  | i, file :: rest, st =>
    match uploadWebFile remote i environmentUrl websiteId file with
    | (.ok _, sent) =>
      uploadLoop remote environmentUrl websiteId (i + 1) rest
        { successCount := st.successCount + 1, errorCount := st.errorCount,
          deploymentLog := st.deploymentLog ++ [{ file := file.name, status := "success" }],
          attempted := st.attempted ++ [file], sent := st.sent ++ sent }
    | (.error message, sent) =>
      uploadLoop remote environmentUrl websiteId (i + 1) rest
        { successCount := st.successCount, errorCount := st.errorCount + 1,
          deploymentLog := st.deploymentLog ++
            [{ file := file.name, status := "error", error := some message }],
          attempted := st.attempted ++ [file], sent := st.sent ++ sent }

/-- The method `clearSiteCache(environmentUrl, websiteId)`: it logs and returns `true`. -/
def clearSiteCache (_environmentUrl _websiteId : String) : Bool := true

/-- What a call of `deployTheme` leaves behind: the value returned (or the message
of the error thrown), the files handed to `uploadWebFile` and the requests sent. -/
structure DeployOutcome where
  result : Except String DeployResult
  attempted : List ThemeFile
  sent : List HttpRequest

/-- The statement `if (organizationBranding) themeFiles = this.injectBranding(...)`
of `deployTheme`: the files that are uploaded. -/
def brandedFiles (themeFiles : List ThemeFile) (organizationBranding : Option Branding) :
    List ThemeFile :=
  match organizationBranding with
  | some branding => injectBranding themeFiles branding
  | none => themeFiles

/-- The entry the upload loop pushes for the file at position `i`. -/
def entryFor (remote : Remote) (environmentUrl websiteId : String) (i : Nat) (file : ThemeFile) :
    FileLogEntry :=
  match (uploadWebFile remote i environmentUrl websiteId file).1 with
  | .ok _ => { file := file.name, status := "success" }
  | .error message => { file := file.name, status := "error", error := some message }

/-- Whether the upload of the file at position `i` succeeds. -/
def uploadSucceeds (remote : Remote) (environmentUrl websiteId : String) (i : Nat)
    (file : ThemeFile) : Bool :=
  match (uploadWebFile remote i environmentUrl websiteId file).1 with
  | .ok _ => true
  | .error _ => false

/-- The method `deployTheme(environmentUrl, websiteId, themeFiles, organizationBranding)` of
`powerPagesService.js`. -/
def deployTheme (remote : Remote) (environmentUrl websiteId : String)
    (themeFiles : List ThemeFile) (organizationBranding : Option Branding) : DeployOutcome :=
  let themeFiles := brandedFiles themeFiles organizationBranding
  let st := uploadLoop remote environmentUrl websiteId 0 themeFiles {}
  let _cleared := clearSiteCache environmentUrl websiteId
  { result := .ok
      { success := st.errorCount == 0, totalFiles := themeFiles.length,
        successCount := st.successCount, errorCount := st.errorCount,
        deploymentLog := st.deploymentLog },
    attempted := st.attempted, sent := st.sent }

/-! ## The archive extractor (`routes/deploy.js`) -/

/-- The variables of the loop of `path.extname` (POSIX flavour). -/
structure ExtnameState where
  startDot : Option Nat := none
  startPart : Nat := 0
  endIndex : Option Nat := none
  matchedSlash : Bool := true
  preDotState : Int := 0
deriving DecidableEq, Repr

/-- The loop `for (i = path.length - 1; i >= 0; --i)` of `path.extname`: the first
argument holds the characters at positions `i, i - 1, ..., 0`. -/
def extnameScan : List Char → Nat → ExtnameState → ExtnameState
  | [], _, st => st
  | c :: rest, i, st =>
    if c = '/' then
      if !st.matchedSlash then { st with startPart := i + 1 }
      else extnameScan rest (i - 1) st
    else
      let st1 :=
        if st.endIndex = none then { st with matchedSlash := false, endIndex := some (i + 1) }
        else st
      let st2 :=
        if c = '.' then
          if st1.startDot = none then { st1 with startDot := some i }
          else if st1.preDotState ≠ 1 then { st1 with preDotState := 1 }
          else st1
        else if st1.startDot ≠ none then { st1 with preDotState := -1 }
        else st1
      extnameScan rest (i - 1) st2

/-- Model of `path.extname(path)`. -/
def extname (path : String) : String :=
  let st := extnameScan path.data.reverse (path.data.length - 1) {}
  match st.startDot, st.endIndex with
  | some startDot, some endIndex =>
    if st.preDotState = 0 ∨
        (st.preDotState = 1 ∧ startDot = endIndex - 1 ∧ startDot = st.startPart + 1) then ""
    else String.mk ((path.data.drop startDot).take (endIndex - startDot))
  | _, _ => ""

/-- The table `mimeTypes` of `extractThemeFromZip`. -/
def mimeTypes : List (String × String) :=
  [(".html", "text/html"), (".htm", "text/html"), (".css", "text/css"),
   (".js", "application/javascript"), (".json", "application/json"),
   (".png", "image/png"), (".jpg", "image/jpeg"), (".jpeg", "image/jpeg"),
   (".gif", "image/gif"), (".svg", "image/svg+xml"), (".webp", "image/webp"),
   (".woff", "font/woff"), (".woff2", "font/woff2"), (".ttf", "font/ttf"),
   (".eot", "application/vnd.ms-fontobject")]

/-- The expression `mimeTypes[ext] || 'application/octet-stream'`. -/
def mimeTypeOf (ext : String) : String :=
  match mimeTypes.lookup ext with
  | some mimeType => mimeType
  | none => "application/octet-stream"

/-- An entry of an archive as `adm-zip` presents it; `data` is `none` when
`entry.getData()` throws. -/
structure ZipEntry where
  isDirectory : Bool
  entryName : String
  data : Option (List Nat)
deriving DecidableEq, Repr

/-- The loop over `zipEntries` of `extractThemeFromZip`; `none` when an entry throws. -/
def extractEntries : List ZipEntry → Option (List ThemeFile)
  | [] => some []
  | entry :: rest =>
    if entry.isDirectory then extractEntries rest
    else
      match entry.data with
      | none => none
      | some content =>
        match extractEntries rest with
        | none => none
        | some themeFiles =>
          some ({ name := entry.entryName, partialUrl := entry.entryName,
                  mimeType := mimeTypeOf (toLowerCase (extname entry.entryName)),
                  content := base64Encode content } :: themeFiles)

/-- The function `extractThemeFromZip(zipPath)`; the argument is what `adm-zip` finds at the path,
`none` when the archive cannot be read. -/
def extractThemeFromZip (archive : Option (List ZipEntry)) : Except String (List ThemeFile) :=
  match archive.bind extractEntries with
  | some themeFiles => .ok themeFiles
  | none => .error "Failed to extract theme archive"

/-- The function `downloadAndExtractTheme(downloadUrl)`: the two mock files. -/
def downloadAndExtractTheme (_downloadUrl : String) : List ThemeFile :=
  [{ name := "index.html", partialUrl := "index.html", mimeType := "text/html",
     content := encodeContent
       "<html><head><title>\x7b\x7bORG_NAME\x7d\x7d</title></head><body><h1>\x7b\x7bORG_NAME\x7d\x7d</h1></body></html>" },
   { name := "css/styles.css", partialUrl := "css/styles.css", mimeType := "text/css",
     content := encodeContent ":root \x7b --brand-primary: \x7b\x7bPRIMARY_COLOR\x7d\x7d; \x7d" }]

/-! ## The theme record (`models/Theme.js`) -/

/-- An entry of `deployment.deploymentLogs` (its timestamp is not modelled). -/
structure LogEntry where
  level : String
  message : String
deriving DecidableEq, Repr

/-- The level enumeration of `deploymentLogs` in the theme schema. -/
def logLevels : List String := ["info", "warning", "error"]

/-- The `deployment` object of a theme record in memory, with the fields either
pipeline reads or writes. The theme schema declares neither
`powerPagesEnvironmentUrl` nor `completedAt`: they are properties of the object
in memory and no part of a stored record. -/
structure Deployment where
  status : String := "pending"
  powerPagesEnvironmentUrl : Option String := none
  powerPagesWebsiteId : Option String := none
  powerPagesWebsiteUrl : Option String := none
  deployedAt : Option Nat := none
  completedAt : Option Nat := none
  deploymentLogs : List LogEntry := []
  errorMessage : Option String := none
deriving DecidableEq, Repr

/-- The `validation` object of a theme record, with the fields `upload.js` writes. -/
structure Validation where
  isValid : Bool := false
  validatedAt : Option Nat := none
  hasIndexHtml : Option Bool := none
  hasCss : Option Bool := none
deriving DecidableEq, Repr

/-- A theme record. -/
structure Theme where
  name : String
  validation : Validation := {}
  deployment : Deployment := {}
deriving DecidableEq, Repr

/-- The entries of `progressMap` of the virtual `deploymentProgress`. -/
def progressMap : List (String × Nat) :=
  [("pending", 0), ("validating", 20), ("creating_site", 40), ("deploying", 70),
   ("completed", 100), ("failed", 0)]

/-- The virtual `deploymentProgress`: `progressMap[this.deployment.status] || 0`. -/
def Theme.deploymentProgress (theme : Theme) : Nat :=
  (progressMap.lookup theme.deployment.status).getD 0

/-- The method `addDeploymentLog(level, message)`. -/
def Theme.addDeploymentLog (theme : Theme) (level message : String) : Theme :=
  { theme with deployment :=
      { theme.deployment with
        deploymentLogs := theme.deployment.deploymentLogs ++ [{ level := level, message := message }] } }

/-- The method `updateDeploymentStatus(status, message = null)` up to its `save()`;
`now` is the reading of the clock. -/
def Theme.updateDeploymentStatus (theme : Theme) (now : Nat) (status : String)
    (message : Option String) : Theme :=
  let t1 := { theme with deployment := { theme.deployment with status := status } }
  let t2 :=
    if truthy message then
      t1.addDeploymentLog (if status == "failed" then "error" else "info") (jsToString message)
    else t1
  let t3 :=
    if status == "completed" then
      { t2 with deployment := { t2.deployment with deployedAt := some now } }
    else t2
  if status == "failed" && truthy message then
    { t3 with deployment := { t3.deployment with errorMessage := message } }
  else t3

/-! ## The deployment pipeline of `routes/deploy.js` -/

/-- What a run of a pipeline has done so far: the record in memory, the records
persisted by each `save()` in order, the files handed to `uploadWebFile`, the
requests sent, the notification mails requested, and the message with which a
`save()` of the run was rejected by the validation of the theme schema, once that has
happened. The record found is taken to satisfy the schema, so a `save()` is rejected
only after the run itself has pushed a log entry at a level outside the enumeration;
that entry stays in the record, so every later `save()` is rejected as well. -/
structure Run where
  theme : Theme
  saves : List Theme := []
  uploads : List ThemeFile := []
  requests : List HttpRequest := []
  emails : List String := []
  rejected : Option String := none
deriving DecidableEq, Repr

/-- A document of the theme gallery, with the fields `processDeployment` reads. -/
structure GalleryTheme where
  name : String
  downloadUrl : String
deriving DecidableEq, Repr

/-- The fields of `req.session.deployWizard` that `processDeployment` reads. -/
structure WizardData where
  themeName : String := ""
  themeSource : String := ""
  galleryThemeId : Option String := none
  uploadedFile : Option String := none
deriving DecidableEq, Repr

/-- What `processDeployment` awaits from outside the repository:
`GalleryTheme.findById` (its document, `none` when there is none, or the message of
its rejection), the archive at the upload path (`none` when unreadable), the remote
environment, the clock, and the message of the validation error with which `save()`
rejects a record that does not satisfy the theme schema. -/
structure World where
  galleryTheme : Except String (Option GalleryTheme)
  archive : Option (List ZipEntry)
  remote : Remote
  now : Nat
  saveError : String := "Theme validation failed"

namespace Deploy

/-- The record `POST /execute` creates with `Theme.create`, as it is stored and found
again by `processDeployment`. The theme schema does not declare
`deployment.powerPagesEnvironmentUrl`, so the value passed for it is not stored:
the record found has no environment URL. -/
def executeCreate (wizardData : WizardData) (_environmentUrl websiteId : String) : Theme :=
  { name := wizardData.themeName,
    deployment :=
      { status := "pending",
        powerPagesEnvironmentUrl := none,
        powerPagesWebsiteId := some websiteId,
        deploymentLogs := [{ level := "info", message := "Deployment initiated" }] } }

/-- The body of the response of `GET /deploy/api/status/:id`. -/
structure StatusResponse where
  status : String
  progress : Nat
  logs : List LogEntry
  websiteUrl : Option String
  errorMessage : Option String
deriving DecidableEq, Repr

/-- The object sent by `GET /deploy/api/status/:id` for the record found: the logs
are `deploymentLogs.slice(-20)`. -/
def statusResponse (theme : Theme) : StatusResponse :=
  { status := theme.deployment.status,
    progress := theme.deploymentProgress,
    logs := theme.deployment.deploymentLogs.drop (theme.deployment.deploymentLogs.length - 20),
    websiteUrl := theme.deployment.powerPagesWebsiteUrl,
    errorMessage := theme.deployment.errorMessage }

/-- The function `updateDeploymentStatus(theme, status, message)` of `deploy.js`. -/
def updateDeploymentStatus (run : Run) (status message : String) : Run :=
  let theme : Theme :=
    { run.theme with deployment :=
        { run.theme.deployment with
          status := status,
          deploymentLogs :=
            run.theme.deployment.deploymentLogs ++ [{ level := "info", message := message }] } }
  { run with theme := theme, saves := run.saves ++ [theme] }

/-- The part of `processDeployment` that obtains `themeFiles`: the files, or the
message of the error thrown, and the run so far. -/
def loadThemeFiles (world : World) (wizardData : WizardData) (run : Run) :
    Except String (List ThemeFile) × Run :=
  if wizardData.themeSource == "gallery" then
    match world.galleryTheme with
    | .error e => (.error e, run)
    | .ok none => (.error "Gallery theme not found", run)
    | .ok (some galleryTheme) =>
      (.ok (downloadAndExtractTheme galleryTheme.downloadUrl),
        updateDeploymentStatus run "validating" ("Downloading " ++ galleryTheme.name ++ "..."))
  else if truthy wizardData.uploadedFile then (extractThemeFromZip world.archive, run)
  else (.ok [], run)

/-- The summary line logged when files failed to upload. -/
def summaryMessage (result : DeployResult) : String :=
  "Deployed " ++ toString result.successCount ++ "/" ++ toString result.totalFiles ++
    " files. " ++ toString result.errorCount ++ " errors."

/-- The completion step of `processDeployment` ("Step 4"): the record is updated in
memory and handed to `save()`. The entry pushed has the level `success`; the
validation of the schema accepts the record only if that level is in the
enumeration, and rejects it with the validation error otherwise. -/
def complete (world : World) (run : Run) : Run :=
  let websiteUrl :=
    "https://" ++ jsToString run.theme.deployment.powerPagesWebsiteId ++ ".powerappsportals.com"
  let theme : Theme :=
    { run.theme with deployment :=
        { run.theme.deployment with
          status := "completed",
          completedAt := some world.now,
          powerPagesWebsiteUrl := some websiteUrl,
          deploymentLogs := run.theme.deployment.deploymentLogs ++
            [{ level := "success", message := "Deployment completed successfully!" }] } }
  if logLevels.contains "success" then { run with theme := theme, saves := run.saves ++ [theme] }
  else { run with theme := theme, rejected := some world.saveError }

/-- The `try` block of `processDeployment` from "Step 2" on, entered once the files
have passed validation: the message of the error thrown, if any, and the run at
that point. -/
def deployValidated (world : World) (branding : Option Branding) (themeFiles : List ThemeFile)
    (validation : ValidationResult) (run2 : Run) : Option String × Run :=
  let run3 :=
    if validation.warnings.length > 0 then
      updateDeploymentStatus run2 "validating"
        ("Warnings: " ++ "; ".intercalate validation.warnings)
    else run2
  let run4 := updateDeploymentStatus run3 "creating_site" "Preparing Power Pages site structure..."
  let run5 := updateDeploymentStatus run4 "deploying" "Uploading theme assets..."
  let outcome := deployTheme world.remote
    (jsToString run5.theme.deployment.powerPagesEnvironmentUrl)
    (jsToString run5.theme.deployment.powerPagesWebsiteId) themeFiles branding
  let run6 : Run :=
    { run5 with uploads := run5.uploads ++ outcome.attempted,
                requests := run5.requests ++ outcome.sent }
  match outcome.result with
  | .error e => (some e, run6)
  | .ok deploymentResult =>
    let run7 :=
      if !deploymentResult.success && deploymentResult.errorCount > 0 then
        updateDeploymentStatus run6 "deploying" (summaryMessage deploymentResult)
      else run6
    ((complete world run7).rejected, complete world run7)

/-- The `try` block of `processDeployment` up to and including the completion `save()`:
the message of the error thrown, if any, and the run at that point. -/
def processDeploymentTry (world : World) (wizardData : WizardData) (branding : Option Branding)
    (run : Run) : Option String × Run :=
  match loadThemeFiles world wizardData
      (updateDeploymentStatus run "validating" "Validating theme structure...") with
  | (.error e, run2) => (some e, run2)
  | (.ok themeFiles, run2) =>
    if !(validateThemeStructure themeFiles).isValid then
      (some ("Theme validation failed: " ++
        ", ".intercalate (validateThemeStructure themeFiles).errors), run2)
    else deployValidated world branding themeFiles (validateThemeStructure themeFiles) run2

/-- The `catch` block of `processDeployment`: the record is marked `failed` in memory
and handed to `save()`; the entry pushed has the level `error`, so the record is
stored unless a `save()` of the run was rejected before. The notification is not
requested: the method called on the mail service, `sendDeploymentFailedEmail`, is
not one of its methods, and the error of the call is caught and logged. -/
def fail (run : Run) (message : String) : Run :=
  let theme : Theme :=
    { run.theme with deployment :=
        { run.theme.deployment with
          status := "failed",
          errorMessage := some message,
          deploymentLogs := run.theme.deployment.deploymentLogs ++
            [{ level := "error", message := "Deployment failed: " ++ message }] } }
  match run.rejected with
  | none => { run with theme := theme, saves := run.saves ++ [theme] }
  | some _ => { run with theme := theme }

/-- The function `processDeployment(themeId, wizardData, branding)` on the record found for
`themeId`. After the `try` block no notification is requested either: the method
`sendDeploymentCompleteEmail` is not one of the methods of the mail service. -/
def processDeployment (world : World) (wizardData : WizardData) (branding : Option Branding)
    (theme : Theme) : Run :=
  match processDeploymentTry world wizardData branding { theme := theme } with
  | (none, run) => run
  | (some message, run) => fail run message

end Deploy

/-! ## The deployment pipeline of `routes/upload.js` -/

namespace Upload

/-- What `processThemeDeployment` awaits from outside the repository: the two
lookups at its start (whether the stored document is found, or the message of the
rejection), the two lookups of its `catch` block (whether they yield a document),
the identifier `uuidv4()` and the clock. -/
structure World where
  findTheme : Except String Bool
  findUser : Except String Bool
  findThemeAgain : Bool
  findUserAgain : Bool
  uuid : String
  now : Nat

/-- The record `POST /upload` creates with `Theme.create`. -/
def uploadCreate (name : String) : Theme :=
  { name := name, deployment := { status := "pending" } }

/-- Whether a character is matched by `\s`. -/
def isWhiteSpace (c : Char) : Bool :=
  let n := c.toNat
  (9 ≤ n && n ≤ 13) || n == 0x20 || n == 0xA0 || n == 0x1680 || (0x2000 ≤ n && n ≤ 0x200A) ||
    n == 0x2028 || n == 0x2029 || n == 0x202F || n == 0x205F || n == 0x3000 || n == 0xFEFF

/-- The scan of `replace(/\s+/g, '-')`; the flag says whether the previous character
was white space. -/
def dashRuns : Bool → List Char → List Char
  | _, [] => []
  | inRun, c :: rest =>
    if isWhiteSpace c then
      if inRun then dashRuns true rest else '-' :: dashRuns true rest
    else c :: dashRuns false rest

/-- A method call followed by `save()`. -/
def saved (run : Run) (theme : Theme) : Run :=
  { run with theme := theme, saves := run.saves ++ [theme] }

/-- The `try` block of `processThemeDeployment` once both documents are found. -/
def stages (world : World) (run : Run) : Run :=
  -- Stage 1: Validating
  let run := saved run (run.theme.updateDeploymentStatus world.now "validating"
    (some "Validating theme structure..."))
  let validated : Theme :=
    { run.theme with validation :=
        { run.theme.validation with
          isValid := true, validatedAt := some world.now,
          hasIndexHtml := some true, hasCss := some true } }
  let run := saved run (validated.addDeploymentLog "info" "Theme validation passed")
  -- Stage 2: Creating site
  let run := saved run (run.theme.updateDeploymentStatus world.now "creating_site"
    (some "Creating Power Pages site..."))
  let run := saved run (run.theme.addDeploymentLog "info" "Power Pages site created")
  -- Stage 3: Deploying
  let run := saved run (run.theme.updateDeploymentStatus world.now "deploying"
    (some "Deploying theme assets..."))
  let run := saved run (run.theme.addDeploymentLog "info" "Theme assets deployed")
  -- Stage 4: Complete
  let located : Theme :=
    { run.theme with deployment :=
        { run.theme.deployment with
          powerPagesWebsiteId := some ("site-" ++ String.mk (world.uuid.data.take 8)),
          powerPagesWebsiteUrl := some ("https://" ++
            String.mk (dashRuns false (toLowerCase run.theme.name).data) ++
            ".powerappsportals.com") } }
  let run := saved run (located.updateDeploymentStatus world.now "completed"
    (some "Deployment completed successfully"))
  { run with emails := run.emails ++ ["deployment-complete"] }

/-- The `catch` block of `processThemeDeployment` for a caught error with the given
message; `stored` is the record as stored. -/
def handleFailure (world : World) (stored : Theme) (message : String) : Run :=
  if world.findThemeAgain then
    let run := saved { theme := stored }
      (stored.updateDeploymentStatus world.now "failed" (some message))
    if world.findUserAgain then { run with emails := run.emails ++ ["deployment-failed"] }
    else run
  else { theme := stored }

/-- The function `processThemeDeployment(themeId, userId)`; `stored` is the record as stored when
the function starts. -/
def processThemeDeployment (world : World) (stored : Theme) : Run :=
  match world.findTheme with
  | .error e => handleFailure world stored e
  | .ok themeFound =>
    match world.findUser with
    | .error e => handleFailure world stored e
    | .ok userFound =>
      if themeFound && userFound then stages world { theme := stored }
      else { theme := stored }

end Upload

/-! ## Vocabulary of the state machine -/

/-- The stages of a deployment in the order of the happy path. -/
def stageOrder : List String :=
  ["pending", "validating", "creating_site", "deploying", "completed"]

/-- A status change the state machine allows: to the same status, to the next
stage, or to `failed`. -/
def allowedStep (a b : String) : Bool :=
  a == b || b == "failed" || (stageOrder.zip stageOrder.tail).contains (a, b)

/-- The terminal statuses. -/
def isTerminal (status : String) : Bool := status == "completed" || status == "failed"

/-- The statuses a run persists, starting with the status of the record as created. -/
def persistedStatuses (created : Theme) (run : Run) : List String :=
  (created :: run.saves).map (fun t => t.deployment.status)

/-- A trace of persisted statuses obeys the state machine: every change is an allowed
step, a trace ending in `completed` visits exactly the stages of the happy path in
order, and a terminal status is never followed by another write. -/
def WellStaged (statuses : List String) : Prop :=
  (∀ change ∈ statuses.zip statuses.tail, allowedStep change.1 change.2 = true) ∧
    (statuses.getLast? = some "completed" → statuses.destutter (fun a b => a ≠ b) = stageOrder) ∧
    ∀ status ∈ statuses.dropLast, isTerminal status = false

instance (statuses : List String) : Decidable (WellStaged statuses) := by
  unfold WellStaged; infer_instance

/-- The progress value of a status: the lookup of the virtual `deploymentProgress`. -/
def progressOf (status : String) : Nat := (progressMap.lookup status).getD 0

/-- A trace of persisted statuses has progress values that never decrease before a
failure, a `failed` status has progress 0, and a terminal status is never followed
by another write. -/
def ProgressMonotone (statuses : List String) : Prop :=
  (∀ change ∈ statuses.zip statuses.tail,
      change.2 ≠ "failed" → progressOf change.1 ≤ progressOf change.2) ∧
    (∀ status ∈ statuses, status = "failed" → progressOf status = 0) ∧
    ∀ status ∈ statuses.dropLast, isTerminal status = false

instance (statuses : List String) : Decidable (ProgressMonotone statuses) := by
  unfold ProgressMonotone; infer_instance

/-- The logs of the records a run persists, starting with the record as created. -/
def persistedLogs (created : Theme) (run : Run) : List (List LogEntry) :=
  (created :: run.saves).map (fun t => t.deployment.deploymentLogs)

/-- One step of an append-only log: `after` is `before` with one entry added at its
end. -/
def Appended (before after : List LogEntry) : Prop := ∃ entry, after = before ++ [entry]

/-- The log of the record in memory is the log persisted last, and every persisted
log is the one persisted before it with one entry added at its end. -/
def AppendOnly (created : Theme) (run : Run) : Prop :=
  (persistedLogs created run).getLast? = some run.theme.deployment.deploymentLogs ∧
    List.Chain' Appended (persistedLogs created run)

/-! ## Sample inputs -/

namespace Sample

/-- A remote environment that answers 500 to every request made for the file at
position `k` and 201 with a record to every other request. -/
def failingAt (k : Nat) : Remote :=
  { acquireToken := fun _ _ => some "token",
    fetch := fun i _ =>
      if i = k then .resolves { status := 500, body := .ok .null }
      else .resolves { status := 201, body := .ok (.object (some "id")) } }

/-- A remote environment whose token provider rejects every request. -/
def unauthenticated : Remote :=
  { acquireToken := fun _ _ => none,
    fetch := fun _ _ => .resolves { status := 201, body := .ok (.object (some "id")) } }

/-- A theme of three files. -/
def threeFiles : List ThemeFile :=
  [{ name := "index.html", partialUrl := "index.html", mimeType := "text/html",
     content := "PGgxPkhpPC9oMT4=" },
   { name := "css/site.css", partialUrl := "css/site.css", mimeType := "text/css",
     content := "Ym9keXt9" },
   { name := "js/app.js", partialUrl := "js/app.js", mimeType := "application/javascript",
     content := "" }]

/-- The wizard data of a deployment from the gallery. -/
def fromGallery : WizardData := { themeName := "Starter", themeSource := "gallery" }

/-- The wizard data of a deployment of an uploaded archive. -/
def fromUpload : WizardData :=
  { themeName := "Mine", themeSource := "upload", uploadedFile := some "mine.zip" }

/-- A world with the gallery theme present, an unreadable archive and the given remote. -/
def world (remote : Remote) : World :=
  { galleryTheme := .ok (some { name := "Starter", downloadUrl := "https://gallery/starter.zip" }),
    archive := none, remote := remote, now := 1700000000 }

/-- A remote environment that grants every token request and answers 201 with a
record to every request. -/
def accepting : Remote :=
  { acquireToken := fun _ _ => some "token",
    fetch := fun _ _ => .resolves { status := 201, body := .ok (.object (some "id")) } }

/-- An archive of a page and a style sheet with the given texts. -/
def siteArchive (html css : String) : List ZipEntry :=
  [{ isDirectory := false, entryName := "index.html", data := some (utf8Encode html) },
   { isDirectory := false, entryName := "styles.css", data := some (utf8Encode css) }]

/-- A world whose uploaded archive holds the given entries. -/
def worldWith (entries : List ZipEntry) (remote : Remote) : World :=
  { galleryTheme := .ok none, archive := some entries, remote := remote, now := 1700000000 }

/-- The branding profile of the organisation Acme. -/
def acme : Branding :=
  { organizationName := some "Acme", colors := some { primary := some "#ff0000" } }

/-- The files extracted from `siteArchive html css`. -/
def siteFiles (html css : String) : List ThemeFile :=
  [{ name := "index.html", partialUrl := "index.html", mimeType := "text/html",
     content := encodeContent html },
   { name := "styles.css", partialUrl := "styles.css", mimeType := "text/css",
     content := encodeContent css }]

/-- The run of `processDeployment` for the archive of a page and a style sheet, the
branding of Acme and a remote that accepts every upload, on the record created by
`POST /execute`. -/
def acmeRun (html css environmentUrl websiteId : String) : Run :=
  Deploy.processDeployment (worldWith (siteArchive html css) accepting) fromUpload (some acme)
    (Deploy.executeCreate fromUpload environmentUrl websiteId)

end Sample

/-! ## Properties of the structure validator -/

theorem endsWith_iff (s suffix : String) :
    endsWith s suffix = true ↔ suffix.data <:+ s.data := by
  simp [endsWith]

theorem isIndexName_iff (f : String) :
    isIndexName f = true ↔ f = "index.html" ∨ "/index.html".data <:+ f.data := by
  simp only [isIndexName, Bool.or_eq_true, beq_iff_eq, endsWith_iff]

theorem errors_eq (themeFiles : List ThemeFile) :
    (validateThemeStructure themeFiles).errors =
      if (themeFiles.any fun f => isIndexName (toLowerCase f.name)) = true then []
      else [missingIndexMessage] := by
  have hany : (themeFiles.map fun f => toLowerCase f.name).any isIndexName =
      themeFiles.any fun f => isIndexName (toLowerCase f.name) := by
    induction themeFiles with
    | nil => rfl
    | cons f rest ih => simp only [List.map_cons, List.any_cons, ih]
  show (if (!(themeFiles.map fun f => toLowerCase f.name).any isIndexName) = true
    then [missingIndexMessage] else []) = _
  rw [hany]
  cases (themeFiles.any fun f => isIndexName (toLowerCase f.name)) <;> rfl

theorem missing_index_iff (themeFiles : List ThemeFile) :
    missingIndexMessage ∈ (validateThemeStructure themeFiles).errors ↔
      ¬ ∃ f ∈ themeFiles, toLowerCase f.name = "index.html" ∨
          "/index.html".data <:+ (toLowerCase f.name).data := by
  have key : (themeFiles.any fun f => isIndexName (toLowerCase f.name)) = true ↔
      ∃ f ∈ themeFiles, toLowerCase f.name = "index.html" ∨
          "/index.html".data <:+ (toLowerCase f.name).data := by
    rw [List.any_eq_true]
    exact exists_congr fun f => and_congr_right fun _ => isIndexName_iff _
  rw [errors_eq, ← key]
  by_cases h : (themeFiles.any fun f => isIndexName (toLowerCase f.name)) = true
  · rw [if_pos h]; simp [h]
  · rw [if_neg h]; simp [h]

/-- C1: the errors of `validateThemeStructure` contain the missing-entry-point message
if and only if no file has a name that, lower-cased, equals `index.html` or ends with
`/index.html`. -/
theorem validate_missing_index_iff (themeFiles : List ThemeFile) :
    missingIndexMessage ∈ (validateThemeStructure themeFiles).errors ↔
      ¬ ∃ f ∈ themeFiles, toLowerCase f.name = "index.html" ∨
          "/index.html".data <:+ (toLowerCase f.name).data :=
  missing_index_iff themeFiles

/-- C2: `isValid` is true exactly when `errors` is empty, which is exactly when some
file is an entry point: the warnings play no part, so a list with an `index.html`
entry point is valid whatever warnings it draws; the empty list is invalid. -/
theorem validate_isValid_iff_no_errors (themeFiles : List ThemeFile) :
    ((validateThemeStructure themeFiles).isValid = true ↔
        (validateThemeStructure themeFiles).errors = []) ∧
      ((validateThemeStructure themeFiles).isValid = true ↔
        ∃ f ∈ themeFiles, toLowerCase f.name = "index.html" ∨
          "/index.html".data <:+ (toLowerCase f.name).data) ∧
      (validateThemeStructure []).isValid = false := by
  have hv : (validateThemeStructure themeFiles).isValid =
      ((validateThemeStructure themeFiles).errors.length == 0) := rfl
  have h1 : (validateThemeStructure themeFiles).isValid = true ↔
      (validateThemeStructure themeFiles).errors = [] := by
    rw [hv]; simp
  refine ⟨h1, ?_, by decide⟩
  rw [h1, ← not_iff_not, ← missing_index_iff, errors_eq]
  by_cases hany : (themeFiles.any fun f => isIndexName (toLowerCase f.name)) = true
  · simp [hany]
  · simp [hany]

/-- Witness for C2: a theme whose only file is `index.html` is valid although it
draws two warnings. -/
theorem validate_isValid_iff_no_errors_witness :
    (validateThemeStructure [⟨"index.html", "index.html", "text/html", ""⟩]).isValid = true ∧
      (validateThemeStructure [⟨"index.html", "index.html", "text/html", ""⟩]).warnings =
        [noCssMessage, noBootstrapMessage] :=
  ⟨(validate_isValid_iff_no_errors [⟨"index.html", "index.html", "text/html", ""⟩]).2.1.mpr
      ⟨_, List.mem_singleton.mpr rfl, Or.inl (by decide)⟩,
    by decide⟩

/-! ## Properties of the remote publisher -/

theorem uploadLoop_spec (remote : Remote) (environmentUrl websiteId : String) :
    ∀ (files : List ThemeFile) (i : Nat) (st : UploadState),
      (uploadLoop remote environmentUrl websiteId i files st).deploymentLog =
          st.deploymentLog ++
            (files.enumFrom i).map (fun p => entryFor remote environmentUrl websiteId p.1 p.2) ∧
        (uploadLoop remote environmentUrl websiteId i files st).successCount =
          st.successCount +
            (files.enumFrom i).countP (fun p => uploadSucceeds remote environmentUrl websiteId p.1 p.2) ∧
        (uploadLoop remote environmentUrl websiteId i files st).errorCount =
          st.errorCount +
            (files.enumFrom i).countP (fun p => !uploadSucceeds remote environmentUrl websiteId p.1 p.2) ∧
        (uploadLoop remote environmentUrl websiteId i files st).attempted = st.attempted ++ files := by
  intro files
  induction files with
  | nil => intro i st; simp [uploadLoop]
  | cons file rest ih =>
    intro i st
    rw [uploadLoop]
    split
    next v sent h =>
      obtain ⟨h1, h2, h3, h4⟩ := ih (i + 1)
        { successCount := st.successCount + 1, errorCount := st.errorCount,
          deploymentLog := st.deploymentLog ++ [{ file := file.name, status := "success" }],
          attempted := st.attempted ++ [file], sent := st.sent ++ sent }
      rw [h1, h2, h3, h4]
      simp [entryFor, uploadSucceeds, h, Nat.add_assoc, Nat.add_comm 1]
    next message sent h =>
      obtain ⟨h1, h2, h3, h4⟩ := ih (i + 1)
        { successCount := st.successCount, errorCount := st.errorCount + 1,
          deploymentLog := st.deploymentLog ++
            [{ file := file.name, status := "error", error := some message }],
          attempted := st.attempted ++ [file], sent := st.sent ++ sent }
      rw [h1, h2, h3, h4]
      simp [entryFor, uploadSucceeds, h, Nat.add_assoc, Nat.add_comm 1]

theorem injectBrandingFile_name (branding : Branding) (file : ThemeFile) :
    (injectBrandingFile branding file).name = file.name := by
  dsimp only [injectBrandingFile]
  split_ifs <;> rfl

theorem brandedFiles_names (themeFiles : List ThemeFile) (branding : Option Branding) :
    (brandedFiles themeFiles branding).map (fun f => f.name) = themeFiles.map (fun f => f.name) := by
  cases branding with
  | none => rfl
  | some b =>
    simp [brandedFiles, injectBranding, List.map_map, Function.comp_def, injectBrandingFile_name]

theorem brandedFiles_length (themeFiles : List ThemeFile) (branding : Option Branding) :
    (brandedFiles themeFiles branding).length = themeFiles.length := by
  cases branding <;> simp [brandedFiles, injectBranding]


theorem deployTheme_result (remote : Remote) (environmentUrl websiteId : String)
    (themeFiles : List ThemeFile) (branding : Option Branding) :
    (deployTheme remote environmentUrl websiteId themeFiles branding).result =
      .ok
        { success :=
            (uploadLoop remote environmentUrl websiteId 0 (brandedFiles themeFiles branding) {}).errorCount == 0,
          totalFiles := (brandedFiles themeFiles branding).length,
          successCount :=
            (uploadLoop remote environmentUrl websiteId 0 (brandedFiles themeFiles branding) {}).successCount,
          errorCount :=
            (uploadLoop remote environmentUrl websiteId 0 (brandedFiles themeFiles branding) {}).errorCount,
          deploymentLog :=
            (uploadLoop remote environmentUrl websiteId 0 (brandedFiles themeFiles branding) {}).deploymentLog } :=
  rfl

theorem countP_fst_eq (k : Nat) : ∀ (files : List ThemeFile) (n : Nat),
    (files.enumFrom n).countP (fun p => p.1 == k) = if n ≤ k ∧ k < n + files.length then 1 else 0 := by
  intro files
  induction files with
  | nil =>
    intro n
    have : ¬ (n ≤ k ∧ k < n + ([] : List ThemeFile).length) := by simp
    rw [if_neg this]; rfl
  | cons f rest ih =>
    intro n
    rw [List.enumFrom_cons, List.countP_cons, ih]
    simp only [List.length_cons, beq_iff_eq]
    split_ifs <;> omega


theorem entryFor_status_success (remote : Remote) (environmentUrl websiteId : String) (i : Nat)
    (file : ThemeFile) :
    (entryFor remote environmentUrl websiteId i file).status = "success" ↔
      ∃ v, (uploadWebFile remote i environmentUrl websiteId file).1 = .ok v := by
  unfold entryFor
  cases (uploadWebFile remote i environmentUrl websiteId file).1 with
  | ok v => simp
  | error m => simp

theorem entryFor_status_error (remote : Remote) (environmentUrl websiteId : String) (i : Nat)
    (file : ThemeFile) :
    (entryFor remote environmentUrl websiteId i file).status = "error" ↔
      ∃ m, (uploadWebFile remote i environmentUrl websiteId file).1 = .error m := by
  unfold entryFor
  cases (uploadWebFile remote i environmentUrl websiteId file).1 with
  | ok v => simp
  | error m => simp

theorem entryFor_file (remote : Remote) (environmentUrl websiteId : String) (i : Nat)
    (file : ThemeFile) : (entryFor remote environmentUrl websiteId i file).file = file.name := by
  unfold entryFor
  cases (uploadWebFile remote i environmentUrl websiteId file).1 <;> rfl

/-- C4: whatever the individual uploads do, `deployTheme` returns a result whose
`totalFiles` is the number of input files, whose two counters add up to it, whose
`success` flag is `errorCount == 0`, and whose log has one entry per file, in input
order, with status `success` exactly for the files whose upload succeeded (and
`error` exactly for those whose upload failed); the counters count these entries. -/
theorem deployTheme_aggregates (remote : Remote) (environmentUrl websiteId : String)
    (themeFiles : List ThemeFile) (branding : Option Branding) :
    ∃ result, (deployTheme remote environmentUrl websiteId themeFiles branding).result = .ok result ∧
      result.totalFiles = themeFiles.length ∧
      result.successCount + result.errorCount = result.totalFiles ∧
      result.success = (result.errorCount == 0) ∧
      result.deploymentLog.length = themeFiles.length ∧
      result.deploymentLog.map (fun e => e.file) = themeFiles.map (fun f => f.name) ∧
      result.successCount = result.deploymentLog.countP (fun e => e.status == "success") ∧
      result.errorCount = result.deploymentLog.countP (fun e => e.status == "error") ∧
      ∀ i file, (brandedFiles themeFiles branding)[i]? = some file →
        ∃ entry, result.deploymentLog[i]? = some entry ∧
          (entry.status = "success" ↔
            ∃ v, (uploadWebFile remote i environmentUrl websiteId file).1 = .ok v) ∧
          (entry.status = "error" ↔
            ∃ m, (uploadWebFile remote i environmentUrl websiteId file).1 = .error m) := by
  obtain ⟨hlog, hsucc, herr, -⟩ :=
    uploadLoop_spec remote environmentUrl websiteId (brandedFiles themeFiles branding) 0 {}
  refine ⟨_, deployTheme_result remote environmentUrl websiteId themeFiles branding, ?_⟩
  simp only [hlog, hsucc, herr]
  have hUS : UploadState.deploymentLog {} = [] := rfl
  have hS0 : UploadState.successCount {} = 0 := rfl
  have hE0 : UploadState.errorCount {} = 0 := rfl
  simp only [hUS, hS0, hE0, List.nil_append, Nat.zero_add]
  refine ⟨brandedFiles_length _ _, ?_, trivial, ?_, ?_, ?_, ?_, ?_⟩
  · have := List.length_eq_countP_add_countP
      (fun p : Nat × ThemeFile => uploadSucceeds remote environmentUrl websiteId p.1 p.2)
      (List.enumFrom 0 (brandedFiles themeFiles branding))
    simp only [List.enumFrom_length] at this
    rw [this]
    congr 1
    apply List.countP_congr
    intro p _
    simp
  · simp [brandedFiles_length]
  · rw [List.map_map, ← brandedFiles_names themeFiles branding]
    have : ((fun e : FileLogEntry => e.file) ∘ fun p : Nat × ThemeFile =>
        entryFor remote environmentUrl websiteId p.1 p.2) = (fun f => f.name) ∘ Prod.snd := by
      funext p; simp [entryFor_file]
    rw [this, ← List.map_map, List.enumFrom_map_snd]
  · rw [List.countP_map]
    apply List.countP_congr
    intro p _
    simp only [Function.comp, beq_iff_eq, entryFor_status_success]
    unfold uploadSucceeds
    cases (uploadWebFile remote p.1 environmentUrl websiteId p.2).1 <;> simp
  · rw [List.countP_map]
    apply List.countP_congr
    intro p _
    simp only [Function.comp, beq_iff_eq, entryFor_status_error]
    unfold uploadSucceeds
    cases (uploadWebFile remote p.1 environmentUrl websiteId p.2).1 <;> simp
  · intro i file hfile
    refine ⟨entryFor remote environmentUrl websiteId i file, ?_,
      entryFor_status_success _ _ _ _ _, entryFor_status_error _ _ _ _ _⟩
    simp [List.getElem?_enumFrom, hfile]


/-- C3: when the upload of the file at position `k` fails with `message` and every
other upload succeeds, `deployTheme` returns `errorCount = 1`,
`successCount = N - 1`, `success = false`, and a log with one entry per file in
input order: the entry at position `k` is the only `error` entry, names file `k`
and carries `message`; every other file is handed to `uploadWebFile` and logged
with status `success`, those after position `k` included. -/
theorem deployTheme_one_failure (remote : Remote) (environmentUrl websiteId : String)
    (themeFiles : List ThemeFile) (branding : Option Branding) (k : Nat) (message : String)
    (hk : k < themeFiles.length)
    (hfail : ∀ file, (brandedFiles themeFiles branding)[k]? = some file →
      (uploadWebFile remote k environmentUrl websiteId file).1 = .error message)
    (hok : ∀ i file, i ≠ k → (brandedFiles themeFiles branding)[i]? = some file →
      ∃ v, (uploadWebFile remote i environmentUrl websiteId file).1 = .ok v) :
    ∃ result, (deployTheme remote environmentUrl websiteId themeFiles branding).result = .ok result ∧
      result.errorCount = 1 ∧
      result.successCount = themeFiles.length - 1 ∧
      result.success = false ∧
      result.totalFiles = themeFiles.length ∧
      result.deploymentLog = themeFiles.enum.map (fun p =>
        if p.1 = k then { file := p.2.name, status := "error", error := some message }
        else { file := p.2.name, status := "success" }) ∧
      result.deploymentLog.countP (fun e => e.status == "error") = 1 ∧
      (deployTheme remote environmentUrl websiteId themeFiles branding).attempted =
        brandedFiles themeFiles branding := by
  obtain ⟨hlog, hsucc, herr, hatt⟩ :=
    uploadLoop_spec remote environmentUrl websiteId (brandedFiles themeFiles branding) 0 {}
  have hUS : UploadState.deploymentLog {} = [] := rfl
  have hS0 : UploadState.successCount {} = 0 := rfl
  have hE0 : UploadState.errorCount {} = 0 := rfl
  have hA0 : UploadState.attempted {} = [] := rfl
  rw [hUS, List.nil_append] at hlog
  rw [hS0, Nat.zero_add] at hsucc
  rw [hE0, Nat.zero_add] at herr
  rw [hA0, List.nil_append] at hatt
  -- which uploads succeed
  have hsucceeds : ∀ p ∈ List.enumFrom 0 (brandedFiles themeFiles branding),
      uploadSucceeds remote environmentUrl websiteId p.1 p.2 = !(p.1 == k) := by
    rintro ⟨i, file⟩ hp
    have hfile : (brandedFiles themeFiles branding)[i]? = some file := by
      simpa using (List.mk_mem_enumFrom_iff_le_and_getElem?_sub.mp hp).2
    unfold uploadSucceeds
    by_cases hik : i = k
    · subst hik
      simp [hfail file hfile]
    · obtain ⟨v, hv⟩ := hok i file hik hfile
      simp [hv, hik]
  have hcountErr : (List.enumFrom 0 (brandedFiles themeFiles branding)).countP
      (fun p => !uploadSucceeds remote environmentUrl websiteId p.1 p.2) = 1 := by
    rw [List.countP_congr (q := fun p => p.1 == k)]
    · rw [countP_fst_eq, if_pos]
      rw [brandedFiles_length]; omega
    · intro p hp
      rw [hsucceeds p hp]; simp
  have hcountOk : (List.enumFrom 0 (brandedFiles themeFiles branding)).countP
      (fun p => uploadSucceeds remote environmentUrl websiteId p.1 p.2) = themeFiles.length - 1 := by
    have h := List.length_eq_countP_add_countP
      (fun p : Nat × ThemeFile => uploadSucceeds remote environmentUrl websiteId p.1 p.2)
      (List.enumFrom 0 (brandedFiles themeFiles branding))
    have h2 : (List.enumFrom 0 (brandedFiles themeFiles branding)).countP
        (fun p => decide ¬ uploadSucceeds remote environmentUrl websiteId p.1 p.2 = true) = 1 := by
      rw [← hcountErr]
      apply List.countP_congr
      intro p _; simp
    rw [List.enumFrom_length, brandedFiles_length, h2] at h
    omega
  have hlogEq : (uploadLoop remote environmentUrl websiteId 0
      (brandedFiles themeFiles branding) {}).deploymentLog =
      themeFiles.enum.map (fun p =>
        if p.1 = k then ({ file := p.2.name, status := "error", error := some message } : FileLogEntry)
        else { file := p.2.name, status := "success" }) := by
    rw [hlog]
    apply List.ext_getElem?
    intro i
    have hname := congrArg (fun l => l[i]?) (brandedFiles_names themeFiles branding)
    simp only [List.getElem?_map] at hname
    simp only [List.getElem?_map, List.enum, List.getElem?_enumFrom, Option.map_map]
    cases hb : (brandedFiles themeFiles branding)[i]? with
    | none =>
      rw [hb] at hname
      cases ht : themeFiles[i]? with
      | none => rfl
      | some f => rw [ht] at hname; simp at hname
    | some file =>
      rw [hb] at hname
      cases ht : themeFiles[i]? with
      | none => rw [ht] at hname; simp at hname
      | some f =>
        rw [ht] at hname
        have hn : file.name = f.name := by simpa using hname
        simp only [Option.map_some', Function.comp, Nat.zero_add]
        congr 1
        unfold entryFor
        by_cases hik : i = k
        · subst hik
          rw [hfail file hb, if_pos rfl, hn]
        · obtain ⟨v, hv⟩ := hok i file hik hb
          rw [hv, if_neg hik, hn]
  refine ⟨_, deployTheme_result remote environmentUrl websiteId themeFiles branding, ?_⟩
  refine ⟨?_, ?_, ?_, brandedFiles_length _ _, hlogEq, ?_, hatt⟩
  · show (uploadLoop remote environmentUrl websiteId 0 (brandedFiles themeFiles branding) {}).errorCount = 1
    rw [herr, hcountErr]
  · show (uploadLoop remote environmentUrl websiteId 0 (brandedFiles themeFiles branding) {}).successCount = _
    rw [hsucc, hcountOk]
  · show ((uploadLoop remote environmentUrl websiteId 0 (brandedFiles themeFiles branding) {}).errorCount == 0) = false
    rw [herr, hcountErr]; rfl
  · show (uploadLoop remote environmentUrl websiteId 0 (brandedFiles themeFiles branding) {}).deploymentLog.countP _ = 1
    rw [hlog, List.countP_map, ← hcountErr]
    apply List.countP_congr
    intro p _
    simp only [Function.comp, beq_iff_eq, entryFor_status_error]
    unfold uploadSucceeds
    cases (uploadWebFile remote p.1 environmentUrl websiteId p.2).1 <;> simp


/-- Witness for C3: three files, the second upload answered with status 500. -/
theorem deployTheme_one_failure_witness :
    ∃ result, (deployTheme (Sample.failingAt 1) "https://env" "site" Sample.threeFiles none).result =
        .ok result ∧
      result.errorCount = 1 ∧
      result.successCount = Sample.threeFiles.length - 1 ∧
      result.success = false ∧
      result.totalFiles = Sample.threeFiles.length ∧
      result.deploymentLog = Sample.threeFiles.enum.map (fun p =>
        if p.1 = 1 then
          { file := p.2.name, status := "error", error := some "Dataverse API error: 500" }
        else { file := p.2.name, status := "success" }) ∧
      result.deploymentLog.countP (fun e => e.status == "error") = 1 ∧
      (deployTheme (Sample.failingAt 1) "https://env" "site" Sample.threeFiles none).attempted =
        brandedFiles Sample.threeFiles none :=
  deployTheme_one_failure (Sample.failingAt 1) "https://env" "site" Sample.threeFiles none 1
    "Dataverse API error: 500" (by decide)
    (by
      intro file h
      have : file = ⟨"css/site.css", "css/site.css", "text/css", "Ym9keXt9"⟩ := by
        simpa [brandedFiles, Sample.threeFiles] using h.symm
      subst this
      rfl)
    (by
      intro i file hi h
      match i, hi, h with
      | 0, _, h =>
        have : file = ⟨"index.html", "index.html", "text/html", "PGgxPkhpPC9oMT4="⟩ := by
          simpa [brandedFiles, Sample.threeFiles] using h.symm
        subst this
        exact ⟨_, rfl⟩
      | 1, hi, _ => exact absurd rfl hi
      | 2, _, h =>
        have : file = ⟨"js/app.js", "js/app.js", "application/javascript", ""⟩ := by
          simpa [brandedFiles, Sample.threeFiles] using h.symm
        subst this
        exact ⟨_, rfl⟩
      | n + 3, _, h => simp [brandedFiles, Sample.threeFiles] at h)

/-! ## Properties of the deployment pipeline of `deploy.js` -/

namespace Deploy

theorem loadThemeFiles_fst (world : World) (wizardData : WizardData) (run run' : Run) :
    (loadThemeFiles world wizardData run).1 = (loadThemeFiles world wizardData run').1 := by
  unfold loadThemeFiles
  split
  · cases world.galleryTheme with
    | error e => rfl
    | ok g => cases g <;> rfl
  · split <;> rfl

theorem loadThemeFiles_snd (world : World) (wizardData : WizardData) (run : Run) :
    (loadThemeFiles world wizardData run).2 = run ∨
      ∃ message, (loadThemeFiles world wizardData run).2 =
        updateDeploymentStatus run "validating" message := by
  unfold loadThemeFiles
  split
  · cases world.galleryTheme with
    | error e => exact Or.inl rfl
    | ok g =>
      cases g with
      | none => exact Or.inl rfl
      | some g => exact Or.inr ⟨_, rfl⟩
  · split <;> exact Or.inl rfl

theorem processDeploymentTry_early (world : World) (wizardData : WizardData)
    (branding : Option Branding) (theme : Theme)
    (h : (∃ e, (loadThemeFiles world wizardData { theme := theme }).1 = .error e) ∨
      ∃ themeFiles, (loadThemeFiles world wizardData { theme := theme }).1 = .ok themeFiles ∧
        (validateThemeStructure themeFiles).isValid = false) :
    ∃ message run2,
      processDeploymentTry world wizardData branding { theme := theme } = (some message, run2) ∧
      (run2 = updateDeploymentStatus { theme := theme } "validating" "Validating theme structure..." ∨
        ∃ m, run2 = updateDeploymentStatus
          (updateDeploymentStatus { theme := theme } "validating" "Validating theme structure...")
          "validating" m) := by
  have hfst := loadThemeFiles_fst world wizardData
    (updateDeploymentStatus { theme := theme } "validating" "Validating theme structure...")
    { theme := theme }
  have hsnd := loadThemeFiles_snd world wizardData
    (updateDeploymentStatus { theme := theme } "validating" "Validating theme structure...")
  unfold processDeploymentTry
  rcases hl : loadThemeFiles world wizardData
    (updateDeploymentStatus { theme := theme } "validating" "Validating theme structure...")
    with ⟨res, run2⟩
  rw [hl] at hfst hsnd
  simp only at hfst hsnd ⊢
  cases res with
  | error e => exact ⟨e, run2, rfl, hsnd⟩
  | ok themeFiles =>
    rcases h with ⟨e, he⟩ | ⟨files, hfiles, hinvalid⟩
    · rw [← hfst] at he; cases he
    · rw [← hfst] at hfiles
      cases hfiles
      simp only [hinvalid]
      exact ⟨_, run2, rfl, hsnd⟩

/-- C6: when obtaining the theme files raises (the gallery theme is missing, its
lookup or the extraction of the archive fails) or the files fail validation, the
run ends with status `failed` and `errorMessage` set, its last log entry is the
`error`-level entry of the failure, that record is the last one saved, no saved
record has status `creating_site`, `deploying` or `completed`, no file is handed to
`uploadWebFile` and no request is sent. -/
theorem processDeployment_fails_before_deploying (world : World) (wizardData : WizardData)
    (branding : Option Branding) (theme : Theme)
    (h : (∃ e, (loadThemeFiles world wizardData { theme := theme }).1 = .error e) ∨
      ∃ themeFiles, (loadThemeFiles world wizardData { theme := theme }).1 = .ok themeFiles ∧
        (validateThemeStructure themeFiles).isValid = false) :
    ∃ message,
      (processDeployment world wizardData branding theme).theme.deployment.status = "failed" ∧
      (processDeployment world wizardData branding theme).theme.deployment.errorMessage =
        some message ∧
      (processDeployment world wizardData branding theme).theme.deployment.deploymentLogs.getLast? =
        some { level := "error", message := "Deployment failed: " ++ message } ∧
      (processDeployment world wizardData branding theme).saves.getLast? =
        some (processDeployment world wizardData branding theme).theme ∧
      (∀ saved ∈ (processDeployment world wizardData branding theme).saves,
        saved.deployment.status = "validating" ∨ saved.deployment.status = "failed") ∧
      (∀ saved ∈ (processDeployment world wizardData branding theme).saves,
        saved.deployment.status ≠ "creating_site" ∧ saved.deployment.status ≠ "deploying" ∧
          saved.deployment.status ≠ "completed") ∧
      (processDeployment world wizardData branding theme).uploads = [] ∧
      (processDeployment world wizardData branding theme).requests = [] := by
  obtain ⟨message, run2, htry, hrun2⟩ := processDeploymentTry_early world wizardData branding theme h
  refine ⟨message, ?_⟩
  unfold processDeployment
  rw [htry]
  rcases hrun2 with rfl | ⟨m, rfl⟩
  · simp [fail, updateDeploymentStatus]
  · simp [fail, updateDeploymentStatus]


theorem complete_rejected (world : World) (run : Run) :
    (complete world run).rejected = some world.saveError ∧
      (complete world run).saves = run.saves ∧
      (complete world run).uploads = run.uploads ∧
      (complete world run).requests = run.requests ∧
      (complete world run).theme.deployment.status = "completed" := by
  have hlevel : "success" ∉ logLevels := by decide
  simp [complete, hlevel]

theorem deployTheme_result_ok (remote : Remote) (environmentUrl websiteId : String)
    (themeFiles : List ThemeFile) (branding : Option Branding) :
    ∃ result, (deployTheme remote environmentUrl websiteId themeFiles branding).result = .ok result :=
  ⟨_, rfl⟩

theorem processDeployment_statuses (world : World) (wizardData : WizardData)
    (branding : Option Branding) (theme : Theme) :
    (processDeployment world wizardData branding theme).saves.map (fun t => t.deployment.status) ∈
      [["validating", "failed"],
       ["validating", "validating", "failed"],
       ["validating", "creating_site", "deploying"],
       ["validating", "creating_site", "deploying", "deploying"],
       ["validating", "validating", "creating_site", "deploying"],
       ["validating", "validating", "creating_site", "deploying", "deploying"],
       ["validating", "validating", "validating", "creating_site", "deploying"],
       ["validating", "validating", "validating", "creating_site", "deploying", "deploying"]] := by
  have hlevel : "success" ∉ logLevels := by decide
  have hsnd := loadThemeFiles_snd world wizardData
    (updateDeploymentStatus { theme := theme } "validating" "Validating theme structure...")
  unfold processDeployment processDeploymentTry
  rcases hl : loadThemeFiles world wizardData
    (updateDeploymentStatus { theme := theme } "validating" "Validating theme structure...")
    with ⟨res, run2⟩
  rw [hl] at hsnd
  simp only at hsnd ⊢
  cases res with
  | error e =>
    rcases hsnd with rfl | ⟨m, rfl⟩ <;> simp [fail, updateDeploymentStatus]
  | ok themeFiles =>
    simp only
    by_cases hvalid : (validateThemeStructure themeFiles).isValid = true
    · simp only [hvalid, Bool.not_true, Bool.false_eq_true, if_false]
      unfold deployValidated
      obtain ⟨result, hres⟩ := deployTheme_result_ok world.remote
        (jsToString (updateDeploymentStatus (updateDeploymentStatus
          (if (validateThemeStructure themeFiles).warnings.length > 0 then
            updateDeploymentStatus run2 "validating"
              ("Warnings: " ++ "; ".intercalate (validateThemeStructure themeFiles).warnings)
          else run2) "creating_site" "Preparing Power Pages site structure...")
          "deploying" "Uploading theme assets...").theme.deployment.powerPagesEnvironmentUrl)
        (jsToString (updateDeploymentStatus (updateDeploymentStatus
          (if (validateThemeStructure themeFiles).warnings.length > 0 then
            updateDeploymentStatus run2 "validating"
              ("Warnings: " ++ "; ".intercalate (validateThemeStructure themeFiles).warnings)
          else run2) "creating_site" "Preparing Power Pages site structure...")
          "deploying" "Uploading theme assets...").theme.deployment.powerPagesWebsiteId)
        themeFiles branding
      simp only [hres]
      rcases hsnd with rfl | ⟨m, rfl⟩ <;>
        split_ifs <;> simp [complete, fail, updateDeploymentStatus, hlevel]
    · simp only [hvalid, Bool.not_false, if_true]
      rcases hsnd with rfl | ⟨m, rfl⟩ <;> simp [fail, updateDeploymentStatus]


theorem deployValidated_induction (P : Run → Prop) (world : World) (branding : Option Branding)
    (themeFiles : List ThemeFile) (validation : ValidationResult) (run2 : Run)
    (hupdate : ∀ run status message, status ∈ ["validating", "creating_site", "deploying"] →
      P run → P (updateDeploymentStatus run status message))
    (hsent : ∀ (run : Run) uploads requests, P run →
      P { run with uploads := uploads, requests := requests })
    (h2 : P run2) :
    ∃ run, P run ∧
      (deployValidated world branding themeFiles validation run2 =
          (some world.saveError, complete world run) ∨
        ∃ message, deployValidated world branding themeFiles validation run2 =
          (some message, run)) := by
  have h3 : P (if validation.warnings.length > 0 then
      updateDeploymentStatus run2 "validating"
        ("Warnings: " ++ "; ".intercalate validation.warnings)
      else run2) := by
    split_ifs
    · exact hupdate _ _ _ (by decide) h2
    · exact h2
  unfold deployValidated
  simp only
  generalize (if validation.warnings.length > 0 then
      updateDeploymentStatus run2 "validating"
        ("Warnings: " ++ "; ".intercalate validation.warnings)
      else run2) = run3 at h3 ⊢
  have h5 := hupdate _ "deploying" "Uploading theme assets..." (by decide)
    (hupdate _ "creating_site" "Preparing Power Pages site structure..." (by decide) h3)
  split
  · exact ⟨_, hsent _ _ _ h5, Or.inr ⟨_, rfl⟩⟩
  · simp only [(complete_rejected world _).1]
    split_ifs
    · exact ⟨_, hupdate _ _ _ (by decide) (hsent _ _ _ h5), Or.inl rfl⟩
    · exact ⟨_, hsent _ _ _ h5, Or.inl rfl⟩

theorem processDeployment_induction_core (P : Run → Prop) (world : World)
    (wizardData : WizardData) (branding : Option Branding) (theme : Theme)
    (hstart : P { theme := theme })
    (hupdate : ∀ run status message, status ∈ ["validating", "creating_site", "deploying"] →
      P run → P (updateDeploymentStatus run status message))
    (hsent : ∀ (run : Run) uploads requests, P run →
      P { run with uploads := uploads, requests := requests }) :
    ∃ run, P run ∧
      (processDeployment world wizardData branding theme =
          fail (complete world run) world.saveError ∨
        ∃ message, processDeployment world wizardData branding theme = fail run message) := by
  have h1 := hupdate _ "validating" "Validating theme structure..." (by decide) hstart
  have hsnd := loadThemeFiles_snd world wizardData
    (updateDeploymentStatus { theme := theme } "validating" "Validating theme structure...")
  unfold processDeployment processDeploymentTry
  rcases hl : loadThemeFiles world wizardData
    (updateDeploymentStatus { theme := theme } "validating" "Validating theme structure...")
    with ⟨res, run2⟩
  rw [hl] at hsnd
  simp only at hsnd ⊢
  have h2 : P run2 := by
    rcases hsnd with rfl | ⟨m, rfl⟩
    · exact h1
    · exact hupdate _ _ _ (by decide) h1
  cases res with
  | error e => exact ⟨run2, h2, Or.inr ⟨e, rfl⟩⟩
  | ok themeFiles =>
    simp only
    split_ifs
    · exact ⟨run2, h2, Or.inr ⟨_, rfl⟩⟩
    · obtain ⟨run, hrun, hcase | ⟨message, hcase⟩⟩ := deployValidated_induction P world branding
        themeFiles (validateThemeStructure themeFiles) run2 hupdate hsent h2
      · rw [hcase]
        exact ⟨run, hrun, Or.inl rfl⟩
      · rw [hcase]
        exact ⟨run, hrun, Or.inr ⟨message, rfl⟩⟩

theorem fail_theme (run : Run) (message : String) :
    (fail run message).theme.deployment.status = "failed" ∧
      (fail run message).theme.deployment.errorMessage = some message ∧
      (fail run message).theme.deployment.deploymentLogs =
        run.theme.deployment.deploymentLogs ++
          [{ level := "error", message := "Deployment failed: " ++ message }] := by
  unfold fail
  cases run.rejected <;> exact ⟨rfl, rfl, rfl⟩

theorem fail_saved (run : Run) (message : String) (h : run.rejected = none) :
    fail run message =
      { run with
        theme := (fail run message).theme,
        saves := run.saves ++ [(fail run message).theme] } := by
  unfold fail
  simp only [h]

theorem fail_unsaved (world : World) (run : Run) (message : String) :
    (fail (complete world run) message).saves = run.saves ∧
      (fail (complete world run) message).uploads = run.uploads ∧
      (fail (complete world run) message).requests = run.requests ∧
      (fail (complete world run) message).rejected = some world.saveError ∧
      (fail (complete world run) message).theme.deployment.status = "failed" ∧
      (fail (complete world run) message).theme.deployment.errorMessage = some message ∧
      (fail (complete world run) message).theme.deployment.deploymentLogs =
        run.theme.deployment.deploymentLogs ++
          [{ level := "success", message := "Deployment completed successfully!" },
           { level := "error", message := "Deployment failed: " ++ message }] := by
  have hlevel : "success" ∉ logLevels := by decide
  simp [fail, complete, hlevel]

/-- The run before its last step: a run on which no `save()` has been rejected, that
satisfies every property the writes preserve, and which ends either with the
completion step, whose `save()` is rejected, followed by the `catch` block, or with
the `catch` block alone. -/
theorem processDeployment_induction (P : Run → Prop) (world : World) (wizardData : WizardData)
    (branding : Option Branding) (theme : Theme)
    (hstart : P { theme := theme })
    (hupdate : ∀ run status message, status ∈ ["validating", "creating_site", "deploying"] →
      P run → P (updateDeploymentStatus run status message))
    (hsent : ∀ (run : Run) uploads requests, P run →
      P { run with uploads := uploads, requests := requests }) :
    ∃ run, P run ∧ run.rejected = none ∧
      (processDeployment world wizardData branding theme =
          fail (complete world run) world.saveError ∨
        ∃ message, processDeployment world wizardData branding theme = fail run message) := by
  obtain ⟨run, ⟨hP, hrej⟩, hcase⟩ := processDeployment_induction_core
    (fun run => P run ∧ run.rejected = none) world wizardData branding theme ⟨hstart, rfl⟩
    (fun run status message hs h => ⟨hupdate run status message hs h.1, h.2⟩)
    (fun run uploads requests h => ⟨hsent run uploads requests h.1, h.2⟩)
  exact ⟨run, hP, hrej, hcase⟩


theorem processDeployment_before_end (world : World) (wizardData : WizardData)
    (branding : Option Branding) (theme : Theme) :
    ∃ run : Run,
      ((run.theme.deployment.errorMessage = theme.deployment.errorMessage ∧
          run.theme.deployment.completedAt = theme.deployment.completedAt ∧
          run.theme.deployment.deployedAt = theme.deployment.deployedAt ∧
          run.theme.deployment.powerPagesWebsiteUrl = theme.deployment.powerPagesWebsiteUrl ∧
          run.theme.deployment.powerPagesWebsiteId = theme.deployment.powerPagesWebsiteId ∧
          run.theme.deployment.powerPagesEnvironmentUrl =
            theme.deployment.powerPagesEnvironmentUrl ∧
          ∀ entry ∈ run.theme.deployment.deploymentLogs,
            entry ∈ theme.deployment.deploymentLogs ∨ entry.level = "info") ∧
        ∀ saved ∈ run.saves,
          saved.deployment.status ∈ ["validating", "creating_site", "deploying"] ∧
          saved.deployment.errorMessage = theme.deployment.errorMessage ∧
          saved.deployment.completedAt = theme.deployment.completedAt ∧
          saved.deployment.deployedAt = theme.deployment.deployedAt ∧
          saved.deployment.powerPagesWebsiteUrl = theme.deployment.powerPagesWebsiteUrl ∧
          saved.deployment.powerPagesWebsiteId = theme.deployment.powerPagesWebsiteId ∧
          saved.deployment.powerPagesEnvironmentUrl =
            theme.deployment.powerPagesEnvironmentUrl ∧
          ∀ entry ∈ saved.deployment.deploymentLogs,
            entry ∈ theme.deployment.deploymentLogs ∨ entry.level = "info") ∧
      run.rejected = none ∧
      (processDeployment world wizardData branding theme =
          fail (complete world run) world.saveError ∨
        ∃ message, processDeployment world wizardData branding theme = fail run message) := by
  apply processDeployment_induction
    (fun run : Run =>
      (run.theme.deployment.errorMessage = theme.deployment.errorMessage ∧
          run.theme.deployment.completedAt = theme.deployment.completedAt ∧
          run.theme.deployment.deployedAt = theme.deployment.deployedAt ∧
          run.theme.deployment.powerPagesWebsiteUrl = theme.deployment.powerPagesWebsiteUrl ∧
          run.theme.deployment.powerPagesWebsiteId = theme.deployment.powerPagesWebsiteId ∧
          run.theme.deployment.powerPagesEnvironmentUrl =
            theme.deployment.powerPagesEnvironmentUrl ∧
          ∀ entry ∈ run.theme.deployment.deploymentLogs,
            entry ∈ theme.deployment.deploymentLogs ∨ entry.level = "info") ∧
        ∀ saved ∈ run.saves,
          saved.deployment.status ∈ ["validating", "creating_site", "deploying"] ∧
          saved.deployment.errorMessage = theme.deployment.errorMessage ∧
          saved.deployment.completedAt = theme.deployment.completedAt ∧
          saved.deployment.deployedAt = theme.deployment.deployedAt ∧
          saved.deployment.powerPagesWebsiteUrl = theme.deployment.powerPagesWebsiteUrl ∧
          saved.deployment.powerPagesWebsiteId = theme.deployment.powerPagesWebsiteId ∧
          saved.deployment.powerPagesEnvironmentUrl =
            theme.deployment.powerPagesEnvironmentUrl ∧
          ∀ entry ∈ saved.deployment.deploymentLogs,
            entry ∈ theme.deployment.deploymentLogs ∨ entry.level = "info")
  · exact ⟨⟨rfl, rfl, rfl, rfl, rfl, rfl, fun entry h => Or.inl h⟩,
      fun saved h => absurd h (List.not_mem_nil _)⟩
  · intro run status message hstatus ⟨⟨h1, h2, h3, h4, h5, h6, h7⟩, hsaves⟩
    have hlogs : ∀ entry ∈ (updateDeploymentStatus run status message).theme.deployment.deploymentLogs,
        entry ∈ theme.deployment.deploymentLogs ∨ entry.level = "info" := by
      intro entry hentry
      simp only [updateDeploymentStatus, List.mem_append, List.mem_singleton] at hentry
      rcases hentry with hentry | rfl
      · exact h7 entry hentry
      · exact Or.inr rfl
    refine ⟨⟨h1, h2, h3, h4, h5, h6, hlogs⟩, ?_⟩
    intro saved hsaved
    simp only [updateDeploymentStatus, List.mem_append, List.mem_singleton] at hsaved
    rcases hsaved with hsaved | rfl
    · exact hsaves saved hsaved
    · exact ⟨hstatus, h1, h2, h3, h4, h5, h6, hlogs⟩
  · intro run uploads requests h
    exact h


theorem processDeployment_valid_end (world : World) (wizardData : WizardData)
    (branding : Option Branding) (theme : Theme) (themeFiles : List ThemeFile)
    (result : DeployResult)
    (hload : (loadThemeFiles world wizardData { theme := theme }).1 = .ok themeFiles)
    (hvalid : (validateThemeStructure themeFiles).isValid = true)
    (hresult : (deployTheme world.remote (jsToString theme.deployment.powerPagesEnvironmentUrl)
      (jsToString theme.deployment.powerPagesWebsiteId) themeFiles branding).result = .ok result) :
    (processDeployment world wizardData branding theme).theme.deployment.status = "failed" ∧
      (processDeployment world wizardData branding theme).theme.deployment.errorMessage =
        some world.saveError ∧
      (processDeployment world wizardData branding theme).rejected = some world.saveError ∧
      (∃ last, (processDeployment world wizardData branding theme).saves.getLast? = some last ∧
        last.deployment.status = "deploying" ∧
        ((result.success = false ∧ 0 < result.errorCount) →
          last.deployment.deploymentLogs.getLast? =
            some { level := "info", message := summaryMessage result })) ∧
      (processDeployment world wizardData branding theme).uploads =
        brandedFiles themeFiles branding ∧
      (processDeployment world wizardData branding theme).requests =
        (deployTheme world.remote (jsToString theme.deployment.powerPagesEnvironmentUrl)
          (jsToString theme.deployment.powerPagesWebsiteId) themeFiles branding).sent := by
  have hlevel : "success" ∉ logLevels := by decide
  have hfst := loadThemeFiles_fst world wizardData
    (updateDeploymentStatus { theme := theme } "validating" "Validating theme structure...")
    { theme := theme }
  have hsnd := loadThemeFiles_snd world wizardData
    (updateDeploymentStatus { theme := theme } "validating" "Validating theme structure...")
  have hatt : (deployTheme world.remote (jsToString theme.deployment.powerPagesEnvironmentUrl)
      (jsToString theme.deployment.powerPagesWebsiteId) themeFiles branding).attempted =
      brandedFiles themeFiles branding := by
    have := (uploadLoop_spec world.remote (jsToString theme.deployment.powerPagesEnvironmentUrl)
      (jsToString theme.deployment.powerPagesWebsiteId) (brandedFiles themeFiles branding) 0 {}).2.2.2
    simpa [deployTheme] using this
  unfold processDeployment processDeploymentTry
  rcases hl : loadThemeFiles world wizardData
    (updateDeploymentStatus { theme := theme } "validating" "Validating theme structure...")
    with ⟨res, run2⟩
  rw [hl] at hfst hsnd
  simp only at hfst hsnd ⊢
  rw [hload] at hfst
  subst hfst
  simp only [hvalid, Bool.not_true, Bool.false_eq_true, if_false]
  unfold deployValidated
  rcases hsnd with rfl | ⟨m, rfl⟩ <;>
    by_cases hw : (validateThemeStructure themeFiles).warnings.length > 0 <;>
    cases hsucc : result.success <;>
    by_cases herr : 0 < result.errorCount <;>
    simp [hw, hsucc, herr, updateDeploymentStatus, hresult, complete, fail, hatt, hlevel]


theorem processDeployment_valid (world : World) (wizardData : WizardData)
    (branding : Option Branding) (theme : Theme) (themeFiles : List ThemeFile)
    (result : DeployResult)
    (hload : (loadThemeFiles world wizardData { theme := theme }).1 = .ok themeFiles)
    (hvalid : (validateThemeStructure themeFiles).isValid = true)
    (hresult : (deployTheme world.remote (jsToString theme.deployment.powerPagesEnvironmentUrl)
      (jsToString theme.deployment.powerPagesWebsiteId) themeFiles branding).result = .ok result) :
    (∃ last, (processDeployment world wizardData branding theme).saves.getLast? = some last ∧
        last.deployment.status = "deploying" ∧
        ((result.success = false ∧ 0 < result.errorCount) →
          last.deployment.deploymentLogs.getLast? =
            some { level := "info", message := summaryMessage result })) ∧
      (∀ saved ∈ (processDeployment world wizardData branding theme).saves,
        saved.deployment.status ∈ ["validating", "creating_site", "deploying"] ∧
        saved.deployment.errorMessage = theme.deployment.errorMessage ∧
        ∀ entry ∈ saved.deployment.deploymentLogs,
          entry ∈ theme.deployment.deploymentLogs ∨ entry.level = "info") ∧
      (∀ entry ∈ (processDeployment world wizardData branding theme).theme.deployment.deploymentLogs,
        entry ∈ theme.deployment.deploymentLogs ∨ entry.level = "info" ∨
          entry.level = "success" ∨ entry.level = "error") ∧
      (processDeployment world wizardData branding theme).uploads =
        brandedFiles themeFiles branding ∧
      (processDeployment world wizardData branding theme).requests =
        (deployTheme world.remote (jsToString theme.deployment.powerPagesEnvironmentUrl)
          (jsToString theme.deployment.powerPagesWebsiteId) themeFiles branding).sent := by
  obtain ⟨-, -, hrej, hlast, hup, hreq⟩ := processDeployment_valid_end world wizardData branding
    theme themeFiles result hload hvalid hresult
  obtain ⟨run, ⟨⟨-, -, -, -, -, -, hlogs⟩, hsaves⟩, hnone, hcase | ⟨message, hcase⟩⟩ :=
    processDeployment_before_end world wizardData branding theme
  · refine ⟨hlast, ?_, ?_, hup, hreq⟩
    · rw [hcase, (fail_unsaved world run world.saveError).1]
      intro saved hsaved
      obtain ⟨a, b, -, -, -, -, -, c⟩ := hsaves saved hsaved
      exact ⟨a, b, c⟩
    · rw [hcase, (fail_unsaved world run world.saveError).2.2.2.2.2.2]
      intro entry hentry
      simp only [List.mem_append, List.mem_cons, List.mem_singleton, List.not_mem_nil,
        or_false] at hentry
      rcases hentry with hentry | rfl | rfl
      · rcases hlogs entry hentry with h | h
        · exact Or.inl h
        · exact Or.inr (Or.inl h)
      · exact Or.inr (Or.inr (Or.inl rfl))
      · exact Or.inr (Or.inr (Or.inr rfl))
  · rw [hcase, fail_saved run message hnone] at hrej
    rw [hnone] at hrej
    cases hrej

theorem processDeployment_valid_completion (world : World) (wizardData : WizardData)
    (branding : Option Branding) (theme : Theme) (themeFiles : List ThemeFile)
    (result : DeployResult)
    (hload : (loadThemeFiles world wizardData { theme := theme }).1 = .ok themeFiles)
    (hvalid : (validateThemeStructure themeFiles).isValid = true)
    (hresult : (deployTheme world.remote (jsToString theme.deployment.powerPagesEnvironmentUrl)
      (jsToString theme.deployment.powerPagesWebsiteId) themeFiles branding).result = .ok result) :
    ∃ entry ∈ (processDeployment world wizardData branding theme).theme.deployment.deploymentLogs,
      entry.message = "Deployment completed successfully!" := by
  obtain ⟨-, -, hrej, -, -, -⟩ := processDeployment_valid_end world wizardData branding
    theme themeFiles result hload hvalid hresult
  obtain ⟨run, -, hnone, hcase | ⟨message, hcase⟩⟩ :=
    processDeployment_induction (fun _ => True) world wizardData branding theme trivial
      (fun _ _ _ _ _ => trivial) (fun _ _ _ _ => trivial)
  · rw [hcase, (fail_unsaved world run world.saveError).2.2.2.2.2.2]
    exact ⟨{ level := "success", message := "Deployment completed successfully!" },
      by simp, rfl⟩
  · rw [hcase, fail_saved run message hnone] at hrej
    rw [hnone] at hrej
    cases hrej

/-- Witness for C6: an uploaded archive that cannot be read. -/
theorem processDeployment_fails_before_deploying_witness :
    ∃ message,
      (processDeployment (Sample.world (Sample.failingAt 0)) Sample.fromUpload none
        (executeCreate Sample.fromUpload "https://env" "site")).theme.deployment.status = "failed" ∧
      (processDeployment (Sample.world (Sample.failingAt 0)) Sample.fromUpload none
        (executeCreate Sample.fromUpload "https://env" "site")).theme.deployment.errorMessage =
          some message ∧
      (processDeployment (Sample.world (Sample.failingAt 0)) Sample.fromUpload none
        (executeCreate Sample.fromUpload "https://env" "site")).uploads = [] :=
  have h := processDeployment_fails_before_deploying (Sample.world (Sample.failingAt 0))
    Sample.fromUpload none (executeCreate Sample.fromUpload "https://env" "site")
    (Or.inl ⟨"Failed to extract theme archive", rfl⟩)
  h.imp fun _ hm => ⟨hm.1, hm.2.1, hm.2.2.2.2.2.2.1⟩

theorem deployTheme_success_flag (remote : Remote) (environmentUrl websiteId : String)
    (themeFiles : List ThemeFile) (branding : Option Branding) (result : DeployResult)
    (h : (deployTheme remote environmentUrl websiteId themeFiles branding).result = .ok result) :
    result.success = (result.errorCount == 0) := by
  rw [deployTheme_result] at h
  cases h
  rfl

/-- C7 (amended): when validation passes and `deployTheme` reports `errorCount > 0`
with `errorCount < totalFiles`, the upload errors do not make the run of the record
created by `POST /execute` fail: a record is persisted with the status `deploying`,
no `errorMessage`, and as its last log line the entry
`Deployed {successCount}/{totalFiles} files. {errorCount} errors.` at level `info`;
no persisted record has status `failed` or an `errorMessage`; no entry of any log,
persisted or in memory, has level `warning`; and the run goes on to the completion
step, whose entry `Deployment completed successfully!` is pushed on the record in
memory. -/
theorem processDeployment_partial_failure (world : World) (wizardData : WizardData)
    (branding : Option Branding) (environmentUrl websiteId : String)
    (themeFiles : List ThemeFile) (result : DeployResult)
    (hload : (loadThemeFiles world wizardData
      { theme := executeCreate wizardData environmentUrl websiteId }).1 = .ok themeFiles)
    (hvalid : (validateThemeStructure themeFiles).isValid = true)
    (hresult : (deployTheme world.remote
      (jsToString (executeCreate wizardData environmentUrl
        websiteId).deployment.powerPagesEnvironmentUrl)
      websiteId themeFiles branding).result = .ok result)
    (herr : 0 < result.errorCount) (_hlt : result.errorCount < result.totalFiles) :
    (∃ last ∈ (processDeployment world wizardData branding
          (executeCreate wizardData environmentUrl websiteId)).saves,
        last.deployment.status = "deploying" ∧
        last.deployment.errorMessage = none ∧
        last.deployment.deploymentLogs.getLast? =
          some { level := "info",
                 message := "Deployed " ++ toString result.successCount ++ "/" ++
                   toString result.totalFiles ++ " files. " ++ toString result.errorCount ++
                   " errors." }) ∧
      (∀ saved ∈ (processDeployment world wizardData branding
          (executeCreate wizardData environmentUrl websiteId)).saves,
        saved.deployment.status ≠ "failed" ∧ saved.deployment.errorMessage = none ∧
        ∀ entry ∈ saved.deployment.deploymentLogs, entry.level ≠ "warning") ∧
      (∀ entry ∈ (processDeployment world wizardData branding
          (executeCreate wizardData environmentUrl websiteId)).theme.deployment.deploymentLogs,
        entry.level ≠ "warning") ∧
      ∃ entry ∈ (processDeployment world wizardData branding
          (executeCreate wizardData environmentUrl websiteId)).theme.deployment.deploymentLogs,
        entry.message = "Deployment completed successfully!" := by
  have hflag := deployTheme_success_flag _ _ _ _ _ _ hresult
  have hsuccess : result.success = false := by
    rw [hflag]
    simp only [beq_eq_false_iff_ne, ne_eq]
    omega
  obtain ⟨⟨last, hlast, hstatus, hsummary⟩, hsaves, hmemory, -, -⟩ :=
    processDeployment_valid world wizardData branding
      (executeCreate wizardData environmentUrl websiteId) themeFiles result hload hvalid hresult
  have hinitial : ∀ entry ∈ (executeCreate wizardData environmentUrl
      websiteId).deployment.deploymentLogs, entry.level = "info" := by
    intro entry hentry
    have : entry = { level := "info", message := "Deployment initiated" } := by
      simpa [executeCreate] using hentry
    rw [this]
  refine ⟨⟨last, List.mem_of_mem_getLast? hlast, hstatus, ?_, hsummary ⟨hsuccess, herr⟩⟩, ?_, ?_,
    processDeployment_valid_completion world wizardData branding
      (executeCreate wizardData environmentUrl websiteId) themeFiles result hload hvalid hresult⟩
  · exact (hsaves last (List.mem_of_mem_getLast? hlast)).2.1
  · intro saved hsaved
    obtain ⟨hs, he, hl⟩ := hsaves saved hsaved
    refine ⟨?_, he, ?_⟩
    · intro hfailed
      rw [hfailed] at hs
      exact absurd hs (by decide)
    · intro entry hentry
      rcases hl entry hentry with h | h
      · rw [hinitial entry h]; decide
      · rw [h]; decide
  · intro entry hentry
    rcases hmemory entry hentry with h | h | h | h
    · rw [hinitial entry h]; decide
    · rw [h]; decide
    · rw [h]; decide
    · rw [h]; decide

/-- Witness for C7 (amended): the two gallery files, the second upload answered with
status 500. -/
theorem processDeployment_partial_failure_witness :
    ∃ last ∈ (processDeployment (Sample.world (Sample.failingAt 1)) Sample.fromGallery none
        (executeCreate Sample.fromGallery "https://env" "site")).saves,
      last.deployment.status = "deploying" ∧
      last.deployment.errorMessage = none ∧
      last.deployment.deploymentLogs.getLast? =
        some { level := "info", message := "Deployed 1/2 files. 1 errors." } :=
  (processDeployment_partial_failure (Sample.world (Sample.failingAt 1))
    Sample.fromGallery none "https://env" "site"
    (downloadAndExtractTheme "https://gallery/starter.zip")
    { success := false, totalFiles := 2, successCount := 1, errorCount := 1,
      deploymentLog :=
        [{ file := "index.html", status := "success" },
         { file := "css/styles.css", status := "error",
           error := some "Dataverse API error: 500" }] }
    rfl (by decide) rfl (by decide) (by decide)).1

/-- Counterexample to C7 as stated: the two gallery files pass validation, the second
upload is answered with status 500, so `deployTheme` reports `errorCount = 1` of
`totalFiles = 2`; yet no log entry of level `warning` carries the summary message,
neither in the record in memory nor in a persisted record: the summary is written
at level `info`. -/
theorem processDeployment_no_warning_entry :
    (validateThemeStructure (downloadAndExtractTheme "https://gallery/starter.zip")).isValid = true ∧
      (deployTheme (Sample.failingAt 1) "undefined" "site"
        (downloadAndExtractTheme "https://gallery/starter.zip") none).result.toOption.map
          (fun r => (r.errorCount, r.totalFiles)) = some (1, 2) ∧
      (¬ ∃ entry ∈ (processDeployment (Sample.world (Sample.failingAt 1)) Sample.fromGallery none
          (executeCreate Sample.fromGallery "https://env" "site")).theme.deployment.deploymentLogs,
        entry.level = "warning" ∧ entry.message = "Deployed 1/2 files. 1 errors.") ∧
      (¬ ∃ saved ∈ (processDeployment (Sample.world (Sample.failingAt 1)) Sample.fromGallery none
          (executeCreate Sample.fromGallery "https://env" "site")).saves,
        ∃ entry ∈ saved.deployment.deploymentLogs,
          entry.level = "warning" ∧ entry.message = "Deployed 1/2 files. 1 errors.") ∧
      ({ level := "info", message := "Deployed 1/2 files. 1 errors." } : LogEntry) ∈
        (processDeployment (Sample.world (Sample.failingAt 1)) Sample.fromGallery none
          (executeCreate Sample.fromGallery "https://env" "site")).theme.deployment.deploymentLogs := by
  decide


theorem uploadWebFile_no_client (remote : Remote) (i : Nat) (environmentUrl websiteId : String)
    (file : ThemeFile) (message : String) (hclient : remote.createClient i 0 = some message) :
    uploadWebFile remote i environmentUrl websiteId file = (.error message, []) := by
  simp [uploadWebFile, dataverseRequest, getAccessToken, hclient]

theorem uploadWebFile_unauthenticated (remote : Remote) (i : Nat) (environmentUrl websiteId : String)
    (file : ThemeFile) (hclient : ∀ i step, remote.createClient i step = none)
    (htoken : ∀ i step, remote.acquireToken i step = none) :
    uploadWebFile remote i environmentUrl websiteId file = (.error authenticationMessage, []) := by
  simp [uploadWebFile, dataverseRequest, getAccessToken, hclient, htoken]

theorem uploadLoop_unauthenticated (remote : Remote) (environmentUrl websiteId : String)
    (hclient : ∀ i step, remote.createClient i step = none)
    (htoken : ∀ i step, remote.acquireToken i step = none) :
    ∀ (files : List ThemeFile) (i : Nat) (st : UploadState),
      uploadLoop remote environmentUrl websiteId i files st =
        { successCount := st.successCount,
          errorCount := st.errorCount + files.length,
          deploymentLog := st.deploymentLog ++ files.map (fun f =>
            { file := f.name, status := "error", error := some authenticationMessage }),
          attempted := st.attempted ++ files,
          sent := st.sent } := by
  intro files
  induction files with
  | nil => intro i st; simp [uploadLoop]
  | cons file rest ih =>
    intro i st
    rw [uploadLoop,
      uploadWebFile_unauthenticated remote i environmentUrl websiteId file hclient htoken]
    simp only [ih]
    simp [Nat.add_assoc, Nat.add_comm 1]

theorem valid_ne_nil (themeFiles : List ThemeFile)
    (hvalid : (validateThemeStructure themeFiles).isValid = true) : 0 < themeFiles.length := by
  cases themeFiles with
  | nil => exact absurd hvalid (by decide)
  | cons f rest => simp

theorem deployTheme_unauthenticated (remote : Remote) (environmentUrl websiteId : String)
    (themeFiles : List ThemeFile) (branding : Option Branding)
    (hpos : 0 < themeFiles.length)
    (hclient : ∀ i step, remote.createClient i step = none)
    (htoken : ∀ i step, remote.acquireToken i step = none) :
    (deployTheme remote environmentUrl websiteId themeFiles branding).result =
        .ok { success := false, totalFiles := themeFiles.length, successCount := 0,
              errorCount := themeFiles.length,
              deploymentLog := themeFiles.map (fun f =>
                { file := f.name, status := "error", error := some authenticationMessage }) } ∧
      (deployTheme remote environmentUrl websiteId themeFiles branding).attempted =
        brandedFiles themeFiles branding ∧
      (deployTheme remote environmentUrl websiteId themeFiles branding).sent = [] := by
  have hloop := uploadLoop_unauthenticated remote environmentUrl websiteId hclient htoken
    (brandedFiles themeFiles branding) 0 {}
  have hnames : (brandedFiles themeFiles branding).map (fun f =>
      ({ file := f.name, status := "error", error := some authenticationMessage } : FileLogEntry)) =
      themeFiles.map (fun f =>
        { file := f.name, status := "error", error := some authenticationMessage }) := by
    have h := congrArg (List.map (fun n =>
      ({ file := n, status := "error", error := some authenticationMessage } : FileLogEntry)))
      (brandedFiles_names themeFiles branding)
    simpa [List.map_map, Function.comp_def] using h
  refine ⟨?_, ?_, ?_⟩
  · rw [deployTheme_result, hloop]
    have hS0 : UploadState.successCount {} = 0 := rfl
    have hE0 : UploadState.errorCount {} = 0 := rfl
    have hL0 : UploadState.deploymentLog {} = [] := rfl
    simp only [hS0, hE0, hL0, Nat.zero_add, List.nil_append, brandedFiles_length, hnames]
    have : (themeFiles.length == 0) = false := by
      simp only [beq_eq_false_iff_ne, ne_eq]; omega
    rw [this]
  · show (uploadLoop remote environmentUrl websiteId 0 (brandedFiles themeFiles branding) {}).attempted = _
    rw [hloop]; rfl
  · show (uploadLoop remote environmentUrl websiteId 0 (brandedFiles themeFiles branding) {}).sent = []
    rw [hloop]

/-- C5 (amended): when the theme passes validation and the token request is rejected
for every request, `deployTheme` does not throw, whatever the environment URL and
the website: every file is handed to `uploadWebFile`, no request is sent, each file
is logged with status `error` and the message `Failed to authenticate with
Dataverse`, and the result has `success = false`, `successCount = 0` and
`errorCount = totalFiles` (when the client itself cannot be created, the error of
its constructor is the one logged for the file). The run of `processDeployment` on
the record created by `POST /execute` sends no request; it persists a record with
the status `deploying`, no `errorMessage`, and `Deployed 0/N files. N errors.` as
its last log line; no persisted record has status `failed` or an `errorMessage`;
and the run goes on to the completion step, whose entry
`Deployment completed successfully!` is pushed on the record in memory. -/
theorem processDeployment_unauthenticated (world : World) (wizardData : WizardData)
    (branding : Option Branding) (environmentUrl websiteId : String)
    (themeFiles : List ThemeFile)
    (hload : (loadThemeFiles world wizardData
      { theme := executeCreate wizardData environmentUrl websiteId }).1 = .ok themeFiles)
    (hvalid : (validateThemeStructure themeFiles).isValid = true)
    (hclient : ∀ i step, world.remote.createClient i step = none)
    (htoken : ∀ i step, world.remote.acquireToken i step = none) :
    (∀ url site : String,
      (deployTheme world.remote url site themeFiles branding).result =
        .ok { success := false, totalFiles := themeFiles.length, successCount := 0,
              errorCount := themeFiles.length,
              deploymentLog := themeFiles.map (fun f =>
                { file := f.name, status := "error", error := some authenticationMessage }) } ∧
      (deployTheme world.remote url site themeFiles branding).attempted =
        brandedFiles themeFiles branding ∧
      (deployTheme world.remote url site themeFiles branding).sent = []) ∧
    (∀ (remote : Remote) (i : Nat) (url site : String) (file : ThemeFile) (message : String),
      remote.createClient i 0 = some message →
      uploadWebFile remote i url site file = (.error message, [])) ∧
    (processDeployment world wizardData branding
      (executeCreate wizardData environmentUrl websiteId)).uploads =
        brandedFiles themeFiles branding ∧
    (processDeployment world wizardData branding
      (executeCreate wizardData environmentUrl websiteId)).requests = [] ∧
    (∃ last ∈ (processDeployment world wizardData branding
        (executeCreate wizardData environmentUrl websiteId)).saves,
      last.deployment.status = "deploying" ∧
      last.deployment.errorMessage = none ∧
      last.deployment.deploymentLogs.getLast? =
        some { level := "info",
               message := "Deployed 0/" ++ toString themeFiles.length ++ " files. " ++
                 toString themeFiles.length ++ " errors." }) ∧
    (∀ saved ∈ (processDeployment world wizardData branding
        (executeCreate wizardData environmentUrl websiteId)).saves,
      saved.deployment.status ≠ "failed" ∧ saved.deployment.errorMessage = none) ∧
    ∃ entry ∈ (processDeployment world wizardData branding
        (executeCreate wizardData environmentUrl websiteId)).theme.deployment.deploymentLogs,
      entry.message = "Deployment completed successfully!" := by
  have hpos := valid_ne_nil themeFiles hvalid
  have hdeploy := fun url site => deployTheme_unauthenticated world.remote url site themeFiles
    branding hpos hclient htoken
  obtain ⟨⟨last, hlast, hstatus, hsummary⟩, hsaves, -, hup, hreq⟩ :=
    processDeployment_valid world wizardData branding
      (executeCreate wizardData environmentUrl websiteId) themeFiles _ hload hvalid
      (hdeploy _ _).1
  refine ⟨hdeploy, fun remote i url site file message h =>
    uploadWebFile_no_client remote i url site file message h, hup, ?_,
    ⟨last, List.mem_of_mem_getLast? hlast, hstatus,
      (hsaves last (List.mem_of_mem_getLast? hlast)).2.1, ?_⟩, ?_,
    processDeployment_valid_completion world wizardData branding
      (executeCreate wizardData environmentUrl websiteId) themeFiles _ hload hvalid
      (hdeploy _ _).1⟩
  · rw [hreq]; exact (hdeploy _ _).2.2
  · have hm := hsummary ⟨rfl, hpos⟩
    have e : ("Deployed " ++ toString (0 : Nat) ++ "/" : String) = "Deployed 0/" := by decide
    simpa only [summaryMessage, e] using hm
  · intro saved hsaved
    obtain ⟨hs, he, -⟩ := hsaves saved hsaved
    refine ⟨?_, he⟩
    intro hfailed
    rw [hfailed] at hs
    exact absurd hs (by decide)

/-- Witness for C5 (amended): the two gallery files and a token provider that rejects
every request. -/
theorem processDeployment_unauthenticated_witness :
    (processDeployment (Sample.world Sample.unauthenticated) Sample.fromGallery none
        (executeCreate Sample.fromGallery "https://env" "site")).requests = [] ∧
      ∃ last ∈ (processDeployment (Sample.world Sample.unauthenticated) Sample.fromGallery none
          (executeCreate Sample.fromGallery "https://env" "site")).saves,
        last.deployment.status = "deploying" ∧
        last.deployment.errorMessage = none ∧
        last.deployment.deploymentLogs.getLast? =
          some { level := "info", message := "Deployed 0/2 files. 2 errors." } :=
  have h := processDeployment_unauthenticated (Sample.world Sample.unauthenticated)
    Sample.fromGallery none "https://env" "site"
    (downloadAndExtractTheme "https://gallery/starter.zip") rfl (by decide) (fun _ _ => rfl)
    (fun _ _ => rfl)
  ⟨h.2.2.2.1, h.2.2.2.2.1⟩

/-- Counterexample to C5 as stated: the two gallery files pass validation and the
token provider rejects every request, yet the publish call does not fail:
`deployTheme` returns a per-file result, and both files are handed to
`uploadWebFile`. -/
theorem processDeployment_token_failure_returns :
    (validateThemeStructure (downloadAndExtractTheme "https://gallery/starter.zip")).isValid = true ∧
      (deployTheme Sample.unauthenticated "undefined" "site"
        (downloadAndExtractTheme "https://gallery/starter.zip") none).result.toOption =
        some { success := false, totalFiles := 2, successCount := 0, errorCount := 2,
               deploymentLog :=
                 [{ file := "index.html", status := "error",
                    error := some "Failed to authenticate with Dataverse" },
                  { file := "css/styles.css", status := "error",
                    error := some "Failed to authenticate with Dataverse" }] } ∧
      (deployTheme Sample.unauthenticated "undefined" "site"
        (downloadAndExtractTheme "https://gallery/starter.zip") none).attempted.length = 2 ∧
      (processDeployment (Sample.world Sample.unauthenticated) Sample.fromGallery none
        (executeCreate Sample.fromGallery "https://env" "site")).uploads.map (fun f => f.name) =
        ["index.html", "css/styles.css"] := by
  decide

theorem processDeployment_record_cases (world : World) (wizardData : WizardData)
    (branding : Option Branding) (theme : Theme) :
    (∀ saved ∈ (processDeployment world wizardData branding theme).saves,
      (saved.deployment.status ≠ "failed" ∧
          saved.deployment.errorMessage = theme.deployment.errorMessage) ∨
        (saved.deployment.status = "failed" ∧ ∃ message,
          saved.deployment.errorMessage = some message)) := by
  obtain ⟨run, ⟨-, hsaves⟩, hnone, hcase | ⟨message, hcase⟩⟩ :=
    processDeployment_before_end world wizardData branding theme
  · rw [hcase, (fail_unsaved world run world.saveError).1]
    intro saved hsaved
    obtain ⟨hs, he, -⟩ := hsaves saved hsaved
    refine Or.inl ⟨?_, he⟩
    intro hfailed
    rw [hfailed] at hs
    exact absurd hs (by decide)
  · rw [hcase, fail_saved run message hnone]
    intro saved hsaved
    simp only [List.mem_append, List.mem_singleton] at hsaved
    rcases hsaved with hsaved | rfl
    · obtain ⟨hs, he, -⟩ := hsaves saved hsaved
      refine Or.inl ⟨?_, he⟩
      intro hfailed
      rw [hfailed] at hs
      exact absurd hs (by decide)
    · exact Or.inr ⟨(fail_theme run message).1, message, (fail_theme run message).2.1⟩

/-- C9: in the record created by `POST /execute` and in every record saved by
`processDeployment` run on it, `errorMessage` is set if and only if the status is
`failed`. -/
theorem errorMessage_iff_failed (world : World) (wizardData : WizardData)
    (branding : Option Branding) (environmentUrl websiteId : String) :
    ∀ record ∈ executeCreate wizardData environmentUrl websiteId ::
        (processDeployment world wizardData branding
          (executeCreate wizardData environmentUrl websiteId)).saves,
      record.deployment.errorMessage ≠ none ↔ record.deployment.status = "failed" := by
  intro record hrecord
  rcases List.mem_cons.mp hrecord with rfl | hsaved
  · simp [executeCreate]
  · rcases processDeployment_record_cases world wizardData branding _ record hsaved with
      ⟨hs, he⟩ | ⟨hs, message, he⟩
    · have : record.deployment.errorMessage = none := by rw [he]; rfl
      simp [this, hs]
    · simp [he, hs]

/-- Witness for C9: the record left by the run on an unreadable archive is among
the persisted records; it has status `failed` and its `errorMessage` is set. -/
theorem errorMessage_iff_failed_witness :
    (processDeployment (Sample.world (Sample.failingAt 0)) Sample.fromUpload none
        (executeCreate Sample.fromUpload "https://env" "site")).theme ∈
      executeCreate Sample.fromUpload "https://env" "site" ::
        (processDeployment (Sample.world (Sample.failingAt 0)) Sample.fromUpload none
          (executeCreate Sample.fromUpload "https://env" "site")).saves ∧
    ((processDeployment (Sample.world (Sample.failingAt 0)) Sample.fromUpload none
        (executeCreate Sample.fromUpload "https://env" "site")).theme.deployment.errorMessage ≠
          none ↔
      (processDeployment (Sample.world (Sample.failingAt 0)) Sample.fromUpload none
        (executeCreate Sample.fromUpload "https://env" "site")).theme.deployment.status =
          "failed") :=
  ⟨by decide,
    errorMessage_iff_failed (Sample.world (Sample.failingAt 0)) Sample.fromUpload none
      "https://env" "site" _ (by decide)⟩

end Deploy

namespace Upload

theorem updateDeploymentStatus_status (theme : Theme) (now : Nat) (status : String)
    (message : Option String) :
    (theme.updateDeploymentStatus now status message).deployment.status = status := by
  unfold Theme.updateDeploymentStatus
  simp only [Theme.addDeploymentLog]
  split_ifs <;> rfl

theorem addDeploymentLog_status (theme : Theme) (level message : String) :
    (theme.addDeploymentLog level message).deployment.status = theme.deployment.status := rfl

theorem processThemeDeployment_statuses (world : World) (stored : Theme) :
    (processThemeDeployment world stored).saves.map (fun t => t.deployment.status) ∈
      [[], ["failed"],
       ["validating", "validating", "creating_site", "creating_site", "deploying", "deploying",
        "completed"]] := by
  have hfail : ∀ e, (handleFailure world stored e).saves.map (fun t => t.deployment.status) ∈
      [[], ["failed"],
       ["validating", "validating", "creating_site", "creating_site", "deploying", "deploying",
        "completed"]] := by
    intro e
    unfold handleFailure
    split_ifs <;> simp [saved, updateDeploymentStatus_status]
  unfold processThemeDeployment
  cases world.findTheme with
  | error e => exact hfail e
  | ok themeFound =>
    cases world.findUser with
    | error e => exact hfail e
    | ok userFound =>
      simp only
      split_ifs
      · simp [stages, saved, updateDeploymentStatus_status, addDeploymentLog_status]
      · simp

end Upload

/-- C8: in both pipelines the statuses persisted for a newly created record, from
`pending` on, change only by allowed steps (to the same status, to the next stage,
or to `failed`); a trace that ends in `completed` visits `pending`, `validating`,
`creating_site`, `deploying`, `completed` in this order and nothing else; and no
record is saved after one with status `completed` or `failed`. -/
theorem status_transitions_monotone :
    (∀ (world : World) (wizardData : WizardData) (branding : Option Branding)
        (environmentUrl websiteId : String),
        WellStaged (persistedStatuses (Deploy.executeCreate wizardData environmentUrl websiteId)
          (Deploy.processDeployment world wizardData branding
            (Deploy.executeCreate wizardData environmentUrl websiteId)))) ∧
      (∀ (world : Upload.World) (name : String),
        WellStaged (persistedStatuses (Upload.uploadCreate name)
          (Upload.processThemeDeployment world (Upload.uploadCreate name)))) := by
  constructor
  · intro world wizardData branding environmentUrl websiteId
    have h := Deploy.processDeployment_statuses world wizardData branding
      (Deploy.executeCreate wizardData environmentUrl websiteId)
    have hp : persistedStatuses (Deploy.executeCreate wizardData environmentUrl websiteId)
        (Deploy.processDeployment world wizardData branding
          (Deploy.executeCreate wizardData environmentUrl websiteId)) =
        "pending" :: (Deploy.processDeployment world wizardData branding
          (Deploy.executeCreate wizardData environmentUrl websiteId)).saves.map
            (fun t => t.deployment.status) := rfl
    rw [hp]
    simp only [List.mem_cons, List.mem_singleton, List.not_mem_nil, or_false] at h
    rcases h with h | h | h | h | h | h | h | h <;> rw [h] <;> decide
  · intro world name
    have h := Upload.processThemeDeployment_statuses world (Upload.uploadCreate name)
    have hp : persistedStatuses (Upload.uploadCreate name)
        (Upload.processThemeDeployment world (Upload.uploadCreate name)) =
        "pending" :: (Upload.processThemeDeployment world (Upload.uploadCreate name)).saves.map
            (fun t => t.deployment.status) := rfl
    rw [hp]
    simp only [List.mem_cons, List.mem_singleton, List.not_mem_nil, or_false] at h
    rcases h with h | h | h <;> rw [h] <;> decide

/-! ## Properties of the branding injector -/

/-- C10 (the code at the failing input): with the organisation name `Save $$ & $&`
the placeholder in `<h1>{{ORG_NAME}}</h1>` is not replaced by the name character
for character: `$$` comes out as `$` and `$&` as the placeholder itself. -/
theorem injectBranding_dollar_patterns :
    (injectBranding
        [{ name := "index.html", partialUrl := "index.html", mimeType := "text/html",
           content := encodeContent "<h1>\x7b\x7bORG_NAME\x7d\x7d</h1>" }]
        { organizationName := some "Save $$ & $&" }).map (fun f => decodeContent f.content) =
      ["<h1>Save $ & \x7b\x7bORG_NAME\x7d\x7d</h1>"] ∧
    "<h1>Save $ & \x7b\x7bORG_NAME\x7d\x7d</h1>" ≠ "<h1>Save $$ & $&</h1>" := by
  decide
/-! ## The codec of `Buffer` -/

theorem unbase64_base64Char : ∀ n < 64, unbase64 (base64Char n) = some n := by decide

theorem base64Char_ne_pad : ∀ n < 64, (base64Char n != '=') = true := by decide

/-- The 6-bit values read back from the digits of `encodeBytes`. -/
theorem sextets_encodeBytes : ∀ bytes : List Nat, (∀ b ∈ bytes, b < 256) →
    decodeSextets (((encodeBytes bytes).takeWhile (fun c => c != '=')).filterMap unbase64) = bytes
  | [], _ => rfl
  | [a], h => by
    have ha : a < 256 := h a (by simp)
    have h1 : a / 4 < 64 := by omega
    have h2 : a % 4 * 16 < 64 := by omega
    simp only [encodeBytes, List.takeWhile, base64Char_ne_pad _ h1, base64Char_ne_pad _ h2,
      List.filterMap_cons, unbase64_base64Char _ h1, unbase64_base64Char _ h2]
    have : (('=' : Char) != '=') = false := by decide
    simp only [this, List.filterMap_nil, decodeSextets]
    congr 1
    omega
  | [a, b], h => by
    have ha : a < 256 := h a (by simp)
    have hb : b < 256 := h b (by simp)
    have h1 : a / 4 < 64 := by omega
    have h2 : a % 4 * 16 + b / 16 < 64 := by omega
    have h3 : b % 16 * 4 < 64 := by omega
    simp only [encodeBytes, List.takeWhile, base64Char_ne_pad _ h1, base64Char_ne_pad _ h2,
      base64Char_ne_pad _ h3,
      List.filterMap_cons, unbase64_base64Char _ h1, unbase64_base64Char _ h2,
      unbase64_base64Char _ h3]
    have : (('=' : Char) != '=') = false := by decide
    simp only [this, List.filterMap_nil, decodeSextets]
    congr 1
    · omega
    · congr 1; omega
  | a :: b :: c :: rest, h => by
    have ha : a < 256 := h a (by simp)
    have hb : b < 256 := h b (by simp)
    have hc : c < 256 := h c (by simp)
    have hrest : ∀ x ∈ rest, x < 256 := fun x hx => h x (by simp [hx])
    have h1 : a / 4 < 64 := by omega
    have h2 : a % 4 * 16 + b / 16 < 64 := by omega
    have h3 : b % 16 * 4 + c / 64 < 64 := by omega
    have h4 : c % 64 < 64 := by omega
    simp only [encodeBytes, List.takeWhile, base64Char_ne_pad _ h1, base64Char_ne_pad _ h2,
      base64Char_ne_pad _ h3, base64Char_ne_pad _ h4,
      List.filterMap_cons, unbase64_base64Char _ h1, unbase64_base64Char _ h2,
      unbase64_base64Char _ h3, unbase64_base64Char _ h4, decodeSextets]
    rw [sextets_encodeBytes rest hrest]
    congr 1
    · omega
    · congr 1
      · omega
      · congr 1; omega

theorem base64Decode_base64Encode (bytes : List Nat) (h : ∀ b ∈ bytes, b < 256) :
    base64Decode (base64Encode bytes) = bytes :=
  sextets_encodeBytes bytes h

theorem char_valid (c : Char) : c.toNat < 0xD800 ∨ (0xDFFF < c.toNat ∧ c.toNat < 0x110000) := c.valid

theorem utf8EncodeChar_lt (c : Char) : ∀ b ∈ utf8EncodeChar c, b < 256 := by
  have hv := char_valid c
  unfold utf8EncodeChar
  intro b hb
  simp only at hb
  split_ifs at hb <;> simp at hb <;> omega

theorem utf8Encode_lt (s : String) : ∀ b ∈ utf8Encode s, b < 256 := by
  intro b hb
  simp only [utf8Encode, List.mem_flatMap] at hb
  obtain ⟨c, -, hc⟩ := hb
  exact utf8EncodeChar_lt c b hc

theorem utf8Step_continue (st : Utf8State) (b : Nat) (h0 : st.bytesNeeded ≠ 0)
    (hl : st.lower ≤ b) (hu : b ≤ st.upper) :
    utf8Step st b =
      if st.bytesSeen + 1 = st.bytesNeeded then ({}, [Char.ofNat (st.codePoint * 64 + b % 64)])
      else ({ codePoint := st.codePoint * 64 + b % 64, bytesNeeded := st.bytesNeeded,
              bytesSeen := st.bytesSeen + 1 }, []) := by
  unfold utf8Step
  rw [if_neg h0, if_neg (by omega)]

theorem utf8DecodeFrom_encodeChar (c : Char) (rest : List Nat) :
    utf8DecodeFrom {} (utf8EncodeChar c ++ rest) = c :: utf8DecodeFrom {} rest := by
  have hv := char_valid c
  have hc : Char.ofNat c.toNat = c := Char.ofNat_toNat c
  have hstart : ∀ b, utf8Step {} b = utf8Lead b := fun b => by
    unfold utf8Step; rw [if_pos rfl]
  unfold utf8EncodeChar
  simp only
  split_ifs with h1 h2 h3
  · -- one byte
    simp only [List.singleton_append, utf8DecodeFrom, hstart, utf8Lead, if_pos h1]
    simp [hc]
  · -- two bytes
    have hlead : utf8Lead (0xC0 + c.toNat / 64) =
        ({ codePoint := (0xC0 + c.toNat / 64) % 32, bytesNeeded := 1 }, []) := by
      unfold utf8Lead; rw [if_neg (by omega), if_pos (by omega)]
    simp only [List.cons_append, List.nil_append, utf8DecodeFrom, hstart, hlead]
    rw [utf8Step_continue _ _ (by simp) (by simp) (by simp; omega)]
    simp only [Nat.zero_add, if_true, List.nil_append, List.singleton_append]
    have : (0xC0 + c.toNat / 64) % 32 * 64 + (0x80 + c.toNat % 64) % 64 = c.toNat := by omega
    rw [this, hc]
    rfl
  · -- three bytes
    have hlead : utf8Lead (0xE0 + c.toNat / 4096) =
        ({ codePoint := (0xE0 + c.toNat / 4096) % 16, bytesNeeded := 2,
           lower := if 0xE0 + c.toNat / 4096 = 0xE0 then 0xA0 else 0x80,
           upper := if 0xE0 + c.toNat / 4096 = 0xED then 0x9F else 0xBF }, []) := by
      unfold utf8Lead; rw [if_neg (by omega), if_neg (by omega), if_pos (by omega)]
    simp only [List.cons_append, List.nil_append, utf8DecodeFrom, hstart, hlead]
    rw [utf8Step_continue _ _ (by simp) (by simp only; split_ifs <;> omega)
      (by simp only; split_ifs <;> omega)]
    simp only [Nat.zero_add, show ¬ (1 = 2) by decide, if_false, List.nil_append]
    rw [utf8Step_continue _ _ (by simp) (by simp) (by simp; omega)]
    simp only [if_true, List.singleton_append]
    have : ((0xE0 + c.toNat / 4096) % 16 * 64 + (0x80 + c.toNat / 64 % 64) % 64) * 64 +
        (0x80 + c.toNat % 64) % 64 = c.toNat := by omega
    rw [this, hc]
    rfl
  · -- four bytes
    have hlead : utf8Lead (0xF0 + c.toNat / 262144) =
        ({ codePoint := (0xF0 + c.toNat / 262144) % 8, bytesNeeded := 3,
           lower := if 0xF0 + c.toNat / 262144 = 0xF0 then 0x90 else 0x80,
           upper := if 0xF0 + c.toNat / 262144 = 0xF4 then 0x8F else 0xBF }, []) := by
      unfold utf8Lead
      rw [if_neg (by omega), if_neg (by omega), if_neg (by omega), if_pos (by omega)]
    simp only [List.cons_append, List.nil_append, utf8DecodeFrom, hstart, hlead]
    rw [utf8Step_continue _ _ (by simp) (by simp only; split_ifs <;> omega)
      (by simp only; split_ifs <;> omega)]
    simp only [Nat.zero_add, show ¬ (1 = 3) by decide, if_false, List.nil_append]
    rw [utf8Step_continue _ _ (by simp) (by simp) (by simp; omega)]
    simp only [show ¬ (1 + 1 = 3) by decide, if_false, List.nil_append]
    rw [utf8Step_continue _ _ (by simp) (by simp) (by simp; omega)]
    simp only [if_true, List.singleton_append]
    have : (((0xF0 + c.toNat / 262144) % 8 * 64 + (0x80 + c.toNat / 4096 % 64) % 64) * 64 +
        (0x80 + c.toNat / 64 % 64) % 64) * 64 + (0x80 + c.toNat % 64) % 64 = c.toNat := by omega
    rw [this, hc]
    rfl

theorem utf8DecodeFrom_encode (s : List Char) :
    utf8DecodeFrom {} (s.flatMap utf8EncodeChar) = s := by
  induction s with
  | nil => rfl
  | cons c rest ih => rw [List.flatMap_cons, utf8DecodeFrom_encodeChar, ih]

theorem utf8Decode_utf8Encode (s : String) : utf8Decode (utf8Encode s) = s := by
  unfold utf8Decode utf8Encode
  rw [utf8DecodeFrom_encode]

theorem decodeContent_encodeContent (s : String) : decodeContent (encodeContent s) = s := by
  unfold decodeContent encodeContent
  rw [base64Decode_base64Encode _ (utf8Encode_lt s), utf8Decode_utf8Encode]


/-! ## The replacement scan -/

theorem getSubstitution_of_no_dollar (matched before after : List Char) :
    ∀ value : List Char, '$' ∉ value → getSubstitution matched before after value = value
  | [], _ => rfl
  | [c], _ => rfl
  | c :: d :: rest, h => by
    have hc : c ≠ '$' := fun e => h (by simp [e])
    have hrest : '$' ∉ d :: rest := fun e => h (List.mem_cons_of_mem _ e)
    rw [getSubstitution, if_neg hc, getSubstitution_of_no_dollar matched before after (d :: rest) hrest]

theorem replaceFrom_skip (token value : List Char) :
    ∀ (text : List Char) (skip : Nat) (before : List Char),
      replaceFrom token value skip before text =
        replaceFrom token value 0 (before ++ text.take skip) (text.drop skip) := by
  intro text
  induction text with
  | nil => intro skip before; simp [replaceFrom]
  | cons c rest ih =>
    intro skip before
    cases skip with
    | zero => simp
    | succ k =>
      rw [replaceFrom, ih k (before ++ [c])]
      simp

theorem replaceFrom_match (token value before text : List Char) (htoken : token ≠ [])
    (h : token.isPrefixOf text = true) :
    replaceFrom token value 0 before text =
      getSubstitution token before (text.drop token.length) value ++
        replaceFrom token value 0 (before ++ token) (text.drop token.length) := by
  cases text with
  | nil =>
    cases token with
    | nil => exact absurd rfl htoken
    | cons t ts => simp [List.isPrefixOf] at h
  | cons c rest =>
    rw [replaceFrom, if_pos h, replaceFrom_skip token value rest]
    have hp : token <+: c :: rest := List.isPrefixOf_iff_prefix.mp h
    obtain ⟨tail, htail⟩ := hp
    cases token with
    | nil => exact absurd rfl htoken
    | cons t ts =>
      simp only [List.cons_append, List.cons.injEq] at htail
      obtain ⟨rfl, rfl⟩ := htail
      simp

theorem replaceFrom_miss (token value before : List Char) (c : Char) (rest : List Char)
    (h : token.isPrefixOf (c :: rest) = false) :
    replaceFrom token value 0 before (c :: rest) =
      c :: replaceFrom token value 0 (before ++ [c]) rest := by
  rw [replaceFrom, if_neg (by simp [h])]

theorem replaceFrom_eq_literal (token value : List Char) (htoken : token ≠ [])
    (hvalue : '$' ∉ value) :
    ∀ (fuel : Nat) (text before : List Char), text.length ≤ fuel →
      replaceFrom token value 0 before text = literalReplaceFrom token value fuel text := by
  intro fuel
  induction fuel with
  | zero =>
    intro text before h
    have : text = [] := List.length_eq_zero.mp (Nat.le_zero.mp h)
    subst this
    rfl
  | succ fuel ih =>
    intro text before h
    cases text with
    | nil => rfl
    | cons c rest =>
      rw [literalReplaceFrom]
      by_cases hm : token.isPrefixOf (c :: rest) = true
      · rw [if_pos hm, replaceFrom_match token value before _ htoken hm,
          getSubstitution_of_no_dollar _ _ _ _ hvalue]
        congr 1
        apply ih
        have hlen : 0 < token.length := List.length_pos.mpr htoken
        simp only [List.length_drop, List.length_cons] at h ⊢
        omega
      · rw [if_neg hm, replaceFrom_miss token value before c rest (Bool.eq_false_iff.mpr hm)]
        congr 1
        apply ih
        simpa using h

theorem replaceToken_eq_replaceLiteral (token value content : String) (htoken : token.data ≠ [])
    (hvalue : '$' ∉ value.data) :
    replaceToken token value content = replaceLiteral token value content := by
  unfold replaceToken replaceLiteral
  rw [replaceFrom_eq_literal token.data value.data htoken hvalue _ _ _ (Nat.le_refl _)]

/-! ## Properties of the branding injector: which files are rewritten -/

theorem html_not_css (name : String) (h : endsWith name ".html" = true) :
    endsWith name ".css" = false := by
  unfold endsWith at *
  rw [List.isSuffixOf] at *
  cases hr : name.data.reverse with
  | nil => rw [hr] at h; simp [List.isPrefixOf] at h
  | cons c cs =>
    rw [hr] at h
    have e1 : ".html".data.reverse = ['l', 'm', 't', 'h', '.'] := by decide
    have e2 : ".css".data.reverse = ['s', 's', 'c', '.'] := by decide
    rw [e1] at h
    rw [e2]
    simp only [List.isPrefixOf, Bool.and_eq_true, beq_iff_eq] at h
    have hc : c = 'l' := h.1.symm
    subst hc
    simp [List.isPrefixOf]

theorem htm_not_css (name : String) (h : endsWith name ".htm" = true) :
    endsWith name ".css" = false := by
  unfold endsWith at *
  rw [List.isSuffixOf] at *
  cases hr : name.data.reverse with
  | nil => rw [hr] at h; simp [List.isPrefixOf] at h
  | cons c cs =>
    rw [hr] at h
    have e1 : ".htm".data.reverse = ['m', 't', 'h', '.'] := by decide
    have e2 : ".css".data.reverse = ['s', 's', 'c', '.'] := by decide
    rw [e1] at h
    rw [e2]
    simp only [List.isPrefixOf, Bool.and_eq_true, beq_iff_eq] at h
    have hc : c = 'm' := h.1.symm
    subst hc
    simp [List.isPrefixOf]

theorem injectBrandingFile_html (branding : Branding) (file : ThemeFile)
    (h : endsWith file.name ".html" = true ∨ endsWith file.name ".htm" = true) :
    injectBrandingFile branding file =
      { file with content := encodeContent (injectHtml branding (decodeContent file.content)) } := by
  have hcss : endsWith file.name ".css" = false := by
    rcases h with h | h
    · exact html_not_css _ h
    · exact htm_not_css _ h
  have hor : (endsWith file.name ".html" || endsWith file.name ".htm") = true := by
    rcases h with h | h <;> simp [h]
  simp only [injectBrandingFile, hor, if_true, hcss, Bool.false_eq_true, if_false]

theorem injectBrandingFile_css (branding : Branding) (file : ThemeFile)
    (h : endsWith file.name ".css" = true) :
    injectBrandingFile branding file =
      { file with content := encodeContent (injectCss branding (decodeContent file.content)) } := by
  have h1 : endsWith file.name ".html" = false := by
    by_contra hc
    have := html_not_css _ (by simpa using hc)
    rw [h] at this; cases this
  have h2 : endsWith file.name ".htm" = false := by
    by_contra hc
    have := htm_not_css _ (by simpa using hc)
    rw [h] at this; cases this
  simp only [injectBrandingFile, h1, h2, Bool.or_self, Bool.false_eq_true, if_false, h, if_true]

theorem injectBrandingFile_other (branding : Branding) (file : ThemeFile)
    (h1 : endsWith file.name ".html" = false) (h2 : endsWith file.name ".htm" = false)
    (h3 : endsWith file.name ".css" = false) :
    injectBrandingFile branding file = file := by
  simp only [injectBrandingFile, h1, h2, h3, Bool.or_self, Bool.false_eq_true, if_false]

theorem injectBrandingFile_fields (branding : Branding) (file : ThemeFile) :
    (injectBrandingFile branding file).name = file.name ∧
      (injectBrandingFile branding file).partialUrl = file.partialUrl ∧
      (injectBrandingFile branding file).mimeType = file.mimeType := by
  dsimp only [injectBrandingFile]
  split_ifs <;> exact ⟨rfl, rfl, rfl⟩

/-- C11: `injectBranding` returns a list of the same length whose files carry, in the
same order, the names, paths and MIME types of the input; a file whose name ends
neither in `.html` nor in `.htm` nor in `.css` is returned unchanged, at its
position. -/
theorem injectBranding_frame (themeFiles : List ThemeFile) (branding : Branding) :
    (injectBranding themeFiles branding).length = themeFiles.length ∧
      (injectBranding themeFiles branding).map (fun f => (f.name, f.partialUrl, f.mimeType)) =
        themeFiles.map (fun f => (f.name, f.partialUrl, f.mimeType)) ∧
      ∀ (i : Nat) (file : ThemeFile), themeFiles[i]? = some file →
        endsWith file.name ".html" = false → endsWith file.name ".htm" = false →
        endsWith file.name ".css" = false →
        (injectBranding themeFiles branding)[i]? = some file := by
  refine ⟨by simp [injectBranding], ?_, ?_⟩
  · simp only [injectBranding, List.map_map]
    apply List.map_congr_left
    intro f _
    obtain ⟨h1, h2, h3⟩ := injectBrandingFile_fields branding f
    simp [h1, h2, h3]
  · intro i file hfile h1 h2 h3
    simp only [injectBranding, List.getElem?_map, hfile, Option.map_some']
    rw [injectBrandingFile_other branding file h1 h2 h3]

/-- Witness for C11: a script and an image keep their content next to a rewritten
style sheet. -/
theorem injectBranding_frame_witness :
    (injectBranding
        [{ name := "js/app.js", partialUrl := "js/app.js", mimeType := "application/javascript",
           content := "YWxlcnQoMSk=" },
         { name := "css/site.css", partialUrl := "css/site.css", mimeType := "text/css",
           content := "Ym9keXt9" },
         { name := "img/logo.png", partialUrl := "img/logo.png", mimeType := "image/png",
           content := "iVBORw0KGgo=" }]
        { colors := some {} })[2]? =
      some { name := "img/logo.png", partialUrl := "img/logo.png", mimeType := "image/png",
             content := "iVBORw0KGgo=" } :=
  (injectBranding_frame _ _).2.2 2 _ rfl (by decide) (by decide) (by decide)

/-! ## Properties of the branding injector: the HTML colours -/

theorem injectBrandingFile_html_text (branding : Branding) (file : ThemeFile)
    (h : endsWith file.name ".html" = true ∨ endsWith file.name ".htm" = true) :
    decodeContent (injectBrandingFile branding file).content =
      injectHtml branding (decodeContent file.content) := by
  rw [injectBrandingFile_html branding file h]
  exact decodeContent_encodeContent _

theorem injectBrandingFile_css_text (branding : Branding) (file : ThemeFile)
    (h : endsWith file.name ".css" = true) :
    decodeContent (injectBrandingFile branding file).content =
      injectCss branding (decodeContent file.content) := by
  rw [injectBrandingFile_css branding file h]
  exact decodeContent_encodeContent _

theorem injectHtml_colors (branding : Branding) (colors : Colors) (content : String)
    (hcolors : branding.colors = some colors) :
    injectHtml branding content =
      replaceToken "\x7b\x7bACCENT_COLOR\x7d\x7d" (orElse colors.accent "#06b6d4")
        (replaceToken "\x7b\x7bSECONDARY_COLOR\x7d\x7d" (orElse colors.secondary "#1e40af")
          (replaceToken "\x7b\x7bPRIMARY_COLOR\x7d\x7d" (orElse colors.primary "#2563eb")
            (injectHtml { branding with colors := none } content))) := by
  simp only [injectHtml, hcolors]

theorem injectHtml_plain (branding : Branding) (content : String)
    (hcolors : branding.colors = none)
    (hlogo : truthy (branding.logo.bind (fun l => l.url)) = false)
    (hname : truthy branding.organizationName = false) :
    injectHtml branding content = content := by
  simp [injectHtml, hcolors, hlogo, hname]

/-- C12 (amended): for an HTML file, when `branding.colors` is present, the three
colour placeholders are replaced, one after the other and each at every occurrence,
in the text left by the logo and organisation-name steps, by the corresponding
colour or by the fallback `#2563eb`, `#1e40af`, `#06b6d4` when that colour is absent
or empty (stated for values without `$`); when `branding.colors` is absent no colour
placeholder is replaced: the text is the one left by the logo and organisation-name
steps, and the input text itself when these do not apply either. -/
theorem injectBranding_html_colors (branding : Branding) (file : ThemeFile)
    (hhtml : endsWith file.name ".html" = true ∨ endsWith file.name ".htm" = true) :
    (∀ colors, branding.colors = some colors →
        '$' ∉ (orElse colors.primary "#2563eb").data →
        '$' ∉ (orElse colors.secondary "#1e40af").data →
        '$' ∉ (orElse colors.accent "#06b6d4").data →
        decodeContent (injectBrandingFile branding file).content =
          replaceLiteral "\x7b\x7bACCENT_COLOR\x7d\x7d" (orElse colors.accent "#06b6d4")
            (replaceLiteral "\x7b\x7bSECONDARY_COLOR\x7d\x7d" (orElse colors.secondary "#1e40af")
              (replaceLiteral "\x7b\x7bPRIMARY_COLOR\x7d\x7d" (orElse colors.primary "#2563eb")
                (injectHtml { branding with colors := none } (decodeContent file.content))))) ∧
      (branding.colors = none →
        decodeContent (injectBrandingFile branding file).content =
          injectHtml { branding with colors := none } (decodeContent file.content)) ∧
      (branding.colors = none → truthy (branding.logo.bind (fun l => l.url)) = false →
        truthy branding.organizationName = false →
        decodeContent (injectBrandingFile branding file).content = decodeContent file.content) ∧
      (∀ fallback, orElse none fallback = fallback) ∧
      (∀ fallback, orElse (some "") fallback = fallback) ∧
      ∀ value fallback, value ≠ "" → orElse (some value) fallback = value := by
  rw [injectBrandingFile_html_text branding file hhtml]
  refine ⟨?_, ?_, ?_, fun _ => rfl, fun _ => rfl, ?_⟩
  · intro colors hcolors hp hs ha
    rw [injectHtml_colors branding colors _ hcolors,
      replaceToken_eq_replaceLiteral _ _ _ (by decide) hp,
      replaceToken_eq_replaceLiteral _ _ _ (by decide) hs,
      replaceToken_eq_replaceLiteral _ _ _ (by decide) ha]
  · intro hcolors
    have : branding = { branding with colors := none } := by
      cases branding; simp_all
    rw [← this]
  · intro hcolors hlogo hname
    exact injectHtml_plain branding _ hcolors hlogo hname
  · intro value fallback hvalue
    simp [orElse, hvalue]

/-- Witness for C12 (amended): a page with two colour placeholders, a profile with a
primary colour only. -/
theorem injectBranding_html_colors_witness :
    decodeContent (injectBrandingFile { colors := some { primary := some "#ff0000" } }
        { name := "index.html", partialUrl := "index.html", mimeType := "text/html",
          content := encodeContent
            "<a style=\"color:\x7b\x7bPRIMARY_COLOR\x7d\x7d;border-color:\x7b\x7bACCENT_COLOR\x7d\x7d\">" }).content =
      "<a style=\"color:#ff0000;border-color:#06b6d4\">" :=
  ((injectBranding_html_colors { colors := some { primary := some "#ff0000" } }
      { name := "index.html", partialUrl := "index.html", mimeType := "text/html",
        content := encodeContent
          "<a style=\"color:\x7b\x7bPRIMARY_COLOR\x7d\x7d;border-color:\x7b\x7bACCENT_COLOR\x7d\x7d\">" }
      (Or.inl (by decide))).1 { primary := some "#ff0000" } rfl (by decide) (by decide)
      (by decide)).trans (by decide)

/-- Counterexample to C12 as stated: with a branding profile without `colors`, the
placeholder of an HTML file is not replaced by the fallback `#2563eb`; the text stays
as it is. -/
theorem injectBranding_html_colors_absent :
    (injectBranding
        [{ name := "index.html", partialUrl := "index.html", mimeType := "text/html",
           content := encodeContent "<a style=\"color:\x7b\x7bPRIMARY_COLOR\x7d\x7d\">" }]
        { organizationName := some "Acme" }).map (fun f => decodeContent f.content) =
      ["<a style=\"color:\x7b\x7bPRIMARY_COLOR\x7d\x7d\">"] ∧
    "<a style=\"color:\x7b\x7bPRIMARY_COLOR\x7d\x7d\">" ≠ "<a style=\"color:#2563eb\">" := by
  decide

/-! ## Properties of the branding injector: the style sheets -/

theorem bracesSeparated_tail (c : Char) (rest : List Char)
    (h : bracesSeparated (c :: rest) = true) : bracesSeparated rest = true := by
  cases rest with
  | nil => rfl
  | cons d rest =>
    rw [bracesSeparated] at h
    exact (Bool.and_eq_true _ _ ▸ h).2

theorem isPrefixOf_of_separated (t : List Char) (c : Char) (pre rest : List Char)
    (h : bracesSeparated (c :: pre) = true) :
    ('\x7b' :: '\x7b' :: t).isPrefixOf (c :: (pre ++ rest)) = false := by
  cases pre with
  | nil =>
    have hc : c ≠ '\x7b' := by simpa [bracesSeparated] using h
    have : ('\x7b' == c) = false := by
      simp only [beq_eq_false_iff_ne, ne_eq]; exact fun e => hc e.symm
    simp [List.isPrefixOf, this]
  | cons d pre =>
    rw [bracesSeparated] at h
    have h1 : (c != '\x7b' || d != '\x7b') = true := (Bool.and_eq_true _ _ ▸ h).1
    simp only [List.cons_append, List.isPrefixOf]
    by_cases hc : c = '\x7b'
    · subst hc
      have hd : d ≠ '\x7b' := by simpa using h1
      have : ('\x7b' == d) = false := by
        simp only [beq_eq_false_iff_ne, ne_eq]; exact fun e => hd e.symm
      simp [this]
    · have : ('\x7b' == c) = false := by
        simp only [beq_eq_false_iff_ne, ne_eq]; exact fun e => hc e.symm
      simp [this]

theorem replaceFrom_append_separated (t value : List Char) :
    ∀ (pre before rest : List Char), bracesSeparated pre = true →
      replaceFrom ('\x7b' :: '\x7b' :: t) value 0 before (pre ++ rest) =
        pre ++ replaceFrom ('\x7b' :: '\x7b' :: t) value 0 (before ++ pre) rest := by
  intro pre
  induction pre with
  | nil => intro before rest _; simp
  | cons c pre ih =>
    intro before rest h
    rw [List.cons_append, replaceFrom_miss _ _ _ _ _ (isPrefixOf_of_separated t c pre rest h),
      ih (before ++ [c]) rest (bracesSeparated_tail c pre h)]
    simp

theorem bracesSeparated_append : ∀ (a b : List Char), bracesSeparated a = true →
    bracesSeparated b = true → bracesSeparated (a ++ b) = true
  | [], b, _, hb => hb
  | [c], b, ha, hb => by
    have hc : c ≠ '\x7b' := by simpa [bracesSeparated] using ha
    cases b with
    | nil => simpa [bracesSeparated] using hc
    | cons d b =>
      show bracesSeparated (c :: d :: b) = true
      rw [bracesSeparated]
      simp [hc, hb]
  | c :: d :: a, b, ha, hb => by
    rw [bracesSeparated] at ha
    have h1 := (Bool.and_eq_true _ _ ▸ ha).1
    have h2 := (Bool.and_eq_true _ _ ▸ ha).2
    show bracesSeparated (c :: d :: (a ++ b)) = true
    rw [bracesSeparated, h1, Bool.true_and]
    exact bracesSeparated_append (d :: a) b h2 hb

theorem bracesSeparated_of_not_mem : ∀ (v : List Char), '\x7b' ∉ v → bracesSeparated v = true
  | [], _ => rfl
  | [c], h => by
    have hc : c ≠ '\x7b' := fun e => h (by simp [e])
    simpa [bracesSeparated] using hc
  | c :: d :: v, h => by
    have hc : c ≠ '\x7b' := fun e => h (by simp [e])
    rw [bracesSeparated]
    simp only [Bool.and_eq_true, Bool.or_eq_true, bne_iff_ne, ne_eq]
    exact ⟨Or.inl hc, bracesSeparated_of_not_mem (d :: v) fun e => h (List.mem_cons_of_mem _ e)⟩

theorem cssVars_separated (colors : Colors)
    (h1 : '\x7b' ∉ (orElse colors.primary "#2563eb").data)
    (h2 : '\x7b' ∉ (orElse colors.secondary "#1e40af").data)
    (h3 : '\x7b' ∉ (orElse colors.accent "#06b6d4").data)
    (h4 : '\x7b' ∉ (orElse colors.text "#1e293b").data)
    (h5 : '\x7b' ∉ (orElse colors.background "#ffffff").data) :
    bracesSeparated (cssVars colors).data = true := by
  unfold cssVars
  simp only [String.data_append]
  refine bracesSeparated_append _ _ (bracesSeparated_append _ _ (bracesSeparated_append _ _
    (bracesSeparated_append _ _ (bracesSeparated_append _ _ (bracesSeparated_append _ _
    (bracesSeparated_append _ _ (bracesSeparated_append _ _ (bracesSeparated_append _ _
    (bracesSeparated_append _ _ (by decide) ?_) (by decide)) ?_) (by decide)) ?_) (by decide))
    ?_) (by decide)) ?_) (by decide)
  · exact bracesSeparated_of_not_mem _ h1
  · exact bracesSeparated_of_not_mem _ h2
  · exact bracesSeparated_of_not_mem _ h3
  · exact bracesSeparated_of_not_mem _ h4
  · exact bracesSeparated_of_not_mem _ h5

theorem replaceToken_append_separated (token value pre content : String) (t : List Char)
    (htoken : token.data = '\x7b' :: '\x7b' :: t) (hvalue : '$' ∉ value.data)
    (hpre : bracesSeparated pre.data = true) :
    replaceToken token value (pre ++ content) = pre ++ replaceLiteral token value content := by
  unfold replaceToken replaceLiteral
  rw [String.data_append, htoken, replaceFrom_append_separated t value.data pre.data [] _ hpre,
    replaceFrom_eq_literal _ _ (by simp) hvalue content.data.length content.data _ (Nat.le_refl _)]
  apply String.ext
  simp [String.data_append]

theorem injectCss_eq (branding : Branding) (colors : Colors) (content : String)
    (hcolors : branding.colors = some colors) :
    injectCss branding content =
      match branding.fonts with
      | some fonts =>
        replaceToken "\x7b\x7bBODY_FONT\x7d\x7d" (orElse fonts.body "Plus Jakarta Sans")
          (replaceToken "\x7b\x7bHEADING_FONT\x7d\x7d" (orElse fonts.heading "Plus Jakarta Sans")
            (cssVars colors ++ content))
      | none => cssVars colors ++ content := by
  cases hf : branding.fonts <;> simp [injectCss, hcolors, hf]

/-- C13 (amended): for a style sheet and a branding profile with `colors`, the file
keeps its name, path and MIME type, and its decoded text is the generated `:root`
block, whose five custom properties carry the colours of the profile or the
fallbacks, prepended to the complete decoded original text; when `branding.fonts` is
present the two font placeholders are then substituted in the whole of that text,
the block included. Without `fonts` the text is exactly the block followed by the
original text; with `fonts`, font values without `$` and colours without an opening
brace, it is the block as generated followed by the original text with the font
placeholders replaced. -/
theorem injectBranding_css_block (branding : Branding) (colors : Colors) (file : ThemeFile)
    (hcss : endsWith file.name ".css" = true) (hcolors : branding.colors = some colors) :
    (injectBrandingFile branding file).name = file.name ∧
      (injectBrandingFile branding file).partialUrl = file.partialUrl ∧
      (injectBrandingFile branding file).mimeType = file.mimeType ∧
      cssVars colors =
        "\n:root \x7b\n    --brand-primary: " ++ orElse colors.primary "#2563eb" ++
        ";\n    --brand-secondary: " ++ orElse colors.secondary "#1e40af" ++
        ";\n    --brand-accent: " ++ orElse colors.accent "#06b6d4" ++
        ";\n    --brand-text: " ++ orElse colors.text "#1e293b" ++
        ";\n    --brand-background: " ++ orElse colors.background "#ffffff" ++
        ";\n\x7d\n" ∧
      decodeContent (injectBrandingFile branding file).content =
        (match branding.fonts with
         | some fonts =>
           replaceToken "\x7b\x7bBODY_FONT\x7d\x7d" (orElse fonts.body "Plus Jakarta Sans")
             (replaceToken "\x7b\x7bHEADING_FONT\x7d\x7d" (orElse fonts.heading "Plus Jakarta Sans")
               (cssVars colors ++ decodeContent file.content))
         | none => cssVars colors ++ decodeContent file.content) ∧
      (branding.fonts = none →
        decodeContent (injectBrandingFile branding file).content =
          cssVars colors ++ decodeContent file.content) ∧
      (∀ fonts, branding.fonts = some fonts →
        '$' ∉ (orElse fonts.heading "Plus Jakarta Sans").data →
        '$' ∉ (orElse fonts.body "Plus Jakarta Sans").data →
        '\x7b' ∉ (orElse colors.primary "#2563eb").data →
        '\x7b' ∉ (orElse colors.secondary "#1e40af").data →
        '\x7b' ∉ (orElse colors.accent "#06b6d4").data →
        '\x7b' ∉ (orElse colors.text "#1e293b").data →
        '\x7b' ∉ (orElse colors.background "#ffffff").data →
        decodeContent (injectBrandingFile branding file).content =
          cssVars colors ++
            replaceLiteral "\x7b\x7bBODY_FONT\x7d\x7d" (orElse fonts.body "Plus Jakarta Sans")
              (replaceLiteral "\x7b\x7bHEADING_FONT\x7d\x7d"
                (orElse fonts.heading "Plus Jakarta Sans") (decodeContent file.content))) := by
  obtain ⟨hn, hp, hm⟩ := injectBrandingFile_fields branding file
  have htext := injectBrandingFile_css_text branding file hcss
  rw [injectCss_eq branding colors _ hcolors] at htext
  refine ⟨hn, hp, hm, rfl, htext, ?_, ?_⟩
  · intro hfonts
    rw [htext, hfonts]
  · intro fonts hfonts hh hb h1 h2 h3 h4 h5
    have hsep := cssVars_separated colors h1 h2 h3 h4 h5
    rw [htext, hfonts]
    simp only
    rw [replaceToken_append_separated _ _ _ _ "HEADING_FONT\x7d\x7d".data (by decide) hh hsep,
      replaceToken_append_separated _ _ _ _ "BODY_FONT\x7d\x7d".data (by decide) hb hsep]

set_option maxRecDepth 8000 in
/-- Witness for C13 (amended): a style sheet with a font placeholder, a profile with one colour
and one font. -/
theorem injectBranding_css_block_witness :
    decodeContent (injectBrandingFile
        { colors := some { primary := some "#ff0000" }, fonts := some { heading := some "Inter" } }
        { name := "css/site.css", partialUrl := "css/site.css", mimeType := "text/css",
          content := encodeContent "h1\x7bfont-family:\x7b\x7bHEADING_FONT\x7d\x7d\x7d" }).content =
      "\n:root \x7b\n    --brand-primary: #ff0000;\n    --brand-secondary: #1e40af;\n    --brand-accent: #06b6d4;\n    --brand-text: #1e293b;\n    --brand-background: #ffffff;\n\x7d\nh1\x7bfont-family:Inter\x7d" :=
  ((injectBranding_css_block
      { colors := some { primary := some "#ff0000" }, fonts := some { heading := some "Inter" } }
      { primary := some "#ff0000" }
      { name := "css/site.css", partialUrl := "css/site.css", mimeType := "text/css",
        content := encodeContent "h1\x7bfont-family:\x7b\x7bHEADING_FONT\x7d\x7d\x7d" }
      (by decide) rfl).2.2.2.2.2.2 { heading := some "Inter" } rfl (by decide) (by decide)
      (by decide) (by decide) (by decide) (by decide) (by decide)).trans (by decide)

set_option maxRecDepth 8000 in
/-- Counterexample to C13 as stated: with the colour `{{HEADING_FONT}}` and the heading
font `Inter`, the block that comes back sets `--brand-primary` to `Inter`, not to the
colour of the profile: the font substitution runs over the block too. -/
theorem injectBranding_css_block_rewritten :
    cssVars { primary := some "\x7b\x7bHEADING_FONT\x7d\x7d" } =
      "\n:root \x7b\n    --brand-primary: \x7b\x7bHEADING_FONT\x7d\x7d;\n    --brand-secondary: #1e40af;\n    --brand-accent: #06b6d4;\n    --brand-text: #1e293b;\n    --brand-background: #ffffff;\n\x7d\n" ∧
    (injectBranding
        [{ name := "css/site.css", partialUrl := "css/site.css", mimeType := "text/css",
           content := encodeContent "body\x7b\x7d" }]
        { colors := some { primary := some "\x7b\x7bHEADING_FONT\x7d\x7d" },
          fonts := some { heading := some "Inter" } }).map (fun f => decodeContent f.content) =
      ["\n:root \x7b\n    --brand-primary: Inter;\n    --brand-secondary: #1e40af;\n    --brand-accent: #06b6d4;\n    --brand-text: #1e293b;\n    --brand-background: #ffffff;\n\x7d\nbody\x7b\x7d"] ∧
    "\n:root \x7b\n    --brand-primary: Inter;\n    --brand-secondary: #1e40af;\n    --brand-accent: #06b6d4;\n    --brand-text: #1e293b;\n    --brand-background: #ffffff;\n\x7d\nbody\x7b\x7d" ≠
      cssVars { primary := some "\x7b\x7bHEADING_FONT\x7d\x7d" } ++ "body\x7b\x7d" := by
  decide

theorem injectHtml_empty (content : String) : injectHtml {} content = content := rfl

theorem injectCss_empty (content : String) : injectCss {} content = content := rfl

theorem injectBrandingFile_empty (file : ThemeFile) :
    injectBrandingFile {} file = file ∨
      injectBrandingFile {} file =
        { file with content := encodeContent (decodeContent file.content) } := by
  by_cases h1 : endsWith file.name ".html" = true
  · right
    rw [injectBrandingFile_html _ _ (Or.inl h1), injectHtml_empty]
  · by_cases h2 : endsWith file.name ".htm" = true
    · right
      rw [injectBrandingFile_html _ _ (Or.inr h2), injectHtml_empty]
    · by_cases h3 : endsWith file.name ".css" = true
      · right
        rw [injectBrandingFile_css _ _ h3, injectCss_empty]
      · left
        exact injectBrandingFile_other _ _ (by simpa using h1) (by simpa using h2)
          (by simpa using h3)

theorem injectBrandingFile_empty_content (file : ThemeFile) (text : String)
    (hutf8 : base64Decode file.content = utf8Encode text) :
    (injectBrandingFile {} file).content = file.content ∨
      (injectBrandingFile {} file).content = base64Encode (base64Decode file.content) := by
  rcases injectBrandingFile_empty file with h | h
  · left; rw [h]
  · right
    rw [h]
    show encodeContent (decodeContent file.content) = _
    unfold encodeContent decodeContent
    rw [hutf8, utf8Decode_utf8Encode]

/-- C14 (amended): with the empty branding profile `injectBranding` rewrites nothing:
no custom-property block is prepended to a style sheet. Every file keeps its name,
path and MIME type; an HTML or CSS file whose decoded bytes are valid UTF-8 keeps
these bytes, its content being written back as their canonical base64 text, so that
a list whose HTML and CSS contents are the base64 of UTF-8 text is returned
unchanged. -/
theorem injectBranding_empty_profile (themeFiles : List ThemeFile) :
    ((∀ f ∈ themeFiles,
        (endsWith f.name ".html" = true ∨ endsWith f.name ".htm" = true ∨
          endsWith f.name ".css" = true) → ∃ text, f.content = encodeContent text) →
      injectBranding themeFiles {} = themeFiles) ∧
    ∀ (i : Nat) (file : ThemeFile), themeFiles[i]? = some file →
      (∃ text, base64Decode file.content = utf8Encode text) →
      ∃ out, (injectBranding themeFiles {})[i]? = some out ∧
        out.name = file.name ∧ out.partialUrl = file.partialUrl ∧ out.mimeType = file.mimeType ∧
        base64Decode out.content = base64Decode file.content ∧
        (out.content = file.content ∨
          out.content = base64Encode (base64Decode file.content)) := by
  constructor
  · intro h
    unfold injectBranding
    conv_rhs => rw [← List.map_id themeFiles]
    apply List.map_congr_left
    intro f hf
    rcases injectBrandingFile_empty f with h0 | h0
    · rw [h0]; rfl
    · by_cases hk : endsWith f.name ".html" = true ∨ endsWith f.name ".htm" = true ∨
          endsWith f.name ".css" = true
      · obtain ⟨text, htext⟩ := h f hf hk
        rw [h0, htext, decodeContent_encodeContent, ← htext]
        rfl
      · rw [injectBrandingFile_other _ _ (by simpa using fun e => hk (Or.inl e))
          (by simpa using fun e => hk (Or.inr (Or.inl e)))
          (by simpa using fun e => hk (Or.inr (Or.inr e)))]
        rfl
  · intro i file hfile ⟨text, htext⟩
    obtain ⟨hn, hp, hm⟩ := injectBrandingFile_fields {} file
    refine ⟨injectBrandingFile {} file, ?_, hn, hp, hm, ?_,
      injectBrandingFile_empty_content file text htext⟩
    · simp [injectBranding, hfile]
    · rcases injectBrandingFile_empty_content file text htext with h | h
      · rw [h]
      · rw [h, htext, base64Decode_base64Encode _ (utf8Encode_lt text)]

/-- Witness for C14 (amended): a page and a style sheet with placeholders come back
unchanged. -/
theorem injectBranding_empty_profile_witness :
    injectBranding
        [{ name := "index.html", partialUrl := "index.html", mimeType := "text/html",
           content := encodeContent "<h1>\x7b\x7bORG_NAME\x7d\x7d</h1>" },
         { name := "css/site.css", partialUrl := "css/site.css", mimeType := "text/css",
           content := encodeContent "body\x7bcolor:\x7b\x7bPRIMARY_COLOR\x7d\x7d\x7d" }] {} =
      [{ name := "index.html", partialUrl := "index.html", mimeType := "text/html",
         content := encodeContent "<h1>\x7b\x7bORG_NAME\x7d\x7d</h1>" },
       { name := "css/site.css", partialUrl := "css/site.css", mimeType := "text/css",
         content := encodeContent "body\x7bcolor:\x7b\x7bPRIMARY_COLOR\x7d\x7d\x7d" }] :=
  (injectBranding_empty_profile _).1 (by
    intro f hf _
    simp only [List.mem_cons, List.mem_singleton, List.not_mem_nil, or_false] at hf
    rcases hf with rfl | rfl
    · exact ⟨_, rfl⟩
    · exact ⟨_, rfl⟩)

/-- Counterexample to C14 as stated: with the empty branding profile a style sheet
is returned with its text unchanged; the block built from the fallback colours is
not prepended. -/
theorem injectBranding_empty_profile_no_block :
    (injectBranding
        [{ name := "css/site.css", partialUrl := "css/site.css", mimeType := "text/css",
           content := encodeContent "body\x7b\x7d" }] {}).map (fun f => decodeContent f.content) =
      ["body\x7b\x7d"] ∧
    "body\x7b\x7d" ≠ cssVars {} ++ "body\x7b\x7d" := by
  decide

theorem count_replaceFrom (token value : List Char) (htoken : token ≠ [])
    (hnl : '\n' ∉ token) :
    ∀ (fuel : Nat) (text before : List Char), text.length ≤ fuel →
      text.count '\n' ≤ (replaceFrom token value 0 before text).count '\n' := by
  intro fuel
  induction fuel with
  | zero =>
    intro text before h
    have : text = [] := List.length_eq_zero.mp (Nat.le_zero.mp h)
    subst this
    simp
  | succ fuel ih =>
    intro text before h
    cases text with
    | nil => simp
    | cons c rest =>
      by_cases hm : token.isPrefixOf (c :: rest) = true
      · rw [replaceFrom_match token value before _ htoken hm, List.count_append]
        have hlen : 0 < token.length := List.length_pos.mpr htoken
        have hrec := ih ((c :: rest).drop token.length) (before ++ token) (by
          simp only [List.length_drop, List.length_cons] at h ⊢
          omega)
        obtain ⟨tail, htail⟩ := List.isPrefixOf_iff_prefix.mp hm
        have hdrop : (c :: rest).drop token.length = tail := by
          rw [← htail]; simp
        have hcount : (c :: rest).count '\n' = tail.count '\n' := by
          rw [← htail, List.count_append, List.count_eq_zero.mpr hnl, Nat.zero_add]
        rw [hdrop] at hrec ⊢
        rw [hcount]
        omega
      · rw [replaceFrom_miss token value before c rest (Bool.eq_false_iff.mpr hm)]
        have hrec := ih rest (before ++ [c]) (by simpa using h)
        simp only [List.count_cons]
        omega

theorem count_replaceToken (token value content : String) (htoken : token.data ≠ [])
    (hnl : '\n' ∉ token.data) :
    content.data.count '\n' ≤ (replaceToken token value content).data.count '\n' :=
  count_replaceFrom token.data value.data htoken hnl _ _ _ (Nat.le_refl _)

theorem count_cssVars (colors : Colors) : 0 < (cssVars colors).data.count '\n' := by
  rw [List.count_pos_iff]
  unfold cssVars
  simp only [String.data_append, List.mem_append]
  have h : '\n' ∈ "\n:root \x7b\n    --brand-primary: ".data := by decide
  exact Or.inl (Or.inl (Or.inl (Or.inl (Or.inl (Or.inl (Or.inl (Or.inl (Or.inl (Or.inl h)))))))))

theorem count_injectCss (branding : Branding) (colors : Colors) (content : String)
    (hcolors : branding.colors = some colors) :
    content.data.count '\n' < (injectCss branding content).data.count '\n' := by
  have hblock : content.data.count '\n' < (cssVars colors ++ content).data.count '\n' := by
    have := count_cssVars colors
    rw [String.data_append, List.count_append]
    omega
  rw [injectCss_eq branding colors content hcolors]
  cases branding.fonts with
  | none => exact hblock
  | some fonts =>
    have h1 := count_replaceToken "\x7b\x7bHEADING_FONT\x7d\x7d"
      (orElse fonts.heading "Plus Jakarta Sans") (cssVars colors ++ content) (by decide) (by decide)
    have h2 := count_replaceToken "\x7b\x7bBODY_FONT\x7d\x7d"
      (orElse fonts.body "Plus Jakarta Sans")
      (replaceToken "\x7b\x7bHEADING_FONT\x7d\x7d" (orElse fonts.heading "Plus Jakarta Sans")
        (cssVars colors ++ content)) (by decide) (by decide)
    simp only
    omega

theorem replaceLiteral_append_separated (token value pre content : String) (t : List Char)
    (htoken : token.data = '\x7b' :: '\x7b' :: t) (hvalue : '$' ∉ value.data)
    (hpre : bracesSeparated pre.data = true) :
    replaceLiteral token value (pre ++ content) = pre ++ replaceLiteral token value content := by
  rw [← replaceToken_eq_replaceLiteral token value (pre ++ content) (by simp [htoken]) hvalue]
  exact replaceToken_append_separated token value pre content t htoken hvalue hpre

/-- C15 (amended): `injectBranding` is not idempotent on style sheets. For a branding
profile with `colors`, applying it to its own output prepends the block again to the
text of the first application and, when `branding.fonts` is present, substitutes
the font placeholders again; the content differs from that of a single application.
Without `fonts` the text is two copies of the block followed by the original text;
with `fonts`, font values without `$` and colours without an opening brace, it is
two copies of the block followed by the original text with the font placeholders
substituted (twice over). -/
theorem injectBranding_css_twice (branding : Branding) (colors : Colors) (file : ThemeFile)
    (hcss : endsWith file.name ".css" = true) (hcolors : branding.colors = some colors) :
    decodeContent (injectBrandingFile branding (injectBrandingFile branding file)).content =
        injectCss branding (decodeContent (injectBrandingFile branding file).content) ∧
      (injectBrandingFile branding (injectBrandingFile branding file)).content ≠
        (injectBrandingFile branding file).content ∧
      (branding.fonts = none →
        decodeContent (injectBrandingFile branding (injectBrandingFile branding file)).content =
          cssVars colors ++ (cssVars colors ++ decodeContent file.content)) ∧
      (∀ fonts, branding.fonts = some fonts →
        '$' ∉ (orElse fonts.heading "Plus Jakarta Sans").data →
        '$' ∉ (orElse fonts.body "Plus Jakarta Sans").data →
        '\x7b' ∉ (orElse colors.primary "#2563eb").data →
        '\x7b' ∉ (orElse colors.secondary "#1e40af").data →
        '\x7b' ∉ (orElse colors.accent "#06b6d4").data →
        '\x7b' ∉ (orElse colors.text "#1e293b").data →
        '\x7b' ∉ (orElse colors.background "#ffffff").data →
        decodeContent (injectBrandingFile branding (injectBrandingFile branding file)).content =
          cssVars colors ++ (cssVars colors ++
            replaceLiteral "\x7b\x7bBODY_FONT\x7d\x7d" (orElse fonts.body "Plus Jakarta Sans")
              (replaceLiteral "\x7b\x7bHEADING_FONT\x7d\x7d"
                (orElse fonts.heading "Plus Jakarta Sans")
                (replaceLiteral "\x7b\x7bBODY_FONT\x7d\x7d" (orElse fonts.body "Plus Jakarta Sans")
                  (replaceLiteral "\x7b\x7bHEADING_FONT\x7d\x7d"
                    (orElse fonts.heading "Plus Jakarta Sans")
                    (decodeContent file.content)))))) := by
  have hname : (injectBrandingFile branding file).name = file.name :=
    (injectBrandingFile_fields branding file).1
  have hcss1 : endsWith (injectBrandingFile branding file).name ".css" = true := by
    rw [hname]; exact hcss
  have hone := injectBrandingFile_css_text branding file hcss
  have htwo := injectBrandingFile_css_text branding (injectBrandingFile branding file) hcss1
  refine ⟨htwo, ?_, ?_, ?_⟩
  · intro heq
    have hlt := count_injectCss branding colors
      (decodeContent (injectBrandingFile branding file).content) hcolors
    rw [← htwo, heq] at hlt
    exact Nat.lt_irrefl _ hlt
  · intro hfonts
    rw [htwo, hone, injectCss_eq branding colors _ hcolors, injectCss_eq branding colors _ hcolors,
      hfonts]
  · intro fonts hfonts hh hb h1 h2 h3 h4 h5
    have hsep := cssVars_separated colors h1 h2 h3 h4 h5
    rw [htwo, hone, injectCss_eq branding colors _ hcolors, injectCss_eq branding colors _ hcolors,
      hfonts]
    simp only
    rw [replaceToken_append_separated _ _ _ _ "HEADING_FONT\x7d\x7d".data (by decide) hh hsep,
      replaceToken_append_separated _ _ _ _ "BODY_FONT\x7d\x7d".data (by decide) hb hsep,
      replaceToken_append_separated _ _ _ _ "HEADING_FONT\x7d\x7d".data (by decide) hh hsep,
      replaceToken_append_separated _ _ _ _ "BODY_FONT\x7d\x7d".data (by decide) hb hsep,
      replaceLiteral_append_separated _ _ _ _ "HEADING_FONT\x7d\x7d".data (by decide) hh hsep,
      replaceLiteral_append_separated _ _ _ _ "BODY_FONT\x7d\x7d".data (by decide) hb hsep]

set_option maxRecDepth 8000 in
/-- Witness for C15 (amended): a style sheet without font placeholders, a profile with
colours only. -/
theorem injectBranding_css_twice_witness :
    decodeContent (injectBrandingFile { colors := some {} }
        (injectBrandingFile { colors := some {} }
          { name := "css/site.css", partialUrl := "css/site.css", mimeType := "text/css",
            content := encodeContent "body\x7b\x7d" })).content =
      cssVars {} ++ (cssVars {} ++ "body\x7b\x7d") :=
  ((injectBranding_css_twice { colors := some {} } {}
      { name := "css/site.css", partialUrl := "css/site.css", mimeType := "text/css",
        content := encodeContent "body\x7b\x7d" } (by decide) rfl).2.2.1 rfl).trans (by decide)

set_option maxRecDepth 16000 in
/-- Counterexample to C15 as stated: with `fonts` present, the second application of
`injectBranding` to a style sheet that uses a font placeholder yields two copies of
the block followed by the text with the placeholder substituted, not by the
original text. -/
theorem injectBranding_css_twice_fonts :
    decodeContent (injectBrandingFile
        { colors := some {}, fonts := some { heading := some "Inter" } }
        (injectBrandingFile { colors := some {}, fonts := some { heading := some "Inter" } }
          { name := "css/site.css", partialUrl := "css/site.css", mimeType := "text/css",
            content := encodeContent "h1\x7bfont-family:\x7b\x7bHEADING_FONT\x7d\x7d\x7d" })).content =
      cssVars {} ++ (cssVars {} ++ "h1\x7bfont-family:Inter\x7d") ∧
    cssVars {} ++ (cssVars {} ++ "h1\x7bfont-family:Inter\x7d") ≠
      cssVars {} ++ (cssVars {} ++ "h1\x7bfont-family:\x7b\x7bHEADING_FONT\x7d\x7d\x7d") := by
  decide

/-! ## Properties of the branding injector: the logo and absent fields -/

theorem injectHtmlChecked_ok (branding : Branding) (content : String) :
    injectHtmlChecked branding content = .ok (injectHtml branding content) := by
  obtain ⟨organizationName, logo, colors, fonts⟩ := branding
  unfold injectHtmlChecked injectLogoChecked readLogo injectHtml
  cases logo with
  | none =>
    have h : truthy (none : Option String) = false := rfl
    simp only [Option.bind, h, Bool.false_eq_true, if_false]
    cases colors <;> rfl
  | some logo =>
    simp only [Option.bind]
    by_cases hurl : truthy logo.url = true
    · simp only [hurl, if_true]
      cases colors <;> rfl
    · simp only [hurl, if_false]
      cases colors <;> rfl

theorem injectBrandingFileChecked_ok (branding : Branding) (file : ThemeFile) :
    injectBrandingFileChecked branding file = .ok (injectBrandingFile branding file) := by
  unfold injectBrandingFileChecked injectBrandingFile
  simp only [injectHtmlChecked_ok]
  by_cases h1 : (endsWith file.name ".html" || endsWith file.name ".htm") = true <;>
    by_cases h2 : endsWith file.name ".css" = true <;>
    simp [h1, h2]

theorem injectBrandingChecked_ok (branding : Branding) (themeFiles : List ThemeFile) :
    injectBrandingChecked branding themeFiles = .ok (injectBranding themeFiles branding) := by
  induction themeFiles with
  | nil => rfl
  | cons file rest ih =>
    rw [injectBrandingChecked, injectBrandingFileChecked_ok, ih]
    rfl

/-- C16 (the code at the failing input): with the alternative text `Big $$ Savings`
the placeholder `{{LOGO_ALT}}` is not replaced by this text character for character:
`$$` comes out as `$`. The placeholder `{{LOGO_URL}}` is replaced by the URL. -/
theorem injectBranding_logo_dollar :
    (injectBranding
        [{ name := "index.html", partialUrl := "index.html", mimeType := "text/html",
           content := encodeContent
             "<img src=\"\x7b\x7bLOGO_URL\x7d\x7d\" alt=\"\x7b\x7bLOGO_ALT\x7d\x7d\">" }]
        { logo := some { url := some "/logo.png", altText := some "Big $$ Savings" } }).map
        (fun f => decodeContent f.content) =
      ["<img src=\"/logo.png\" alt=\"Big $ Savings\">"] ∧
    "<img src=\"/logo.png\" alt=\"Big $ Savings\">" ≠
      "<img src=\"/logo.png\" alt=\"Big $$ Savings\">" := by
  decide

theorem orElse_fallback (fallback : String) :
    orElse none fallback = fallback ∧ orElse (some "") fallback = fallback ∧
      ∀ value, value ≠ "" → orElse (some value) fallback = value := by
  refine ⟨rfl, rfl, ?_⟩
  intro value h
  simp [orElse, h]

theorem injectHtml_steps (branding : Branding) (content : String)
    (hname : truthy (branding.logo.bind (fun l => l.url)) = true →
      orOption (branding.logo.bind (fun l => l.altText)) branding.organizationName ≠ none) :
    ∃ c1 c2 : String,
      ((truthy (branding.logo.bind (fun l => l.url)) = false ∧ c1 = content) ∨
        ∃ url alt, branding.logo.bind (fun l => l.url) = some url ∧ url ≠ "" ∧
          ((branding.logo.bind (fun l => l.altText) = some alt ∧ alt ≠ "") ∨
            (truthy (branding.logo.bind (fun l => l.altText)) = false ∧
              branding.organizationName = some alt)) ∧
          c1 = replaceToken "\x7b\x7bLOGO_ALT\x7d\x7d" alt
            (replaceToken "\x7b\x7bLOGO_URL\x7d\x7d" url content)) ∧
      ((truthy branding.organizationName = false ∧ c2 = c1) ∨
        ∃ name, branding.organizationName = some name ∧ name ≠ "" ∧
          c2 = replaceToken "\x7b\x7bORG_NAME\x7d\x7d" name c1) ∧
      ((branding.colors = none ∧ injectHtml branding content = c2) ∨
        ∃ colors, branding.colors = some colors ∧
          injectHtml branding content =
            replaceToken "\x7b\x7bACCENT_COLOR\x7d\x7d" (orElse colors.accent "#06b6d4")
              (replaceToken "\x7b\x7bSECONDARY_COLOR\x7d\x7d" (orElse colors.secondary "#1e40af")
                (replaceToken "\x7b\x7bPRIMARY_COLOR\x7d\x7d"
                  (orElse colors.primary "#2563eb") c2))) := by
  have htruthy : ∀ a : Option String, truthy a = true → ∃ s, a = some s ∧ s ≠ "" := by
    intro a h
    cases a with
    | none => exact absurd h (by decide)
    | some s => exact ⟨s, rfl, by simpa [truthy] using h⟩
  refine ⟨if truthy (branding.logo.bind (fun l => l.url)) then
      replaceToken "\x7b\x7bLOGO_ALT\x7d\x7d"
        (jsToString (orOption (branding.logo.bind (fun l => l.altText)) branding.organizationName))
        (replaceToken "\x7b\x7bLOGO_URL\x7d\x7d"
          (jsToString (branding.logo.bind (fun l => l.url))) content)
    else content,
    if truthy branding.organizationName then
      replaceToken "\x7b\x7bORG_NAME\x7d\x7d" (jsToString branding.organizationName)
        (if truthy (branding.logo.bind (fun l => l.url)) then
          replaceToken "\x7b\x7bLOGO_ALT\x7d\x7d"
            (jsToString (orOption (branding.logo.bind (fun l => l.altText))
              branding.organizationName))
            (replaceToken "\x7b\x7bLOGO_URL\x7d\x7d"
              (jsToString (branding.logo.bind (fun l => l.url))) content)
        else content)
    else
      (if truthy (branding.logo.bind (fun l => l.url)) then
        replaceToken "\x7b\x7bLOGO_ALT\x7d\x7d"
          (jsToString (orOption (branding.logo.bind (fun l => l.altText))
            branding.organizationName))
          (replaceToken "\x7b\x7bLOGO_URL\x7d\x7d"
            (jsToString (branding.logo.bind (fun l => l.url))) content)
      else content), ?_, ?_, ?_⟩
  · cases hu : truthy (branding.logo.bind (fun l => l.url)) with
    | false => left; exact ⟨rfl, by simp⟩
    | true =>
      right
      obtain ⟨url, hurl, hne⟩ := htruthy _ hu
      have hsome := hname hu
      cases ha : truthy (branding.logo.bind (fun l => l.altText)) with
      | true =>
        obtain ⟨alt, halt, haltne⟩ := htruthy _ ha
        refine ⟨url, alt, hurl, hne, Or.inl ⟨halt, haltne⟩, ?_⟩
        have ht : truthy (some alt) = true := by rw [← halt]; exact ha
        simp [orOption, halt, hurl, jsToString, ht]
      | false =>
        cases hn : branding.organizationName with
        | none => simp [orOption, ha, hn] at hsome
        | some alt =>
          refine ⟨url, alt, hurl, hne, Or.inr ⟨rfl, rfl⟩, ?_⟩
          simp [orOption, ha, hurl, jsToString]
  · cases hn : truthy branding.organizationName with
    | false => left; exact ⟨rfl, by simp⟩
    | true =>
      right
      obtain ⟨name, hname2, hne⟩ := htruthy _ hn
      exact ⟨name, hname2, hne, by simp [hname2, jsToString]⟩
  · cases hc : branding.colors with
    | none => left; refine ⟨rfl, ?_⟩; unfold injectHtml; rw [hc]
    | some colors => right; refine ⟨colors, rfl, ?_⟩; unfold injectHtml; rw [hc]

theorem injectCss_steps (branding : Branding) (content : String) :
    ∃ c1 : String,
      ((branding.colors = none ∧ c1 = content) ∨
        ∃ colors, branding.colors = some colors ∧ c1 = cssVars colors ++ content) ∧
      ((branding.fonts = none ∧ injectCss branding content = c1) ∨
        ∃ fonts, branding.fonts = some fonts ∧
          injectCss branding content =
            replaceToken "\x7b\x7bBODY_FONT\x7d\x7d" (orElse fonts.body "Plus Jakarta Sans")
              (replaceToken "\x7b\x7bHEADING_FONT\x7d\x7d"
                (orElse fonts.heading "Plus Jakarta Sans") c1)) := by
  obtain ⟨organizationName, logo, colors, fonts⟩ := branding
  cases colors with
  | none =>
    cases fonts with
    | none => exact ⟨content, Or.inl ⟨rfl, rfl⟩, Or.inl ⟨rfl, rfl⟩⟩
    | some fonts => exact ⟨content, Or.inl ⟨rfl, rfl⟩, Or.inr ⟨fonts, rfl, rfl⟩⟩
  | some colors =>
    cases fonts with
    | none => exact ⟨cssVars colors ++ content, Or.inr ⟨colors, rfl, rfl⟩, Or.inl ⟨rfl, rfl⟩⟩
    | some fonts =>
      exact ⟨cssVars colors ++ content, Or.inr ⟨colors, rfl, rfl⟩, Or.inr ⟨fonts, rfl, rfl⟩⟩

/-- C17 (amended): for every list of files and every branding object, whichever of
its fields are absent, `injectBranding` returns its result without raising. In a
page, each group that is absent leaves its placeholders as they are: without a logo
URL the logo step is skipped, without an organisation name the name step is skipped,
without `colors` the colour step is skipped; a colour that is absent is replaced by
its fallback. When the profile has a logo URL and an alternative text or an
organisation name, `{{LOGO_ALT}}` is replaced by the alternative text, or by the
organisation name as its fallback. In a style sheet, without `colors` no block is
prepended and without `fonts` no font placeholder is replaced; a colour or font that
is absent is replaced by its fallback. -/
theorem injectBranding_absent_fields (branding : Branding) (themeFiles : List ThemeFile) :
    injectBrandingChecked branding themeFiles = .ok (injectBranding themeFiles branding) ∧
    injectBranding themeFiles branding = themeFiles.map (injectBrandingFile branding) ∧
    (∀ file ∈ themeFiles,
      (endsWith file.name ".html" = true ∨ endsWith file.name ".htm" = true) →
      (truthy (branding.logo.bind (fun l => l.url)) = true →
        orOption (branding.logo.bind (fun l => l.altText)) branding.organizationName ≠ none) →
      ∃ c1 c2 : String,
        ((truthy (branding.logo.bind (fun l => l.url)) = false ∧
            c1 = decodeContent file.content) ∨
          ∃ url alt, branding.logo.bind (fun l => l.url) = some url ∧ url ≠ "" ∧
            ((branding.logo.bind (fun l => l.altText) = some alt ∧ alt ≠ "") ∨
              (truthy (branding.logo.bind (fun l => l.altText)) = false ∧
                branding.organizationName = some alt)) ∧
            c1 = replaceToken "\x7b\x7bLOGO_ALT\x7d\x7d" alt
              (replaceToken "\x7b\x7bLOGO_URL\x7d\x7d" url (decodeContent file.content))) ∧
        ((truthy branding.organizationName = false ∧ c2 = c1) ∨
          ∃ name, branding.organizationName = some name ∧ name ≠ "" ∧
            c2 = replaceToken "\x7b\x7bORG_NAME\x7d\x7d" name c1) ∧
        ((branding.colors = none ∧
            decodeContent (injectBrandingFile branding file).content = c2) ∨
          ∃ colors, branding.colors = some colors ∧
            decodeContent (injectBrandingFile branding file).content =
              replaceToken "\x7b\x7bACCENT_COLOR\x7d\x7d" (orElse colors.accent "#06b6d4")
                (replaceToken "\x7b\x7bSECONDARY_COLOR\x7d\x7d"
                  (orElse colors.secondary "#1e40af")
                  (replaceToken "\x7b\x7bPRIMARY_COLOR\x7d\x7d"
                    (orElse colors.primary "#2563eb") c2)))) ∧
    (∀ file ∈ themeFiles, endsWith file.name ".css" = true →
      ∃ c1 : String,
        ((branding.colors = none ∧ c1 = decodeContent file.content) ∨
          ∃ colors, branding.colors = some colors ∧
            c1 = cssVars colors ++ decodeContent file.content) ∧
        ((branding.fonts = none ∧
            decodeContent (injectBrandingFile branding file).content = c1) ∨
          ∃ fonts, branding.fonts = some fonts ∧
            decodeContent (injectBrandingFile branding file).content =
              replaceToken "\x7b\x7bBODY_FONT\x7d\x7d" (orElse fonts.body "Plus Jakarta Sans")
                (replaceToken "\x7b\x7bHEADING_FONT\x7d\x7d"
                  (orElse fonts.heading "Plus Jakarta Sans") c1))) ∧
    (∀ fallback : String,
      orElse none fallback = fallback ∧ orElse (some "") fallback = fallback ∧
        ∀ value, value ≠ "" → orElse (some value) fallback = value) := by
  refine ⟨injectBrandingChecked_ok branding themeFiles, rfl, ?_, ?_, orElse_fallback⟩
  · intro file _ hhtml hname
    rw [injectBrandingFile_html_text branding file hhtml]
    exact injectHtml_steps branding (decodeContent file.content) hname
  · intro file _ hcss
    rw [injectBrandingFile_css_text branding file hcss]
    exact injectCss_steps branding (decodeContent file.content)

set_option maxRecDepth 8000 in
/-- Witness for C17 (amended): a page with the two logo placeholders and a profile
with a logo URL and an organisation name only; the name stands in for the
alternative text. -/
theorem injectBranding_absent_fields_witness :
    injectBrandingChecked
        { organizationName := some "Acme", logo := some { url := some "/logo.png" } }
        [{ name := "index.html", partialUrl := "index.html", mimeType := "text/html",
           content := encodeContent
             "<img src=\"\x7b\x7bLOGO_URL\x7d\x7d\" alt=\"\x7b\x7bLOGO_ALT\x7d\x7d\">" }] =
      .ok (injectBranding
        [{ name := "index.html", partialUrl := "index.html", mimeType := "text/html",
           content := encodeContent
             "<img src=\"\x7b\x7bLOGO_URL\x7d\x7d\" alt=\"\x7b\x7bLOGO_ALT\x7d\x7d\">" }]
        { organizationName := some "Acme", logo := some { url := some "/logo.png" } }) ∧
    (injectBranding
        [{ name := "index.html", partialUrl := "index.html", mimeType := "text/html",
           content := encodeContent
             "<img src=\"\x7b\x7bLOGO_URL\x7d\x7d\" alt=\"\x7b\x7bLOGO_ALT\x7d\x7d\">" }]
        { organizationName := some "Acme", logo := some { url := some "/logo.png" } }).map
        (fun f => decodeContent f.content) =
      ["<img src=\"/logo.png\" alt=\"Acme\">"] :=
  ⟨(injectBranding_absent_fields
      { organizationName := some "Acme", logo := some { url := some "/logo.png" } }
      [{ name := "index.html", partialUrl := "index.html", mimeType := "text/html",
         content := encodeContent
           "<img src=\"\x7b\x7bLOGO_URL\x7d\x7d\" alt=\"\x7b\x7bLOGO_ALT\x7d\x7d\">" }]).1,
    by decide⟩

set_option maxRecDepth 8000 in
/-- Counterexample to C17 as stated: with a logo URL but neither an alternative text
nor an organisation name, `injectBranding` returns without raising, but the
placeholder `{{LOGO_ALT}}` is neither left as it is nor replaced by a fallback value:
the text `undefined` is written in its place. -/
theorem injectBranding_logo_undefined :
    (injectBrandingChecked { logo := some { url := some "/logo.png" } }
        [{ name := "index.html", partialUrl := "index.html", mimeType := "text/html",
           content := encodeContent
             "<img src=\"\x7b\x7bLOGO_URL\x7d\x7d\" alt=\"\x7b\x7bLOGO_ALT\x7d\x7d\">" }]).toOption.map
        (fun files => files.map (fun f => decodeContent f.content)) =
      some ["<img src=\"/logo.png\" alt=\"undefined\">"] ∧
    "<img src=\"/logo.png\" alt=\"undefined\">" ≠
      "<img src=\"/logo.png\" alt=\"\x7b\x7bLOGO_ALT\x7d\x7d\">" ∧
    orOption ((some ({ url := some "/logo.png" } : Logo)).bind (fun l => l.altText)) none =
      none := by
  decide

/-! ## Properties of the progress value -/

/-- C18: the virtual `deploymentProgress` of a record is 0 for `pending`, 20 for
`validating`, 40 for `creating_site`, 70 for `deploying`, 100 for `completed` and 0
for `failed`; two records with the same status have the same progress, whatever
their other fields; and the status response reports this value. -/
theorem deploymentProgress_fixed :
    (∀ theme : Theme,
      (theme.deployment.status = "pending" → theme.deploymentProgress = 0) ∧
      (theme.deployment.status = "validating" → theme.deploymentProgress = 20) ∧
      (theme.deployment.status = "creating_site" → theme.deploymentProgress = 40) ∧
      (theme.deployment.status = "deploying" → theme.deploymentProgress = 70) ∧
      (theme.deployment.status = "completed" → theme.deploymentProgress = 100) ∧
      (theme.deployment.status = "failed" → theme.deploymentProgress = 0)) ∧
    (∀ a b : Theme, a.deployment.status = b.deployment.status →
      a.deploymentProgress = b.deploymentProgress) ∧
    (∀ theme : Theme, theme.deploymentProgress = progressOf theme.deployment.status) ∧
    (∀ theme : Theme, (Deploy.statusResponse theme).progress = theme.deploymentProgress ∧
      (Deploy.statusResponse theme).status = theme.deployment.status) := by
  refine ⟨fun theme => ⟨?_, ?_, ?_, ?_, ?_, ?_⟩, ?_, fun _ => rfl, fun _ => ⟨rfl, rfl⟩⟩
  · intro h; unfold Theme.deploymentProgress; rw [h]; decide
  · intro h; unfold Theme.deploymentProgress; rw [h]; decide
  · intro h; unfold Theme.deploymentProgress; rw [h]; decide
  · intro h; unfold Theme.deploymentProgress; rw [h]; decide
  · intro h; unfold Theme.deploymentProgress; rw [h]; decide
  · intro h; unfold Theme.deploymentProgress; rw [h]; decide
  · intro a b h; unfold Theme.deploymentProgress; rw [h]

/-- C19 (amended): in both pipelines, along the statuses persisted for a newly created
record, the progress value never decreases at a write whose status is not `failed`;
a write of `failed` sets the progress to 0; no record is saved after one with status
`completed` or `failed`, so the progress reported after a terminal status never
changes; and the progress of each saved record is the progress value of its status. -/
theorem progress_monotone_until_failure :
    (∀ (world : World) (wizardData : WizardData) (branding : Option Branding)
        (environmentUrl websiteId : String),
        ProgressMonotone (persistedStatuses (Deploy.executeCreate wizardData environmentUrl websiteId)
          (Deploy.processDeployment world wizardData branding
            (Deploy.executeCreate wizardData environmentUrl websiteId)))) ∧
      (∀ (world : Upload.World) (name : String),
        ProgressMonotone (persistedStatuses (Upload.uploadCreate name)
          (Upload.processThemeDeployment world (Upload.uploadCreate name)))) ∧
      (∀ (created : Theme) (run : Run),
        (created :: run.saves).map Theme.deploymentProgress =
          (persistedStatuses created run).map progressOf) := by
  refine ⟨?_, ?_, ?_⟩
  · intro world wizardData branding environmentUrl websiteId
    have h := Deploy.processDeployment_statuses world wizardData branding
      (Deploy.executeCreate wizardData environmentUrl websiteId)
    have hp : persistedStatuses (Deploy.executeCreate wizardData environmentUrl websiteId)
        (Deploy.processDeployment world wizardData branding
          (Deploy.executeCreate wizardData environmentUrl websiteId)) =
        "pending" :: (Deploy.processDeployment world wizardData branding
          (Deploy.executeCreate wizardData environmentUrl websiteId)).saves.map
            (fun t => t.deployment.status) := rfl
    rw [hp]
    simp only [List.mem_cons, List.mem_singleton, List.not_mem_nil, or_false] at h
    rcases h with h | h | h | h | h | h | h | h <;> rw [h] <;> decide
  · intro world name
    have h := Upload.processThemeDeployment_statuses world (Upload.uploadCreate name)
    have hp : persistedStatuses (Upload.uploadCreate name)
        (Upload.processThemeDeployment world (Upload.uploadCreate name)) =
        "pending" :: (Upload.processThemeDeployment world (Upload.uploadCreate name)).saves.map
            (fun t => t.deployment.status) := rfl
    rw [hp]
    simp only [List.mem_cons, List.mem_singleton, List.not_mem_nil, or_false] at h
    rcases h with h | h | h <;> rw [h] <;> decide
  · intro created run
    simp [persistedStatuses, Theme.deploymentProgress, progressOf]

/-- C19 (counterexample): the deployment of an uploaded archive that cannot be read
persists `pending`, `validating`, `failed`, whose progress values are 0, 20, 0: the
sequence up to and including the first terminal status decreases at its last
step. -/
theorem progress_drops_on_failure :
    persistedStatuses (Deploy.executeCreate Sample.fromUpload "https://org.crm.dynamics.com" "site")
        (Deploy.processDeployment (Sample.world (Sample.failingAt 0)) Sample.fromUpload none
          (Deploy.executeCreate Sample.fromUpload "https://org.crm.dynamics.com" "site")) =
      ["pending", "validating", "failed"] ∧
    (Deploy.executeCreate Sample.fromUpload "https://org.crm.dynamics.com" "site" ::
        (Deploy.processDeployment (Sample.world (Sample.failingAt 0)) Sample.fromUpload none
          (Deploy.executeCreate Sample.fromUpload "https://org.crm.dynamics.com" "site")).saves).map
        Theme.deploymentProgress = [0, 20, 0] ∧
    ¬ List.Pairwise (fun a b => a ≤ b) [0, 20, 0] := by
  decide

/-! ## Properties of the structure validator: the size check -/

theorem warnings_eq (themeFiles : List ThemeFile) :
    ∃ early : List String, (∀ w ∈ early, w = noCssMessage ∨ w = noBootstrapMessage) ∧
      (validateThemeStructure themeFiles).warnings =
        early ++
          if 0 < (themeFiles.filter (fun f => decide (5242880 < decodedSize f))).length then
            [oversizeMessage (themeFiles.filter (fun f => decide (5242880 < decodedSize f))).length]
          else [] := by
  have hw : (validateThemeStructure themeFiles).warnings =
      (if (themeFiles.filter (fun f => decide (decodedSize f > 5 * 1024 * 1024))).length > 0 then
        (if (!(themeFiles.map (fun f => toLowerCase f.name)).any isBootstrapName) = true then
          (if (!(themeFiles.map (fun f => toLowerCase f.name)).any
              (fun f => endsWith f ".css")) = true then [noCssMessage] else []) ++
            [noBootstrapMessage]
         else (if (!(themeFiles.map (fun f => toLowerCase f.name)).any
              (fun f => endsWith f ".css")) = true then [noCssMessage] else [])) ++
          [oversizeMessage
            (themeFiles.filter (fun f => decide (decodedSize f > 5 * 1024 * 1024))).length]
       else
        (if (!(themeFiles.map (fun f => toLowerCase f.name)).any isBootstrapName) = true then
          (if (!(themeFiles.map (fun f => toLowerCase f.name)).any
              (fun f => endsWith f ".css")) = true then [noCssMessage] else []) ++
            [noBootstrapMessage]
         else (if (!(themeFiles.map (fun f => toLowerCase f.name)).any
              (fun f => endsWith f ".css")) = true then [noCssMessage] else []))) := rfl
  refine ⟨if (!(themeFiles.map (fun f => toLowerCase f.name)).any isBootstrapName) = true then
          (if (!(themeFiles.map (fun f => toLowerCase f.name)).any
              (fun f => endsWith f ".css")) = true then [noCssMessage] else []) ++
            [noBootstrapMessage]
         else (if (!(themeFiles.map (fun f => toLowerCase f.name)).any
              (fun f => endsWith f ".css")) = true then [noCssMessage] else []), ?_, ?_⟩
  · intro w hmem
    split_ifs at hmem <;> simp at hmem <;> tauto
  · rw [hw]
    have h5 : 5 * 1024 * 1024 = 5242880 := by norm_num
    simp only [h5, gt_iff_lt]
    split_ifs <;> simp

theorem oversizeMessage_endsWith (count : Nat) :
    endsWith (oversizeMessage count) " file(s) exceed 5MB and may affect performance" = true := by
  rw [endsWith_iff]
  exact ⟨(toString count).data, rfl⟩

theorem oversize_warning_iff (themeFiles : List ThemeFile) :
    ((∃ w ∈ (validateThemeStructure themeFiles).warnings,
        endsWith w " file(s) exceed 5MB and may affect performance" = true) ↔
      ∃ f ∈ themeFiles, 5242880 < decodedSize f) ∧
    (∀ w ∈ (validateThemeStructure themeFiles).warnings,
      endsWith w " file(s) exceed 5MB and may affect performance" = true →
      w = oversizeMessage
        (themeFiles.filter (fun f => decide (5242880 < decodedSize f))).length) := by
  obtain ⟨early, hearly, hw⟩ := warnings_eq themeFiles
  have hnot : ∀ w ∈ early,
      endsWith w " file(s) exceed 5MB and may affect performance" = false := by
    intro w hmem
    rcases hearly w hmem with rfl | rfl <;> decide
  have hcount : 0 < (themeFiles.filter (fun f => decide (5242880 < decodedSize f))).length ↔
      ∃ f ∈ themeFiles, 5242880 < decodedSize f := by
    rw [List.length_pos_iff_exists_mem]
    simp [List.mem_filter]
  rw [hw]
  constructor
  · rw [← hcount]
    constructor
    · rintro ⟨w, hmem, hends⟩
      rcases List.mem_append.mp hmem with h | h
      · rw [hnot w h] at hends; exact absurd hends (by decide)
      · by_contra hc
        rw [if_neg hc] at h
        exact absurd h (List.not_mem_nil _)
    · intro hc
      exact ⟨_, List.mem_append_right _ (by rw [if_pos hc]; exact List.mem_singleton.mpr rfl),
        oversizeMessage_endsWith _⟩
  · intro w hmem hends
    rcases List.mem_append.mp hmem with h | h
    · rw [hnot w h] at hends; exact absurd hends (by decide)
    · split_ifs at h
      · exact List.mem_singleton.mp h
      · exact absurd h (List.not_mem_nil _)

theorem decodedSize_base64Encode (file : ThemeFile) (bytes : List Nat)
    (hbytes : ∀ b ∈ bytes, b < 256) (hcontent : file.content = base64Encode bytes) :
    decodedSize file = bytes.length := by
  rw [decodedSize, hcontent, base64Decode_base64Encode bytes hbytes]

/-- C20: `validateThemeStructure` emits a warning ending in
` file(s) exceed 5MB and may affect performance` if and only if the decoded content
of some file is longer than 5,242,880 bytes; every such warning names the number of
files whose decoded content is longer than 5,242,880 bytes; a file whose content
encodes exactly 5,242,880 bytes draws no such warning, and one whose content encodes
5,242,881 bytes draws the warning naming one file. -/
theorem validate_oversize_warning :
    (∀ themeFiles : List ThemeFile,
      ((∃ w ∈ (validateThemeStructure themeFiles).warnings,
          endsWith w " file(s) exceed 5MB and may affect performance" = true) ↔
        ∃ f ∈ themeFiles, 5242880 < decodedSize f) ∧
      (∀ w ∈ (validateThemeStructure themeFiles).warnings,
        endsWith w " file(s) exceed 5MB and may affect performance" = true →
        w = oversizeMessage
          (themeFiles.filter (fun f => decide (5242880 < decodedSize f))).length)) ∧
    (∀ (file : ThemeFile) (bytes : List Nat), (∀ b ∈ bytes, b < 256) →
      file.content = base64Encode bytes →
      (bytes.length = 5242880 →
        ∀ w ∈ (validateThemeStructure [file]).warnings,
          endsWith w " file(s) exceed 5MB and may affect performance" = false) ∧
      (bytes.length = 5242881 →
        "1 file(s) exceed 5MB and may affect performance" ∈
          (validateThemeStructure [file]).warnings)) ∧
    (∃ bytes : List Nat, (∀ b ∈ bytes, b < 256) ∧ bytes.length = 5242880) ∧
    (∃ bytes : List Nat, (∀ b ∈ bytes, b < 256) ∧ bytes.length = 5242881) := by
  refine ⟨oversize_warning_iff, ?_,
    ⟨List.replicate 5242880 0, fun b hb => by rw [List.eq_of_mem_replicate hb]; decide,
      List.length_replicate _ _⟩,
    ⟨List.replicate 5242881 0, fun b hb => by rw [List.eq_of_mem_replicate hb]; decide,
      List.length_replicate _ _⟩⟩
  intro file bytes hbytes hcontent
  have hsize := decodedSize_base64Encode file bytes hbytes hcontent
  obtain ⟨hiff, hname⟩ := oversize_warning_iff [file]
  constructor
  · intro hlen w hmem
    by_contra hends
    have hex := hiff.mp ⟨w, hmem, by simpa using hends⟩
    obtain ⟨f, hf, hlt⟩ := hex
    rw [List.mem_singleton.mp hf, hsize, hlen] at hlt
    exact absurd hlt (by decide)
  · intro hlen
    have hlt : 5242880 < decodedSize file := by rw [hsize, hlen]; decide
    obtain ⟨w, hmem, hends⟩ := hiff.mpr ⟨file, List.mem_singleton.mpr rfl, hlt⟩
    have hw := hname w hmem hends
    have hcount : ([file].filter (fun f => decide (5242880 < decodedSize f))).length = 1 := by
      simp [hlt]
    rw [hcount] at hw
    rw [hw] at hmem
    exact hmem

/-! ## Properties of the structure validator: the rules together -/

theorem any_lower (themeFiles : List ThemeFile) (p : String → Bool) :
    (themeFiles.map (fun f => toLowerCase f.name)).any p =
      themeFiles.any (fun f => p (toLowerCase f.name)) := by
  induction themeFiles with
  | nil => rfl
  | cons f rest ih => simp only [List.map_cons, List.any_cons, ih]

theorem large_any (themeFiles : List ThemeFile) :
    0 < (themeFiles.filter (fun f => decide (5242880 < decodedSize f))).length ↔
      themeFiles.any (fun f => decide (5242880 < decodedSize f)) = true := by
  rw [List.length_pos_iff_exists_mem, List.any_eq_true]
  simp [List.mem_filter]

theorem warnings_formula (themeFiles : List ThemeFile) :
    (validateThemeStructure themeFiles).warnings =
      (if themeFiles.any (fun f => endsWith (toLowerCase f.name) ".css") then []
        else [noCssMessage]) ++
      (if themeFiles.any (fun f => isBootstrapName (toLowerCase f.name)) then []
        else [noBootstrapMessage]) ++
      (if themeFiles.any (fun f => decide (5242880 < decodedSize f)) then
        [oversizeMessage (themeFiles.filter (fun f => decide (5242880 < decodedSize f))).length]
        else []) := by
  have hw : (validateThemeStructure themeFiles).warnings =
      (if (themeFiles.filter (fun f => decide (decodedSize f > 5 * 1024 * 1024))).length > 0 then
        (if (!(themeFiles.map (fun f => toLowerCase f.name)).any isBootstrapName) = true then
          (if (!(themeFiles.map (fun f => toLowerCase f.name)).any
              (fun f => endsWith f ".css")) = true then [noCssMessage] else []) ++
            [noBootstrapMessage]
         else (if (!(themeFiles.map (fun f => toLowerCase f.name)).any
              (fun f => endsWith f ".css")) = true then [noCssMessage] else [])) ++
          [oversizeMessage
            (themeFiles.filter (fun f => decide (decodedSize f > 5 * 1024 * 1024))).length]
       else
        (if (!(themeFiles.map (fun f => toLowerCase f.name)).any isBootstrapName) = true then
          (if (!(themeFiles.map (fun f => toLowerCase f.name)).any
              (fun f => endsWith f ".css")) = true then [noCssMessage] else []) ++
            [noBootstrapMessage]
         else (if (!(themeFiles.map (fun f => toLowerCase f.name)).any
              (fun f => endsWith f ".css")) = true then [noCssMessage] else []))) := rfl
  have h5 : 5 * 1024 * 1024 = 5242880 := by norm_num
  have hlarge := large_any themeFiles
  rw [hw, any_lower, any_lower]
  simp only [h5, gt_iff_lt]
  by_cases hl : themeFiles.any (fun f => decide (5242880 < decodedSize f)) = true
  · rw [if_pos (hlarge.mpr hl), if_pos hl]
    cases hc : themeFiles.any (fun f => endsWith (toLowerCase f.name) ".css") <;>
      cases hb : themeFiles.any (fun f => isBootstrapName (toLowerCase f.name)) <;>
      simp
  · rw [if_neg (fun h => hl (hlarge.mp h)), if_neg hl]
    cases hc : themeFiles.any (fun f => endsWith (toLowerCase f.name) ".css") <;>
      cases hb : themeFiles.any (fun f => isBootstrapName (toLowerCase f.name)) <;>
      simp

theorem oversizeMessage_ne (count : Nat) :
    noCssMessage ≠ oversizeMessage count ∧ noBootstrapMessage ≠ oversizeMessage count := by
  have h := oversizeMessage_endsWith count
  constructor
  · intro heq
    rw [← heq] at h
    exact absurd h (by decide)
  · intro heq
    rw [← heq] at h
    exact absurd h (by decide)

/-- C21: the warnings of `validateThemeStructure` are, in this order, the no-CSS
warning when no lower-cased name ends in `.css`, the Bootstrap warning when no
lower-cased name contains `bootstrap` and ends in `.css` or `.js`, and the oversize
warning when some file decodes to more than 5,242,880 bytes; each warning is present
exactly under its own condition, and the errors are decided by the entry-point rule
alone, so no rule suppresses another. -/
theorem validate_rules_independent (themeFiles : List ThemeFile) :
    (validateThemeStructure themeFiles).warnings =
      (if themeFiles.any (fun f => endsWith (toLowerCase f.name) ".css") then []
        else [noCssMessage]) ++
      (if themeFiles.any (fun f =>
          includes (toLowerCase f.name) "bootstrap" &&
            (endsWith (toLowerCase f.name) ".css" || endsWith (toLowerCase f.name) ".js")) then []
        else [noBootstrapMessage]) ++
      (if themeFiles.any (fun f => decide (5242880 < decodedSize f)) then
        [oversizeMessage (themeFiles.filter (fun f => decide (5242880 < decodedSize f))).length]
        else []) ∧
    (validateThemeStructure themeFiles).errors =
      (if themeFiles.any (fun f => isIndexName (toLowerCase f.name)) then []
        else [missingIndexMessage]) ∧
    (noCssMessage ∈ (validateThemeStructure themeFiles).warnings ↔
      ¬ ∃ f ∈ themeFiles, endsWith (toLowerCase f.name) ".css" = true) ∧
    (noBootstrapMessage ∈ (validateThemeStructure themeFiles).warnings ↔
      ¬ ∃ f ∈ themeFiles, includes (toLowerCase f.name) "bootstrap" = true ∧
        (endsWith (toLowerCase f.name) ".css" = true ∨
          endsWith (toLowerCase f.name) ".js" = true)) ∧
    ((∃ w ∈ (validateThemeStructure themeFiles).warnings,
        endsWith w " file(s) exceed 5MB and may affect performance" = true) ↔
      ∃ f ∈ themeFiles, 5242880 < decodedSize f) := by
  have hw := warnings_formula themeFiles
  have hne := oversizeMessage_ne
    (themeFiles.filter (fun f => decide (5242880 < decodedSize f))).length
  have hcss : (themeFiles.any (fun f => endsWith (toLowerCase f.name) ".css")) = true ↔
      ∃ f ∈ themeFiles, endsWith (toLowerCase f.name) ".css" = true := by
    simp [List.any_eq_true]
  have hboot : (themeFiles.any (fun f => isBootstrapName (toLowerCase f.name))) = true ↔
      ∃ f ∈ themeFiles, includes (toLowerCase f.name) "bootstrap" = true ∧
        (endsWith (toLowerCase f.name) ".css" = true ∨
          endsWith (toLowerCase f.name) ".js" = true) := by
    simp [List.any_eq_true, isBootstrapName]
  have hd : noCssMessage ≠ noBootstrapMessage := by decide
  refine ⟨hw, errors_eq themeFiles, ?_, ?_, (oversize_warning_iff themeFiles).1⟩
  · rw [hw, ← hcss]
    cases hc : themeFiles.any (fun f => endsWith (toLowerCase f.name) ".css") <;>
      cases hb : themeFiles.any (fun f => isBootstrapName (toLowerCase f.name)) <;>
      cases hl : themeFiles.any (fun f => decide (5242880 < decodedSize f)) <;>
      simp [hne.1, hd]
  · rw [hw, ← hboot]
    cases hc : themeFiles.any (fun f => endsWith (toLowerCase f.name) ".css") <;>
      cases hb : themeFiles.any (fun f => isBootstrapName (toLowerCase f.name)) <;>
      cases hl : themeFiles.any (fun f => decide (5242880 < decodedSize f)) <;>
      simp [hne.2, hd.symm]

/-! ## Properties of the structure validator: memory -/

theorem large_count (heap : Heap) (refs : List Nat) :
    (refs.filter heap.isLarge).length =
      ((refs.filterMap (fun r => heap.records[r]?)).filter
        (fun f => decide (decodedSize f > 5 * 1024 * 1024))).length := by
  induction refs with
  | nil => rfl
  | cons r rest ih =>
    cases hr : heap.records[r]? with
    | none => simp [List.filter_cons, List.filterMap_cons, Heap.isLarge, hr, ih]
    | some f =>
      by_cases hf : decodedSize f > 5 * 1024 * 1024
      · simp [List.filter_cons, List.filterMap_cons, Heap.isLarge, hr, hf, ih]
      · simp [List.filter_cons, List.filterMap_cons, Heap.isLarge, hr, hf, ih]

theorem getD_after (before later : List (List String)) (k : Nat) :
    (before ++ later).getD (before.length + k) [] = later.getD k [] := by
  induction before with
  | nil => simp
  | cons first rest ih =>
    have e : (first :: rest).length + k = (rest.length + k) + 1 := by simp; omega
    rw [e]
    simpa using ih

theorem pushAt_after (before later : List (List String)) (k : Nat) (item : String) :
    pushAt (before ++ later) (before.length + k) item = before ++ pushAt later k item := by
  induction before with
  | nil => simp
  | cons first rest ih =>
    have e : (first :: rest).length + k = (rest.length + k) + 1 := by simp; omega
    rw [e]
    simp [pushAt, ih]

theorem getD_after_zero (before later : List (List String)) :
    (before ++ later).getD before.length [] = later.getD 0 [] := by
  simpa using getD_after before later 0

theorem pushAt_after_zero (before later : List (List String)) (item : String) :
    pushAt (before ++ later) before.length item = before ++ pushAt later 0 item := by
  simpa using pushAt_after before later 0 item

theorem getD_files_after (before later : List (List Nat)) :
    (before ++ later).getD before.length [] = later.getD 0 [] := by
  induction before with
  | nil => simp
  | cons first rest ih => simpa using ih

theorem push_if_errors (p : Prop) [Decidable p] (R : List ThemeFile) (F : List (List Nat))
    (S : List (List String)) (e w n : List String) (m : Bool) (x : String) :
    (if p then (Heap.mk R F (S ++ [e, w, n]) m).push S.length x
      else Heap.mk R F (S ++ [e, w, n]) m) =
      Heap.mk R F (S ++ [if p then e ++ [x] else e, w, n]) m := by
  by_cases h : p <;> simp [h, Heap.push, pushAt_after_zero, pushAt]

theorem push_if_warnings (p : Prop) [Decidable p] (R : List ThemeFile) (F : List (List Nat))
    (S : List (List String)) (e w n : List String) (m : Bool) (x : String) :
    (if p then (Heap.mk R F (S ++ [e, w, n]) m).push (S.length + 1) x
      else Heap.mk R F (S ++ [e, w, n]) m) =
      Heap.mk R F (S ++ [e, if p then w ++ [x] else w, n]) m := by
  by_cases h : p <;> simp [h, Heap.push, pushAt_after, pushAt]

theorem strings_errors (R : List ThemeFile) (F : List (List Nat))
    (S : List (List String)) (e w n : List String) (m : Bool) :
    (Heap.mk R F (S ++ [e, w, n]) m).strings S.length = e := by
  show (S ++ [e, w, n]).getD S.length [] = e
  rw [getD_after_zero]; rfl

theorem strings_warnings (R : List ThemeFile) (F : List (List Nat))
    (S : List (List String)) (e w n : List String) (m : Bool) :
    (Heap.mk R F (S ++ [e, w, n]) m).strings (S.length + 1) = w := by
  show (S ++ [e, w, n]).getD (S.length + 1) [] = w
  rw [getD_after]; rfl

theorem strings_fileNames (R : List ThemeFile) (F : List (List Nat))
    (S : List (List String)) (e w n : List String) (m : Bool) :
    (Heap.mk R F (S ++ [e, w, n]) m).strings (S.length + 2) = n := by
  show (S ++ [e, w, n]).getD (S.length + 2) [] = n
  rw [getD_after]; rfl

theorem refs_largeFiles (R : List ThemeFile) (F : List (List Nat))
    (S : List (List String)) (large : List Nat) (m : Bool) :
    (Heap.mk R (F ++ [large]) S m).refs F.length = large := by
  show (F ++ [large]).getD F.length [] = large
  rw [getD_files_after]; rfl

theorem validateThemeStructureOn_spec (heap : Heap) (themeFiles : Nat) :
    validateThemeStructureOn heap themeFiles =
      (validateThemeStructure (heap.files themeFiles),
        { heap with
          stringArrays := heap.stringArrays ++
            [(validateThemeStructure (heap.files themeFiles)).errors,
             (validateThemeStructure (heap.files themeFiles)).warnings,
             (heap.files themeFiles).map (fun f => toLowerCase f.name)],
          fileArrays := heap.fileArrays ++
            [(heap.refs themeFiles).filter heap.isLarge] }) := by
  obtain ⟨R, F, S, m⟩ := heap
  have hcount := large_count (Heap.mk R F S m) (F.getD themeFiles [])
  unfold validateThemeStructureOn
  lift_lets
  extract_lets h1 errors h2 warnings h3 fileNames h4 h5 hasBootstrap h6 large h7 largeFiles h8
  obtain ⟨names, hnames⟩ : ∃ names, names =
    ((Heap.mk R F S m).files themeFiles).map (fun f => toLowerCase f.name) := ⟨_, rfl⟩
  have eerrors : errors = S.length := rfl
  have ewarnings : warnings = S.length + 1 := by simp [warnings, h1, Heap.newStrings]
  have efileNames : fileNames = S.length + 2 := by
    simp [fileNames, h2, h1, Heap.newStrings]
  have e3 : h3 = Heap.mk R F (S ++ [[], [], names]) m := by
    simp [h3, h2, h1, Heap.newStrings, Heap.files, Heap.refs, hnames]
  have e4 : h4 = Heap.mk R F (S ++ [if (!names.any isIndexName) = true
      then [] ++ [missingIndexMessage] else [], [], names]) m := by
    show (if (!(h3.strings fileNames).any isIndexName) = true
      then h3.push errors missingIndexMessage else h3) = _
    rw [e3, efileNames, eerrors, strings_fileNames]
    exact push_if_errors _ R F S [] [] names m missingIndexMessage
  generalize hE : (if (!names.any isIndexName) = true
      then [] ++ [missingIndexMessage] else []) = E at e4
  have e5 : h5 = Heap.mk R F (S ++ [E, if (!names.any (fun f => endsWith f ".css")) = true
      then [] ++ [noCssMessage] else [], names]) m := by
    show (if (!(h4.strings fileNames).any (fun f => endsWith f ".css")) = true
      then h4.push warnings noCssMessage else h4) = _
    rw [e4, efileNames, ewarnings, strings_fileNames]
    exact push_if_warnings _ R F S E [] names m noCssMessage
  generalize hW1 : (if (!names.any (fun f => endsWith f ".css")) = true
      then [] ++ [noCssMessage] else []) = W1 at e5
  have e6 : h6 = Heap.mk R F (S ++ [E, if (!names.any isBootstrapName) = true
      then W1 ++ [noBootstrapMessage] else W1, names]) m := by
    show (if (!(h5.strings fileNames).any isBootstrapName) = true
      then h5.push warnings noBootstrapMessage else h5) = _
    rw [e5, efileNames, ewarnings, strings_fileNames]
    exact push_if_warnings _ R F S E W1 names m noBootstrapMessage
  generalize hW2 : (if (!names.any isBootstrapName) = true
      then W1 ++ [noBootstrapMessage] else W1) = W2 at e6
  obtain ⟨big, hbig⟩ : ∃ big, big =
      (F.getD themeFiles []).filter (Heap.mk R F S m).isLarge := ⟨_, rfl⟩
  have elarge : large = big := by
    show List.filter h6.isLarge (h6.refs themeFiles) = _
    rw [e6, hbig]; rfl
  have e7 : h7 = Heap.mk R (F ++ [big]) (S ++ [E, W2, names]) m := by
    show (h6.newFiles large).1 = _
    rw [e6, elarge]; rfl
  have elargeFiles : largeFiles = F.length := by
    show (h6.newFiles large).2 = _
    rw [e6]; rfl
  have e8 : h8 = Heap.mk R (F ++ [big]) (S ++ [E, if big.length > 0
      then W2 ++ [oversizeMessage big.length] else W2, names]) m := by
    show (if (h7.refs largeFiles).length > 0
      then h7.push warnings (oversizeMessage (h7.refs largeFiles).length) else h7) = _
    rw [e7, elargeFiles, ewarnings, refs_largeFiles]
    exact push_if_warnings _ R (F ++ [big]) S E W2 names m (oversizeMessage big.length)
  rw [e8, eerrors, ewarnings, strings_errors, strings_warnings]
  have hfiles : (Heap.mk R F S m).files themeFiles =
      (F.getD themeFiles []).filterMap (fun r => R[r]?) := rfl
  have hlen : (((Heap.mk R F S m).files themeFiles).filter
      (fun f => decide (decodedSize f > 5 * 1024 * 1024))).length = big.length := by
    rw [hbig]; exact hcount.symm
  have hresult : validateThemeStructure ((Heap.mk R F S m).files themeFiles) =
      { isValid := E.length == 0, errors := E,
        warnings := if big.length > 0 then W2 ++ [oversizeMessage big.length] else W2 } := by
    unfold validateThemeStructure
    simp only [hlen, ← hnames]
    subst hE hW1 hW2
    simp [oversizeMessage]
  rw [hresult]
  simp only [Heap.refs, ← hbig, ← hnames]

theorem refs_after (heap : Heap) (themeFiles : Nat) :
    (validateThemeStructureOn heap themeFiles).2.refs themeFiles = heap.refs themeFiles := by
  rw [validateThemeStructureOn_spec]
  show (heap.fileArrays ++ [(heap.refs themeFiles).filter heap.isLarge]).getD themeFiles [] =
    heap.fileArrays.getD themeFiles []
  by_cases h : themeFiles < heap.fileArrays.length
  · exact List.getD_append _ _ _ _ h
  · have hnone : heap.refs themeFiles = [] := by
      simp only [Heap.refs, List.getD_eq_getElem?_getD]
      rw [List.getElem?_eq_none (by omega)]; rfl
    rw [hnone]
    show (heap.fileArrays ++ [[]]).getD themeFiles [] = heap.fileArrays.getD themeFiles []
    have hright : heap.fileArrays.getD themeFiles [] = [] := by
      simp only [List.getD_eq_getElem?_getD]
      rw [List.getElem?_eq_none (by omega)]; rfl
    rw [hright]
    by_cases h2 : themeFiles = heap.fileArrays.length
    · subst h2; exact getD_files_after _ _
    · simp only [List.getD_eq_getElem?_getD]
      rw [List.getElem?_eq_none (by simp only [List.length_append, List.length_singleton]; omega)]
      rfl

theorem injectBrandingOn_writes :
    (injectBrandingOn Sample.acme
        { records := [{ name := "styles.css", partialUrl := "styles.css",
                        mimeType := "text/css", content := "" }],
          fileArrays := [[0]], stringArrays := [] } 0).1.records ≠
      [{ name := "styles.css", partialUrl := "styles.css",
         mimeType := "text/css", content := "" }] ∧
    (initializeMsal { records := [], fileArrays := [], stringArrays := [] }).msalClient ≠ false := by
  decide

/-- C22: a call of `validateThemeStructure` writes only to the arrays it creates
itself (`errors`, `warnings`, `fileNames`, `largeFiles`): every file record, every
array that existed before the call (the file list among them) and the field of the
service object are after the call what they were before it; the result is a function
of the files in the list alone; and a second call on the same list, made on the heap
the first call left, returns the same `isValid`, `errors` and `warnings`. -/
theorem validateThemeStructure_pure (heap : Heap) (themeFiles : Nat) :
    (validateThemeStructureOn heap themeFiles).2.records = heap.records ∧
    (validateThemeStructureOn heap themeFiles).2.msalClient = heap.msalClient ∧
    (∃ created, (validateThemeStructureOn heap themeFiles).2.fileArrays =
      heap.fileArrays ++ created) ∧
    (∃ created, (validateThemeStructureOn heap themeFiles).2.stringArrays =
      heap.stringArrays ++ created) ∧
    (∀ address, address < heap.fileArrays.length →
      (validateThemeStructureOn heap themeFiles).2.refs address = heap.refs address) ∧
    (∀ address, address < heap.stringArrays.length →
      (validateThemeStructureOn heap themeFiles).2.strings address = heap.strings address) ∧
    (validateThemeStructureOn heap themeFiles).2.refs themeFiles = heap.refs themeFiles ∧
    (validateThemeStructureOn heap themeFiles).2.files themeFiles = heap.files themeFiles ∧
    (validateThemeStructureOn heap themeFiles).1 =
      validateThemeStructure (heap.files themeFiles) ∧
    (validateThemeStructureOn (validateThemeStructureOn heap themeFiles).2 themeFiles).1 =
      (validateThemeStructureOn heap themeFiles).1 ∧
    (∀ (other : Heap) (otherFiles : Nat), other.files otherFiles = heap.files themeFiles →
      (validateThemeStructureOn other otherFiles).1 =
        (validateThemeStructureOn heap themeFiles).1) := by
  have hrefs := refs_after heap themeFiles
  have hrecords : (validateThemeStructureOn heap themeFiles).2.records = heap.records := by
    rw [validateThemeStructureOn_spec]
  have hfiles : (validateThemeStructureOn heap themeFiles).2.files themeFiles =
      heap.files themeFiles := by
    unfold Heap.files
    rw [hrefs, hrecords]
  refine ⟨hrecords, ?_, ?_, ?_, ?_, ?_, hrefs, hfiles, ?_, ?_, ?_⟩
  · rw [validateThemeStructureOn_spec]
  · rw [validateThemeStructureOn_spec]; exact ⟨_, rfl⟩
  · rw [validateThemeStructureOn_spec]; exact ⟨_, rfl⟩
  · intro address h
    rw [validateThemeStructureOn_spec]
    exact List.getD_append _ _ _ _ h
  · intro address h
    rw [validateThemeStructureOn_spec]
    exact List.getD_append _ _ _ _ h
  · rw [validateThemeStructureOn_spec]
  · rw [validateThemeStructureOn_spec (validateThemeStructureOn heap themeFiles).2, hfiles,
      validateThemeStructureOn_spec]
  · intro other otherFiles h
    rw [validateThemeStructureOn_spec, validateThemeStructureOn_spec, h]

/-! ## Properties of the deployment log -/

theorem appended_extends (before after : List LogEntry) (h : Appended before after) :
    before <+: after ∧ after.length = before.length + 1 := by
  obtain ⟨entry, rfl⟩ := h
  exact ⟨⟨[entry], rfl⟩, by simp⟩

theorem chain_appended_extends : ∀ (logs : List (List LogEntry)) (first : List LogEntry),
    List.Chain' Appended (first :: logs) → ∀ log ∈ first :: logs, first <+: log := by
  intro logs
  induction logs with
  | nil =>
    intro first _ log hlog
    rw [List.mem_singleton.mp hlog]
  | cons second rest ih =>
    intro first hchain log hlog
    rw [List.chain'_cons] at hchain
    rcases List.mem_cons.mp hlog with rfl | hlog
    · exact ⟨[], List.append_nil _⟩
    · exact (appended_extends _ _ hchain.1).1.trans (ih second hchain.2 log hlog)

theorem appendOnly_start (created : Theme) : AppendOnly created { theme := created } := by
  simp [AppendOnly, persistedLogs]

theorem appendOnly_push (created : Theme) (run run2 : Run) (entry : LogEntry)
    (h : AppendOnly created run) (hsaves : run2.saves = run.saves ++ [run2.theme])
    (hlogs : run2.theme.deployment.deploymentLogs =
      run.theme.deployment.deploymentLogs ++ [entry]) :
    AppendOnly created run2 := by
  obtain ⟨hlast, hchain⟩ := h
  have hp : persistedLogs created run2 =
      persistedLogs created run ++ [run2.theme.deployment.deploymentLogs] := by
    simp [persistedLogs, hsaves]
  unfold AppendOnly
  rw [hp]
  refine ⟨by simp, ?_⟩
  rw [List.chain'_append]
  refine ⟨hchain, List.chain'_singleton _, ?_⟩
  intro x hx y hy
  rw [hlast] at hx
  simp only [Option.mem_def, Option.some.injEq, List.head?_cons] at hx hy
  subst hx hy
  exact ⟨entry, hlogs⟩

theorem appendOnly_same (created : Theme) (run run2 : Run) (h : AppendOnly created run)
    (hsaves : run2.saves = run.saves) (htheme : run2.theme = run.theme) :
    AppendOnly created run2 := by
  unfold AppendOnly persistedLogs at *
  rw [hsaves, htheme]
  exact h

namespace Deploy

theorem processDeployment_appendOnly (world : World) (wizardData : WizardData)
    (branding : Option Branding) (theme : Theme) :
    List.Chain' Appended
      (persistedLogs theme (processDeployment world wizardData branding theme)) := by
  obtain ⟨run, hrun, hnone, hcase | ⟨message, hcase⟩⟩ := processDeployment_induction
    (AppendOnly theme) world wizardData branding theme (appendOnly_start theme)
    (fun run status message _ h => appendOnly_push theme run _ _ h rfl rfl)
    (fun run uploads requests h => appendOnly_same theme run _ h rfl rfl)
  · rw [hcase]
    unfold persistedLogs
    rw [(fail_unsaved world run world.saveError).1]
    exact hrun.2
  · rw [hcase]
    exact (appendOnly_push theme run (fail run message) _ hrun
      (congrArg Run.saves (fail_saved run message hnone)) (fail_theme run message).2.2).2

/-- C23: the record created by `POST /execute` has the log
`[Deployment initiated]`; `updateDeploymentStatus` and the completion and failure
branches of `processDeployment` each leave the log they find with one entry added at
its end; so along a run every persisted log is the one persisted before it with one
entry appended, the log of the created record is a prefix of every persisted log,
and every persisted log is non-empty and starts with `Deployment initiated`. -/
theorem logs_append_only :
    (∀ (wizardData : WizardData) (environmentUrl websiteId : String),
      (executeCreate wizardData environmentUrl websiteId).deployment.deploymentLogs =
        [{ level := "info", message := "Deployment initiated" }]) ∧
    (∀ (run : Run) (status message : String),
      (updateDeploymentStatus run status message).theme.deployment.deploymentLogs =
        run.theme.deployment.deploymentLogs ++ [{ level := "info", message := message }]) ∧
    (∀ (world : World) (run : Run),
      (complete world run).theme.deployment.deploymentLogs =
        run.theme.deployment.deploymentLogs ++
          [{ level := "success", message := "Deployment completed successfully!" }]) ∧
    (∀ (run : Run) (message : String),
      (fail run message).theme.deployment.deploymentLogs =
        run.theme.deployment.deploymentLogs ++
          [{ level := "error", message := "Deployment failed: " ++ message }]) ∧
    (∀ before after : List LogEntry, Appended before after →
      before <+: after ∧ after.length = before.length + 1) ∧
    (∀ (world : World) (wizardData : WizardData) (branding : Option Branding)
        (environmentUrl websiteId : String),
      List.Chain' Appended
        (persistedLogs (executeCreate wizardData environmentUrl websiteId)
          (processDeployment world wizardData branding
            (executeCreate wizardData environmentUrl websiteId))) ∧
      ∀ saved ∈ (processDeployment world wizardData branding
          (executeCreate wizardData environmentUrl websiteId)).saves,
        [{ level := "info", message := "Deployment initiated" }] <+:
          saved.deployment.deploymentLogs ∧
        saved.deployment.deploymentLogs.head? =
          some { level := "info", message := "Deployment initiated" } ∧
        saved.deployment.deploymentLogs ≠ []) := by
  refine ⟨fun _ _ _ => rfl, fun _ _ _ => rfl, fun _ _ => rfl,
    fun run message => (fail_theme run message).2.2, appended_extends, ?_⟩
  intro world wizardData branding environmentUrl websiteId
  have h := processDeployment_appendOnly world wizardData branding
    (executeCreate wizardData environmentUrl websiteId)
  refine ⟨h, ?_⟩
  intro saved hsaved
  have hpre := chain_appended_extends _ _ h saved.deployment.deploymentLogs
    (List.mem_cons_of_mem _ (List.mem_map_of_mem _ hsaved))
  have hpre2 : [({ level := "info", message := "Deployment initiated" } : LogEntry)] <+:
      saved.deployment.deploymentLogs := hpre
  obtain ⟨t, ht⟩ := hpre2
  refine ⟨⟨t, ht⟩, ?_, ?_⟩
  · rw [← ht]; rfl
  · rw [← ht]; simp

end Deploy

/-! ## Properties of a failure -/

theorem updateDeploymentStatus_failed_some (theme : Theme) (now : Nat) (message : String)
    (hmessage : message ≠ "") :
    (theme.updateDeploymentStatus now "failed" (some message)).deployment.status = "failed" ∧
      (theme.updateDeploymentStatus now "failed" (some message)).deployment.errorMessage =
        some message ∧
      (theme.updateDeploymentStatus now "failed" (some message)).deployment.deploymentLogs =
        theme.deployment.deploymentLogs ++ [{ level := "error", message := message }] := by
  have ht : truthy (some message) = true := by simp [truthy, hmessage]
  simp [Theme.updateDeploymentStatus, Theme.addDeploymentLog, ht, jsToString]

theorem updateDeploymentStatus_failed_falsy (theme : Theme) (now : Nat) (message : Option String)
    (hmessage : message = none ∨ message = some "") :
    theme.updateDeploymentStatus now "failed" message =
      { theme with deployment := { theme.deployment with status := "failed" } } := by
  rcases hmessage with rfl | rfl <;> rfl

/-- C24 (amended): after `Theme.updateDeploymentStatus('failed', message)` the status is
`failed`. With a non-empty message, `errorMessage` is that message and the log has
gained one `error`-level entry carrying it; with a null or empty message nothing
else changes: `errorMessage` and the log stay as they were. The failure branch of
`processThemeDeployment`, once the record is found again, persists the record so
updated: with a non-empty error message it has status `failed`, that message as
`errorMessage` and the `error`-level entry as its last log line. -/
theorem updateDeploymentStatus_failed (theme : Theme) (now : Nat) :
    (∀ message : Option String,
      (theme.updateDeploymentStatus now "failed" message).deployment.status = "failed") ∧
    (∀ message : String, message ≠ "" →
      (theme.updateDeploymentStatus now "failed" (some message)).deployment.errorMessage =
        some message ∧
      (theme.updateDeploymentStatus now "failed" (some message)).deployment.deploymentLogs =
        theme.deployment.deploymentLogs ++ [{ level := "error", message := message }]) ∧
    (∀ message : Option String, message = none ∨ message = some "" →
      (theme.updateDeploymentStatus now "failed" message).deployment.errorMessage =
        theme.deployment.errorMessage ∧
      (theme.updateDeploymentStatus now "failed" message).deployment.deploymentLogs =
        theme.deployment.deploymentLogs) ∧
    (∀ (world : Upload.World) (message : String), world.findThemeAgain = true →
      (Upload.handleFailure world theme message).saves =
        [theme.updateDeploymentStatus world.now "failed" (some message)] ∧
      (Upload.handleFailure world theme message).theme =
        theme.updateDeploymentStatus world.now "failed" (some message)) := by
  refine ⟨?_, ?_, ?_, ?_⟩
  · intro message
    exact Upload.updateDeploymentStatus_status theme now "failed" message
  · intro message hmessage
    exact (updateDeploymentStatus_failed_some theme now message hmessage).2
  · intro message hmessage
    rw [updateDeploymentStatus_failed_falsy theme now message hmessage]
    exact ⟨rfl, rfl⟩
  · intro world message hfound
    unfold Upload.handleFailure
    rw [if_pos hfound]
    split_ifs <;> exact ⟨rfl, rfl⟩

/-- C24 (counterexample): called with no message (the default `null`), or with the
empty message of a caught error, `updateDeploymentStatus('failed', ...)` leaves a
record with status `failed`, no `errorMessage` and no `error`-level log entry. -/
theorem updateDeploymentStatus_failed_silent :
    ((Upload.uploadCreate "Mine").updateDeploymentStatus 1700000000 "failed" none).deployment =
        { status := "failed", errorMessage := none, deploymentLogs := [] } ∧
    (Upload.processThemeDeployment
        { findTheme := .error "", findUser := .ok true, findThemeAgain := true,
          findUserAgain := true, uuid := "0f8fad5b-d9cb-469f-a165-70867728950e",
          now := 1700000000 }
        (Upload.uploadCreate "Mine")).saves.map (fun t => t.deployment) =
      [{ status := "failed", errorMessage := none, deploymentLogs := [] }] := by
  decide

namespace Deploy

theorem processDeploymentTry_invalid (world : World) (wizardData : WizardData)
    (branding : Option Branding) (theme : Theme) (themeFiles : List ThemeFile)
    (hload : (loadThemeFiles world wizardData { theme := theme }).1 = .ok themeFiles)
    (hinvalid : (validateThemeStructure themeFiles).isValid = false) :
    ∃ run2,
      processDeploymentTry world wizardData branding { theme := theme } =
        (some ("Theme validation failed: " ++
          ", ".intercalate (validateThemeStructure themeFiles).errors), run2) ∧
      (run2 = updateDeploymentStatus { theme := theme } "validating" "Validating theme structure..." ∨
        ∃ m, run2 = updateDeploymentStatus
          (updateDeploymentStatus { theme := theme } "validating" "Validating theme structure...")
          "validating" m) := by
  have hfst := loadThemeFiles_fst world wizardData
    (updateDeploymentStatus { theme := theme } "validating" "Validating theme structure...")
    { theme := theme }
  have hsnd := loadThemeFiles_snd world wizardData
    (updateDeploymentStatus { theme := theme } "validating" "Validating theme structure...")
  unfold processDeploymentTry
  rcases hl : loadThemeFiles world wizardData
    (updateDeploymentStatus { theme := theme } "validating" "Validating theme structure...")
    with ⟨res, run2⟩
  rw [hl] at hfst hsnd
  simp only at hfst hsnd ⊢
  rw [hload] at hfst
  subst hfst
  simp only [hinvalid]
  exact ⟨run2, rfl, hsnd⟩

theorem invalid_errors (themeFiles : List ThemeFile)
    (hinvalid : (validateThemeStructure themeFiles).isValid = false) :
    (validateThemeStructure themeFiles).errors = [missingIndexMessage] := by
  have hv : (validateThemeStructure themeFiles).isValid =
      ((validateThemeStructure themeFiles).errors.length == 0) := rfl
  rw [hv, errors_eq] at hinvalid
  rw [errors_eq]
  split_ifs at hinvalid ⊢
  · simp at hinvalid
  · rfl

/-- C25 (amended): when the files are obtained and fail validation, the run of
`processDeployment` ends `failed` and the persisted `errorMessage` is
`Theme validation failed: ` followed by the validator's errors joined with `, `,
that is `Theme validation failed: Missing index.html - every theme must have an
entry point`; the last log entry is the `error`-level entry `Deployment failed: `
followed by this message. -/
theorem processDeployment_invalid_message (world : World) (wizardData : WizardData)
    (branding : Option Branding) (theme : Theme) (themeFiles : List ThemeFile)
    (hload : (loadThemeFiles world wizardData { theme := theme }).1 = .ok themeFiles)
    (hinvalid : (validateThemeStructure themeFiles).isValid = false) :
    (processDeployment world wizardData branding theme).theme.deployment.status = "failed" ∧
      (processDeployment world wizardData branding theme).theme.deployment.errorMessage =
        some ("Theme validation failed: " ++
          ", ".intercalate (validateThemeStructure themeFiles).errors) ∧
      (validateThemeStructure themeFiles).errors = [missingIndexMessage] ∧
      (processDeployment world wizardData branding theme).theme.deployment.errorMessage =
        some ("Theme validation failed: " ++
          "Missing index.html - every theme must have an entry point") ∧
      (processDeployment world wizardData branding theme).saves.getLast? =
        some (processDeployment world wizardData branding theme).theme ∧
      (processDeployment world wizardData branding theme).theme.deployment.deploymentLogs.getLast? =
        some { level := "error",
               message := "Deployment failed: " ++ ("Theme validation failed: " ++
                 ", ".intercalate (validateThemeStructure themeFiles).errors) } := by
  obtain ⟨run2, htry, hrun2⟩ :=
    processDeploymentTry_invalid world wizardData branding theme themeFiles hload hinvalid
  have herrors := invalid_errors themeFiles hinvalid
  have hjoin : ", ".intercalate [missingIndexMessage] =
      "Missing index.html - every theme must have an entry point" := by decide
  unfold processDeployment
  rw [htry]
  rw [herrors, hjoin]
  rcases hrun2 with rfl | ⟨m, rfl⟩
  · simp [fail, updateDeploymentStatus]
  · simp [fail, updateDeploymentStatus]

/-- Witness for C25 (amended): an archive that holds a text file only. -/
theorem processDeployment_invalid_message_witness :
    (processDeployment
        (Sample.worldWith [{ isDirectory := false, entryName := "readme.txt",
                             data := some [104, 105] }] Sample.accepting)
        Sample.fromUpload none
        (executeCreate Sample.fromUpload "https://env" "site")).theme.deployment.errorMessage =
      some ("Theme validation failed: " ++
        "Missing index.html - every theme must have an entry point") :=
  (processDeployment_invalid_message
    (Sample.worldWith [{ isDirectory := false, entryName := "readme.txt",
                         data := some [104, 105] }] Sample.accepting)
    Sample.fromUpload none (executeCreate Sample.fromUpload "https://env" "site")
    [{ name := "readme.txt", partialUrl := "readme.txt", mimeType := "application/octet-stream",
       content := "aGk=" }]
    rfl (by decide)).2.2.2.1

/-- C25 (counterexample): for an archive that holds a text file only, the validator's
errors joined together are `Missing index.html - every theme must have an entry
point`, whereas the persisted `errorMessage` carries the prefix
`Theme validation failed: `. -/
theorem processDeployment_invalid_prefixed :
    (extractThemeFromZip
        (some [{ isDirectory := false, entryName := "readme.txt",
                 data := some [104, 105] }])).toOption.map
        (fun files => ", ".intercalate (validateThemeStructure files).errors) =
      some "Missing index.html - every theme must have an entry point" ∧
    (processDeployment
        (Sample.worldWith [{ isDirectory := false, entryName := "readme.txt",
                             data := some [104, 105] }] Sample.accepting)
        Sample.fromUpload none
        (executeCreate Sample.fromUpload "https://env" "site")).saves.map
        (fun t => (t.deployment.status, t.deployment.errorMessage)) =
      [("validating", none),
       ("failed", some
         "Theme validation failed: Missing index.html - every theme must have an entry point")] ∧
    "Theme validation failed: Missing index.html - every theme must have an entry point" ≠
      "Missing index.html - every theme must have an entry point" := by
  decide

end Deploy

/-! ## Properties of the completion -/

theorem updateDeploymentStatus_deployedAt (theme : Theme) (now : Nat) (status : String)
    (message : Option String) :
    (theme.updateDeploymentStatus now status message).deployment.deployedAt =
      if status = "completed" then some now else theme.deployment.deployedAt := by
  by_cases h : status = "completed"
  · subst h
    cases htm : truthy message <;>
      simp [Theme.updateDeploymentStatus, Theme.addDeploymentLog, htm]
  · by_cases hf : status = "failed"
    · subst hf
      cases htm : truthy message <;>
        simp [Theme.updateDeploymentStatus, Theme.addDeploymentLog, htm]
    · cases htm : truthy message <;>
        simp [Theme.updateDeploymentStatus, Theme.addDeploymentLog, htm, h, hf]

namespace Deploy

theorem fail_frame (run : Run) (message : String) :
    (fail run message).theme.deployment.completedAt = run.theme.deployment.completedAt ∧
      (fail run message).theme.deployment.deployedAt = run.theme.deployment.deployedAt ∧
      (fail run message).theme.deployment.powerPagesWebsiteUrl =
        run.theme.deployment.powerPagesWebsiteUrl ∧
      (fail run message).theme.deployment.powerPagesWebsiteId =
        run.theme.deployment.powerPagesWebsiteId ∧
      (fail run message).theme.deployment.powerPagesEnvironmentUrl =
        run.theme.deployment.powerPagesEnvironmentUrl := by
  unfold fail
  cases run.rejected <;> exact ⟨rfl, rfl, rfl, rfl, rfl⟩

theorem processDeployment_saved_frame (world : World) (wizardData : WizardData)
    (branding : Option Branding) (theme : Theme) :
    ∀ saved ∈ (processDeployment world wizardData branding theme).saves,
      saved.deployment.status ∈ ["validating", "creating_site", "deploying", "failed"] ∧
      saved.deployment.completedAt = theme.deployment.completedAt ∧
      saved.deployment.deployedAt = theme.deployment.deployedAt ∧
      saved.deployment.powerPagesWebsiteUrl = theme.deployment.powerPagesWebsiteUrl ∧
      saved.deployment.powerPagesWebsiteId = theme.deployment.powerPagesWebsiteId ∧
      saved.deployment.powerPagesEnvironmentUrl = theme.deployment.powerPagesEnvironmentUrl := by
  obtain ⟨run, ⟨⟨-, h2, h3, h4, h5, h6, -⟩, hsaves⟩, hnone, hcase | ⟨message, hcase⟩⟩ :=
    processDeployment_before_end world wizardData branding theme
  · rw [hcase, (fail_unsaved world run world.saveError).1]
    intro saved hsaved
    obtain ⟨hs, -, a, b, c, d, e, -⟩ := hsaves saved hsaved
    refine ⟨?_, a, b, c, d, e⟩
    simp only [List.mem_cons, List.mem_singleton, List.not_mem_nil, or_false] at hs ⊢
    tauto
  · rw [hcase, fail_saved run message hnone]
    intro saved hsaved
    simp only [List.mem_append, List.mem_singleton] at hsaved
    rcases hsaved with hsaved | rfl
    · obtain ⟨hs, -, a, b, c, d, e, -⟩ := hsaves saved hsaved
      refine ⟨?_, a, b, c, d, e⟩
      simp only [List.mem_cons, List.mem_singleton, List.not_mem_nil, or_false] at hs ⊢
      tauto
    · obtain ⟨a, b, c, d, e⟩ := fail_frame run message
      refine ⟨?_, a.trans h2, b.trans h3, c.trans h4, d.trans h5, e.trans h6⟩
      rw [(fail_theme run message).1]
      decide

/-- C26 (the code at the failing input): the deployment of the gallery theme to a
remote that accepts every upload performs the completion step, which sets the
status `completed`, the URL `https://site.powerappsportals.com` and the
`success`-level entry on the record in memory, and whose `save()` is rejected: the
records stored have the statuses `validating` (three times), `creating_site`,
`deploying`, none has a completion timestamp or a website URL, and the record in memory ends `failed`
with the message of the rejected `save()`, with the URL of the completion and with
the `success` entry followed by the `error` entry. In no run at all is a record
stored with the status `completed`, with a completion timestamp or with a website
URL, and every record stored keeps the website identifier of the created record,
which holds no environment URL. `Theme.updateDeploymentStatus` writes `deployedAt`
exactly when the status is `completed`. -/
theorem completion_never_stored :
    (processDeployment (Sample.world Sample.accepting) Sample.fromGallery none
        (executeCreate Sample.fromGallery "https://env" "site")).saves.map
        (fun t => (t.deployment.status, t.deployment.completedAt, t.deployment.deployedAt,
          t.deployment.powerPagesWebsiteUrl)) =
      [("validating", none, none, none), ("validating", none, none, none),
       ("validating", none, none, none), ("creating_site", none, none, none),
       ("deploying", none, none, none)] ∧
    (processDeployment (Sample.world Sample.accepting) Sample.fromGallery none
        (executeCreate Sample.fromGallery "https://env" "site")).rejected =
      some (Sample.world Sample.accepting).saveError ∧
    (processDeployment (Sample.world Sample.accepting) Sample.fromGallery none
        (executeCreate Sample.fromGallery "https://env" "site")).theme.deployment.status =
      "failed" ∧
    (processDeployment (Sample.world Sample.accepting) Sample.fromGallery none
        (executeCreate Sample.fromGallery "https://env" "site")).theme.deployment.errorMessage =
      some (Sample.world Sample.accepting).saveError ∧
    (processDeployment (Sample.world Sample.accepting) Sample.fromGallery none
        (executeCreate Sample.fromGallery "https://env"
          "site")).theme.deployment.powerPagesWebsiteUrl =
      some "https://site.powerappsportals.com" ∧
    (processDeployment (Sample.world Sample.accepting) Sample.fromGallery none
        (executeCreate Sample.fromGallery "https://env"
          "site")).theme.deployment.deploymentLogs.map (fun e => e.level) =
      ["info", "info", "info", "info", "info", "info", "success", "error"] ∧
    (∀ (world : World) (wizardData : WizardData) (branding : Option Branding)
        (environmentUrl websiteId : String),
      ∀ saved ∈ (processDeployment world wizardData branding
          (executeCreate wizardData environmentUrl websiteId)).saves,
        saved.deployment.status ≠ "completed" ∧ saved.deployment.completedAt = none ∧
        saved.deployment.deployedAt = none ∧ saved.deployment.powerPagesWebsiteUrl = none ∧
        saved.deployment.powerPagesWebsiteId = some websiteId ∧
        saved.deployment.powerPagesEnvironmentUrl = none) ∧
    (∀ (theme : Theme) (now : Nat) (status : String) (message : Option String),
      (theme.updateDeploymentStatus now status message).deployment.deployedAt =
        if status = "completed" then some now else theme.deployment.deployedAt) := by
  refine ⟨by decide, by decide, by decide, by decide, by decide, by decide, ?_,
    updateDeploymentStatus_deployedAt⟩
  intro world wizardData branding environmentUrl websiteId saved hsaved
  obtain ⟨hs, a, b, c, d, e⟩ := processDeployment_saved_frame world wizardData branding
    (executeCreate wizardData environmentUrl websiteId) saved hsaved
  refine ⟨?_, a, b, c, d, e⟩
  intro h
  rw [h] at hs
  exact absurd hs (by decide)

/-- C29 (the code at the failing input): in the deployment of the gallery theme to a
remote that accepts every upload, the completion step pushes an entry of the level
`success`, which is not in the level enumeration of the theme schema, so the
`save()` of that record is rejected: the record stored last has the status
`deploying` and entries of the level `info` only, and the record in memory, which
holds the `success` entry, is never stored. Every other level written by `deploy.js`
is in the enumeration. -/
theorem completion_level_outside_schema :
    (complete (Sample.world Sample.accepting)
        { theme := executeCreate Sample.fromGallery "https://env"
            "site" }).theme.deployment.deploymentLogs.getLast?.map (fun e => e.level) =
      some "success" ∧
    (processDeployment (Sample.world Sample.accepting) Sample.fromGallery none
        (executeCreate Sample.fromGallery "https://env"
          "site")).theme.deployment.deploymentLogs.map (fun e => e.level) =
      ["info", "info", "info", "info", "info", "info", "success", "error"] ∧
    (processDeployment (Sample.world Sample.accepting) Sample.fromGallery none
        (executeCreate Sample.fromGallery "https://env" "site")).rejected =
      some "Theme validation failed" ∧
    (processDeployment (Sample.world Sample.accepting) Sample.fromGallery none
        (executeCreate Sample.fromGallery "https://env" "site")).saves.getLast?.map
        (fun t => (t.deployment.status, t.deployment.deploymentLogs.map (fun e => e.level))) =
      some ("deploying", ["info", "info", "info", "info", "info", "info"]) ∧
    "success" ∉ logLevels ∧ "info" ∈ logLevels ∧ "error" ∈ logLevels := by
  decide

end Deploy

/-! ## Properties of the archive extractor -/

theorem mimeTypeOf_other (ext : String) (h : ext ∉ mimeTypes.map Prod.fst) :
    mimeTypeOf ext = "application/octet-stream" := by
  have hnone : mimeTypes.lookup ext = none := by
    rw [List.lookup_eq_none_iff]
    intro p hp
    simp only [bne_iff_ne, ne_eq]
    intro heq
    exact h (List.mem_map.mpr ⟨p, hp, heq.symm⟩)
  simp [mimeTypeOf, hnone]

theorem extractEntries_eq : ∀ (entries : List ZipEntry),
    (∀ e ∈ entries, e.isDirectory = false → ∃ bytes, e.data = some bytes) →
    extractEntries entries =
      some ((entries.filter (fun e => !e.isDirectory)).map (fun e =>
        { name := e.entryName, partialUrl := e.entryName,
          mimeType := mimeTypeOf (toLowerCase (extname e.entryName)),
          content := base64Encode (e.data.getD []) })) := by
  intro entries
  induction entries with
  | nil => intro _; rfl
  | cons entry rest ih =>
    intro hdata
    have hrest := ih (fun e he => hdata e (List.mem_cons_of_mem _ he))
    by_cases hdir : entry.isDirectory = true
    · simp [extractEntries, hdir, hrest]
    · have hfile : entry.isDirectory = false := by simpa using hdir
      obtain ⟨bytes, hbytes⟩ := hdata entry (List.mem_cons_self _ _) hfile
      simp [extractEntries, hfile, hbytes, hrest]

/-- C27: for an archive that can be read (every entry that is not a directory yields
its bytes), `extractThemeFromZip` returns the records of the entries that are not
directories, one for each and in the order of the archive: `name` and `partialUrl`
are the entry name, `content` decodes to the bytes of the entry, and `mimeType` is
the value of the table at the lower-cased `path.extname` of the name, or
`application/octet-stream` for an extension outside the table. -/
theorem extractThemeFromZip_records (entries : List ZipEntry)
    (hdata : ∀ e ∈ entries, e.isDirectory = false →
      ∃ bytes, e.data = some bytes ∧ ∀ b ∈ bytes, b < 256) :
    (∃ themeFiles, extractThemeFromZip (some entries) = .ok themeFiles ∧
      List.Forall₂
        (fun (e : ZipEntry) (f : ThemeFile) =>
          f.name = e.entryName ∧ f.partialUrl = e.entryName ∧
          f.mimeType = mimeTypeOf (toLowerCase (extname e.entryName)) ∧
          some (base64Decode f.content) = e.data)
        (entries.filter (fun e => !e.isDirectory)) themeFiles ∧
      themeFiles.length = (entries.filter (fun e => !e.isDirectory)).length ∧
      themeFiles.map (fun f => f.name) =
        (entries.filter (fun e => !e.isDirectory)).map (fun e => e.entryName)) ∧
    (∀ p ∈ [(".html", "text/html"), (".htm", "text/html"), (".css", "text/css"),
        (".js", "application/javascript"), (".json", "application/json"),
        (".png", "image/png"), (".jpg", "image/jpeg"), (".jpeg", "image/jpeg"),
        (".gif", "image/gif"), (".svg", "image/svg+xml"), (".webp", "image/webp"),
        (".woff", "font/woff"), (".woff2", "font/woff2"), (".ttf", "font/ttf"),
        (".eot", "application/vnd.ms-fontobject")], mimeTypeOf p.1 = p.2) ∧
    (∀ ext : String,
      ext ∉ [".html", ".htm", ".css", ".js", ".json", ".png", ".jpg", ".jpeg", ".gif", ".svg",
        ".webp", ".woff", ".woff2", ".ttf", ".eot"] →
      mimeTypeOf ext = "application/octet-stream") ∧
    (mimeTypeOf (toLowerCase (extname "css/Site.CSS")) = "text/css" ∧
      mimeTypeOf (toLowerCase (extname "fonts/inter.v2.woff2")) = "font/woff2" ∧
      mimeTypeOf (toLowerCase (extname "README")) = "application/octet-stream" ∧
      mimeTypeOf (toLowerCase (extname ".htaccess")) = "application/octet-stream") := by
  refine ⟨?_, by decide, fun ext hext => mimeTypeOf_other ext hext, by decide⟩
  have heq := extractEntries_eq entries (fun e he hfile => by
    obtain ⟨bytes, hbytes, -⟩ := hdata e he hfile
    exact ⟨bytes, hbytes⟩)
  have hok : extractThemeFromZip (some entries) =
      .ok ((entries.filter (fun e => !e.isDirectory)).map (fun e =>
        { name := e.entryName, partialUrl := e.entryName,
          mimeType := mimeTypeOf (toLowerCase (extname e.entryName)),
          content := base64Encode (e.data.getD []) })) := by
    simp only [extractThemeFromZip, Option.bind, heq]
  refine ⟨_, hok, ?_, by simp, ?_⟩
  · rw [List.forall₂_map_right_iff]
    apply List.forall₂_same.mpr
    intro e he
    obtain ⟨hmem, hfile⟩ := List.mem_filter.mp he
    obtain ⟨bytes, hbytes, hlt⟩ := hdata e hmem (by simpa using hfile)
    refine ⟨rfl, rfl, rfl, ?_⟩
    simp only [hbytes, Option.getD_some]
    rw [base64Decode_base64Encode bytes hlt]
  · simp [List.map_map, Function.comp_def]

/-- Witness for C27: an archive with a directory, a style sheet in upper case, a page
and a file without extension. -/
theorem extractThemeFromZip_records_witness :
    ∃ themeFiles,
      extractThemeFromZip (some
        [{ isDirectory := true, entryName := "css/", data := some [] },
         { isDirectory := false, entryName := "css/Site.CSS", data := some [97, 123, 125] },
         { isDirectory := false, entryName := "index.html", data := some [60, 112, 62] },
         { isDirectory := false, entryName := "README", data := some [104, 105] }]) =
        .ok themeFiles ∧
      themeFiles.map (fun f => f.name) = ["css/Site.CSS", "index.html", "README"] :=
  have h := (extractThemeFromZip_records
    [{ isDirectory := true, entryName := "css/", data := some [] },
     { isDirectory := false, entryName := "css/Site.CSS", data := some [97, 123, 125] },
     { isDirectory := false, entryName := "index.html", data := some [60, 112, 62] },
     { isDirectory := false, entryName := "README", data := some [104, 105] }]
    (by decide)).1
  h.imp fun _ hf => ⟨hf.1, hf.2.2.2⟩

/-! ## Letter case in the validator and in the injector -/

theorem endsWith_exclusive (name a b : String) (ha : endsWith name a = true)
    (hab : a.data.isSuffixOf b.data = false) (hba : b.data.isSuffixOf a.data = false) :
    endsWith name b = false := by
  by_contra hb
  have hb2 : endsWith name b = true := by simpa using hb
  rw [endsWith_iff] at ha hb2
  rcases List.suffix_or_suffix_of_suffix ha hb2 with h | h
  · rw [← List.isSuffixOf_iff_suffix, hab] at h
    cases h
  · rw [← List.isSuffixOf_iff_suffix, hba] at h
    cases h

/-- C30: `validateThemeStructure` compares lower-cased names, so a list that holds a
file named `INDEX.HTML` draws no missing-entry-point error and is valid, whereas
`injectBranding` tests the endings `.html`, `.htm` and `.css` as written, so a file
whose name ends in `.HTML`, `.HTM` or `.CSS` is returned as it is, with its content
unchanged, for every branding profile. -/
theorem case_disagreement (themeFiles : List ThemeFile) (branding : Branding) :
    ((∃ f ∈ themeFiles, f.name = "INDEX.HTML") →
      missingIndexMessage ∉ (validateThemeStructure themeFiles).errors ∧
      (validateThemeStructure themeFiles).errors = [] ∧
      (validateThemeStructure themeFiles).isValid = true) ∧
    (∀ (i : Nat) (file : ThemeFile), themeFiles[i]? = some file →
      (endsWith file.name ".HTML" = true ∨ endsWith file.name ".HTM" = true ∨
        endsWith file.name ".CSS" = true) →
      (injectBranding themeFiles branding)[i]? = some file) := by
  constructor
  · rintro ⟨f, hf, hname⟩
    have hany : (themeFiles.any fun f => isIndexName (toLowerCase f.name)) = true := by
      rw [List.any_eq_true]
      exact ⟨f, hf, by rw [hname]; decide⟩
    have herr : (validateThemeStructure themeFiles).errors = [] := by
      rw [errors_eq, if_pos hany]
    have hv : (validateThemeStructure themeFiles).isValid =
        ((validateThemeStructure themeFiles).errors.length == 0) := rfl
    refine ⟨by rw [herr]; exact List.not_mem_nil _, herr, by rw [hv, herr]; rfl⟩
  · intro i file hfile hcase
    have hsame : injectBrandingFile branding file = file := by
      rcases hcase with h | h | h
      · exact injectBrandingFile_other branding file
          (endsWith_exclusive _ _ _ h (by decide) (by decide))
          (endsWith_exclusive _ _ _ h (by decide) (by decide))
          (endsWith_exclusive _ _ _ h (by decide) (by decide))
      · exact injectBrandingFile_other branding file
          (endsWith_exclusive _ _ _ h (by decide) (by decide))
          (endsWith_exclusive _ _ _ h (by decide) (by decide))
          (endsWith_exclusive _ _ _ h (by decide) (by decide))
      · exact injectBrandingFile_other branding file
          (endsWith_exclusive _ _ _ h (by decide) (by decide))
          (endsWith_exclusive _ _ _ h (by decide) (by decide))
          (endsWith_exclusive _ _ _ h (by decide) (by decide))
    simp only [injectBranding, List.getElem?_map, hfile, Option.map_some', hsame]

/-- Witness for C30: a theme whose page and style sheet are named in upper case is
valid, and both files come back with their placeholders in place. -/
theorem case_disagreement_witness :
    (validateThemeStructure
        [{ name := "INDEX.HTML", partialUrl := "INDEX.HTML", mimeType := "text/html",
           content := encodeContent "<h1>\x7b\x7bORG_NAME\x7d\x7d</h1>" },
         { name := "SITE.CSS", partialUrl := "SITE.CSS", mimeType := "text/css",
           content := encodeContent "body\x7b\x7d" }]).isValid = true ∧
    (injectBranding
        [{ name := "INDEX.HTML", partialUrl := "INDEX.HTML", mimeType := "text/html",
           content := encodeContent "<h1>\x7b\x7bORG_NAME\x7d\x7d</h1>" },
         { name := "SITE.CSS", partialUrl := "SITE.CSS", mimeType := "text/css",
           content := encodeContent "body\x7b\x7d" }] Sample.acme)[1]? =
      some { name := "SITE.CSS", partialUrl := "SITE.CSS", mimeType := "text/css",
             content := encodeContent "body\x7b\x7d" } :=
  ⟨((case_disagreement _ Sample.acme).1 ⟨_, List.mem_cons_self _ _, rfl⟩).2.2,
    (case_disagreement _ Sample.acme).2 1 _ rfl (Or.inr (Or.inr (by decide)))⟩

/-! ## The deployment of a branded theme, end to end -/

namespace Deploy

theorem siteArchive_files (html css : String) :
    extractThemeFromZip (some (Sample.siteArchive html css)) =
      .ok (Sample.siteFiles html css) := by
  have h1 : mimeTypeOf (toLowerCase (extname "index.html")) = "text/html" := by decide
  have h2 : mimeTypeOf (toLowerCase (extname "styles.css")) = "text/css" := by decide
  simp only [extractThemeFromZip, Option.bind, Sample.siteArchive, extractEntries,
    Bool.false_eq_true, if_false, h1, h2, encodeContent, Sample.siteFiles]

theorem siteArchive_load (html css environmentUrl websiteId : String) (remote : Remote) :
    (loadThemeFiles (Sample.worldWith (Sample.siteArchive html css) remote)
      Sample.fromUpload { theme := executeCreate Sample.fromUpload environmentUrl websiteId }).1 =
    .ok (Sample.siteFiles html css) := by
  have hsource : (Sample.fromUpload.themeSource == "gallery") = false := by decide
  have hfile : truthy Sample.fromUpload.uploadedFile = true := by decide
  simp only [loadThemeFiles, hsource, hfile, Bool.false_eq_true, if_false, if_true,
    Sample.worldWith, siteArchive_files]

theorem siteFiles_valid (html css : String) :
    (validateThemeStructure (Sample.siteFiles html css)).isValid = true := by
  have hv : ∀ files, (validateThemeStructure files).isValid =
      ((validateThemeStructure files).errors.length == 0) := fun _ => rfl
  have hidx : isIndexName (toLowerCase "index.html") = true := by decide
  rw [hv, errors_eq]
  simp [Sample.siteFiles, hidx]

theorem siteFiles_branded (html css : String) :
    brandedFiles (Sample.siteFiles html css) (some Sample.acme) =
      [{ name := "index.html", partialUrl := "index.html", mimeType := "text/html",
         content := encodeContent
           (replaceLiteral "\x7b\x7bACCENT_COLOR\x7d\x7d" "#06b6d4"
             (replaceLiteral "\x7b\x7bSECONDARY_COLOR\x7d\x7d" "#1e40af"
               (replaceLiteral "\x7b\x7bPRIMARY_COLOR\x7d\x7d" "#ff0000"
                 (replaceLiteral "\x7b\x7bORG_NAME\x7d\x7d" "Acme" html)))) },
       { name := "styles.css", partialUrl := "styles.css", mimeType := "text/css",
         content := encodeContent (cssVars { primary := some "#ff0000" } ++ css) }] := by
  have hhtml : ∀ text, injectHtml Sample.acme text =
      replaceToken "\x7b\x7bACCENT_COLOR\x7d\x7d" "#06b6d4"
        (replaceToken "\x7b\x7bSECONDARY_COLOR\x7d\x7d" "#1e40af"
          (replaceToken "\x7b\x7bPRIMARY_COLOR\x7d\x7d" "#ff0000"
            (replaceToken "\x7b\x7bORG_NAME\x7d\x7d" "Acme" text))) := fun _ => rfl
  have hcss : ∀ text, injectCss Sample.acme text =
      cssVars { primary := some "#ff0000" } ++ text := fun _ => rfl
  have hlist : brandedFiles (Sample.siteFiles html css) (some Sample.acme) =
      [injectBrandingFile Sample.acme
         { name := "index.html", partialUrl := "index.html", mimeType := "text/html",
           content := encodeContent html },
       injectBrandingFile Sample.acme
         { name := "styles.css", partialUrl := "styles.css", mimeType := "text/css",
           content := encodeContent css }] := rfl
  rw [hlist,
    injectBrandingFile_html _ _ (Or.inl (show endsWith "index.html" ".html" = true by decide)),
    injectBrandingFile_css _ _ (show endsWith "styles.css" ".css" = true by decide)]
  simp only [decodeContent_encodeContent, hhtml, hcss]
  rw [replaceToken_eq_replaceLiteral _ _ _ (by decide) (by decide),
    replaceToken_eq_replaceLiteral _ _ _ (by decide) (by decide),
    replaceToken_eq_replaceLiteral _ _ _ (by decide) (by decide),
    replaceToken_eq_replaceLiteral _ _ _ (by decide) (by decide)]

theorem uploadWebFile_accepting (i : Nat) (environmentUrl websiteId : String)
    (file : ThemeFile) :
    (uploadWebFile Sample.accepting i environmentUrl websiteId file).1 =
      .ok (.object (some "id")) := by
  have hok : Response.ok { status := 201, body := .ok (.object (some "id")) } = true := by
    decide
  have h204 : ¬ (201 : Nat) = 204 := by decide
  unfold uploadWebFile dataverseRequest getAccessToken
  simp only [Sample.accepting, hok, Bool.not_true, Bool.false_eq_true, if_false, h204]
  split_ifs <;> rfl

theorem uploadLoop_accepting (environmentUrl websiteId : String) :
    ∀ (files : List ThemeFile) (i : Nat) (st : UploadState),
      (uploadLoop Sample.accepting environmentUrl websiteId i files st).errorCount =
          st.errorCount ∧
        (uploadLoop Sample.accepting environmentUrl websiteId i files st).successCount =
          st.successCount + files.length ∧
        (uploadLoop Sample.accepting environmentUrl websiteId i files st).deploymentLog =
          st.deploymentLog ++ files.map (fun f => { file := f.name, status := "success" }) := by
  intro files
  induction files with
  | nil => intro i st; simp [uploadLoop]
  | cons file rest ih =>
    intro i st
    have h := uploadWebFile_accepting i environmentUrl websiteId file
    rw [uploadLoop]
    rcases hu : uploadWebFile Sample.accepting i environmentUrl websiteId file with ⟨res, sent⟩
    rw [hu] at h
    simp only at h
    subst h
    simp only
    obtain ⟨h1, h2, h3⟩ := ih (i + 1)
      { successCount := st.successCount + 1, errorCount := st.errorCount,
        deploymentLog := st.deploymentLog ++ [{ file := file.name, status := "success" }],
        attempted := st.attempted ++ [file], sent := st.sent ++ sent }
    rw [h1, h2, h3]
    simp [Nat.add_assoc, Nat.add_comm 1]

theorem progress_of_status (theme : Theme) :
    (theme.deployment.status = "deploying" → theme.deploymentProgress = 70) ∧
      (theme.deployment.status = "failed" → theme.deploymentProgress = 0) ∧
      (theme.deployment.status ∈ ["validating", "creating_site", "deploying", "failed"] →
        theme.deploymentProgress ≠ 100) := by
  unfold Theme.deploymentProgress
  refine ⟨fun h => by rw [h]; decide, fun h => by rw [h]; decide, fun h => ?_⟩
  simp only [List.mem_cons, List.mem_singleton, List.not_mem_nil, or_false] at h
  rcases h with h | h | h | h <;> rw [h] <;> decide

set_option maxRecDepth 16000 in
/-- C28 (the code at the failing input): end to end, for the archive of `index.html`
and `styles.css` with any texts, the branding
`{organizationName: 'Acme', colors: {primary: '#ff0000'}}` and a remote that accepts
every upload. The page handed to the upload is the text with every `{{ORG_NAME}}`
replaced by `Acme` and every `{{PRIMARY_COLOR}}` by `#ff0000`, the style sheet is the
`:root` block, whose first property is `--brand-primary: #ff0000`, followed by the
original text, and both uploads are logged as successes; for the page
`<h1 style="color:{{PRIMARY_COLOR}}">{{ORG_NAME}}</h1>` and the sheet
`body { margin: 0 }` the four requests sent carry these texts as `documentbody` and
are addressed to `undefined/api/data/v9.2/...`, the record holding no environment
URL. The `save()` of the completion step is rejected: the run ends with the status
`failed` and the message of the rejected `save()` in memory, where the progress is
0; the record stored last has the status `deploying`, for which the progress
reported is 70; and no record is stored with the status `completed` or with the
progress 100. -/
theorem branded_deployment_rejected (html css environmentUrl websiteId : String) :
    (Sample.acmeRun html css environmentUrl websiteId).uploads =
      [{ name := "index.html", partialUrl := "index.html", mimeType := "text/html",
         content := encodeContent
           (replaceLiteral "\x7b\x7bACCENT_COLOR\x7d\x7d" "#06b6d4"
             (replaceLiteral "\x7b\x7bSECONDARY_COLOR\x7d\x7d" "#1e40af"
               (replaceLiteral "\x7b\x7bPRIMARY_COLOR\x7d\x7d" "#ff0000"
                 (replaceLiteral "\x7b\x7bORG_NAME\x7d\x7d" "Acme" html)))) },
       { name := "styles.css", partialUrl := "styles.css", mimeType := "text/css",
         content := encodeContent (cssVars { primary := some "#ff0000" } ++ css) }] ∧
    (Sample.acmeRun html css environmentUrl websiteId).uploads.map
        (fun f => decodeContent f.content) =
      [replaceLiteral "\x7b\x7bACCENT_COLOR\x7d\x7d" "#06b6d4"
         (replaceLiteral "\x7b\x7bSECONDARY_COLOR\x7d\x7d" "#1e40af"
           (replaceLiteral "\x7b\x7bPRIMARY_COLOR\x7d\x7d" "#ff0000"
             (replaceLiteral "\x7b\x7bORG_NAME\x7d\x7d" "Acme" html))),
       cssVars { primary := some "#ff0000" } ++ css] ∧
    cssVars { primary := some "#ff0000" } =
      "\n:root \x7b\n    --brand-primary: #ff0000;\n    --brand-secondary: #1e40af;\n    --brand-accent: #06b6d4;\n    --brand-text: #1e293b;\n    --brand-background: #ffffff;\n\x7d\n" ∧
    (Sample.acmeRun html css environmentUrl websiteId).requests =
      (deployTheme Sample.accepting "undefined" websiteId (Sample.siteFiles html css)
        (some Sample.acme)).sent ∧
    (deployTheme Sample.accepting "undefined" websiteId (Sample.siteFiles html css)
        (some Sample.acme)).result =
      .ok { success := true, totalFiles := 2, successCount := 2, errorCount := 0,
            deploymentLog := [{ file := "index.html", status := "success" },
                              { file := "styles.css", status := "success" }] } ∧
    (Sample.acmeRun
        "<h1 style=\"color:\x7b\x7bPRIMARY_COLOR\x7d\x7d\">\x7b\x7bORG_NAME\x7d\x7d</h1>"
        "body \x7b margin: 0 \x7d" "https://env" "site").requests.map
        (fun r => (r.url, r.method, (r.data.lookup "documentbody").map decodeContent)) =
      [("undefined/api/data/v9.2/adx_webfiles", "POST", none),
       ("undefined/api/data/v9.2/annotations", "POST",
         some "<h1 style=\"color:#ff0000\">Acme</h1>"),
       ("undefined/api/data/v9.2/adx_webfiles", "POST", none),
       ("undefined/api/data/v9.2/annotations", "POST",
         some "\n:root \x7b\n    --brand-primary: #ff0000;\n    --brand-secondary: #1e40af;\n    --brand-accent: #06b6d4;\n    --brand-text: #1e293b;\n    --brand-background: #ffffff;\n\x7d\nbody \x7b margin: 0 \x7d")] ∧
    (Sample.acmeRun html css environmentUrl websiteId).rejected =
      some (Sample.worldWith (Sample.siteArchive html css) Sample.accepting).saveError ∧
    (Sample.acmeRun html css environmentUrl websiteId).theme.deployment.status = "failed" ∧
    (Sample.acmeRun html css environmentUrl websiteId).theme.deployment.errorMessage =
      some (Sample.worldWith (Sample.siteArchive html css) Sample.accepting).saveError ∧
    (Sample.acmeRun html css environmentUrl websiteId).theme.deploymentProgress = 0 ∧
    (∃ last, (Sample.acmeRun html css environmentUrl websiteId).saves.getLast? = some last ∧
      last.deployment.status = "deploying" ∧ last.deploymentProgress = 70 ∧
      (statusResponse last).status = "deploying" ∧ (statusResponse last).progress = 70) ∧
    (∀ saved ∈ (Sample.acmeRun html css environmentUrl websiteId).saves,
      saved.deployment.status ≠ "completed" ∧ saved.deploymentProgress ≠ 100 ∧
      (statusResponse saved).progress ≠ 100) := by
  obtain ⟨result, hresult⟩ := deployTheme_result_ok Sample.accepting
    (jsToString (executeCreate Sample.fromUpload environmentUrl
      websiteId).deployment.powerPagesEnvironmentUrl)
    (jsToString (executeCreate Sample.fromUpload environmentUrl
      websiteId).deployment.powerPagesWebsiteId)
    (Sample.siteFiles html css) (some Sample.acme)
  obtain ⟨hstatus, herror, hrejected, ⟨last, hlast, hdeploying, -⟩, huploads, hrequests⟩ :=
    processDeployment_valid_end
      (Sample.worldWith (Sample.siteArchive html css) Sample.accepting) Sample.fromUpload
      (some Sample.acme) (executeCreate Sample.fromUpload environmentUrl websiteId)
      (Sample.siteFiles html css) result
      (siteArchive_load html css environmentUrl websiteId Sample.accepting)
      (siteFiles_valid html css) hresult
  have hframe := processDeployment_saved_frame
    (Sample.worldWith (Sample.siteArchive html css) Sample.accepting) Sample.fromUpload
    (some Sample.acme) (executeCreate Sample.fromUpload environmentUrl websiteId)
  have hup : (Sample.acmeRun html css environmentUrl websiteId).uploads =
      brandedFiles (Sample.siteFiles html css) (some Sample.acme) := huploads
  have hnot : ∀ saved ∈ (Sample.acmeRun html css environmentUrl websiteId).saves,
      saved.deployment.status ≠ "completed" := by
    intro saved hsaved h
    have hs := (hframe saved hsaved).1
    rw [h] at hs
    exact absurd hs (by decide)
  refine ⟨?_, ?_, by decide, hrequests, ?_, by decide, hrejected, hstatus, herror,
    (progress_of_status _).2.1 hstatus,
    ⟨last, hlast, hdeploying, (progress_of_status _).1 hdeploying, hdeploying,
      (progress_of_status _).1 hdeploying⟩, ?_⟩
  · rw [hup, siteFiles_branded]
  · rw [hup, siteFiles_branded]
    simp only [List.map_cons, List.map_nil, decodeContent_encodeContent]
  · obtain ⟨h1, h2, h3⟩ := uploadLoop_accepting "undefined" websiteId
      (brandedFiles (Sample.siteFiles html css) (some Sample.acme)) 0 {}
    rw [deployTheme_result, h1, h2, h3, siteFiles_branded]
    rfl
  · intro saved hsaved
    have h := hnot saved hsaved
    exact ⟨h, (progress_of_status saved).2.2 (hframe saved hsaved).1,
      (progress_of_status saved).2.2 (hframe saved hsaved).1⟩

end Deploy

end PowerPages
